import Mathlib

/-!
# TMS1100 emulator (merlin-tms1100): shallow embedding of `tms1xx0.cpp`

Conventions of the embedding.

* `BYTE` (unsigned char) and `WORD` (unsigned short) values are natural numbers; every
  conversion to `BYTE` that can wrap is written `% 256`, every conversion to `WORD` is
  written `% 65536`. The C operator `~` acts on a 32-bit `int` and is written
  `^^^ 0xFFFFFFFF`.
* A C++ function that can throw, or whose behaviour is undefined on some input (array
  access outside its bounds, read of a never written table cell), returns
  `Except Fault _`.
* The three host callbacks are external; a call of one of them is recorded in the
  field `trace` of `CPUState`.
-/

set_option maxRecDepth 10000

deriving instance DecidableEq for Except

namespace TMS

/-- Ways in which the C++ code fails to produce a result. -/
inductive Fault where
  /-- The `runtime_error` thrown by `inverseSequence`. -/
  | inverseSequence_error
  /-- The `runtime_error` thrown by `ROM::get_data`. -/
  | rom_out_of_range
  /-- An array access outside its bounds or a read of a never written cell. -/
  | undefined_behaviour
  deriving DecidableEq, Repr

/-- Macro `R_WIDTH` of `tms1xx0.h`. -/
def R_WIDTH : Nat := 15

/-- Macro `SET1`. -/
def SET1 (x : Nat) : Nat := x &&& 0x01
/-- Macro `SET2`. -/
def SET2 (x : Nat) : Nat := x &&& 0x03
/-- Macro `SET3`. -/
def SET3 (x : Nat) : Nat := x &&& 0x07
/-- Macro `SET4`. -/
def SET4 (x : Nat) : Nat := x &&& 0x0F
/-- Macro `SET6`. -/
def SET6 (x : Nat) : Nat := x &&& 0x3F
/-- Macro `NOT4`: `(~X) & 0x0F`, the complement taken on a 32-bit `int`. -/
def NOT4 (x : Nat) : Nat := (x ^^^ 0xFFFFFFFF) &&& 0x0F

/-- Table `pc_sequence` (64 entries). -/
def pc_sequence : List Nat :=
  [0x00, 0x01, 0x03, 0x07, 0x0F, 0x1F, 0x3F, 0x3E,
   0x3D, 0x3B, 0x37, 0x2F, 0x1E, 0x3C, 0x39, 0x33,
   0x27, 0x0E, 0x1D, 0x3A, 0x35, 0x2B, 0x16, 0x2C,
   0x18, 0x30, 0x21, 0x02, 0x05, 0x0B, 0x17, 0x2E,
   0x1C, 0x38, 0x31, 0x23, 0x06, 0x0D, 0x1B, 0x36,
   0x2D, 0x1A, 0x34, 0x29, 0x12, 0x24, 0x08, 0x11,
   0x22, 0x04, 0x09, 0x13, 0x26, 0x0C, 0x19, 0x32,
   0x25, 0x0A, 0x15, 0x2A, 0x14, 0x28, 0x10, 0x20]

/-- The loop of `inverseSequence` with `todo` iterations left, the counter being `i`:
`for (; i < 64; ++i) if (pc_sequence[i] == addr) return i;` followed by the `throw`. -/
def inverseSequence_loop (addr : Nat) : Nat → Nat → Except Fault Nat
  | 0, _ => .error .inverseSequence_error
  | todo + 1, i =>
    if pc_sequence.getD i 0 = addr then .ok i
    else inverseSequence_loop addr todo (i + 1)

/-- Function `inverseSequence`. -/
def inverseSequence (addr : Nat) : Except Fault Nat :=
  inverseSequence_loop addr 64 0

/-- Class `ROM`: the image `data_` (empty for `NULL`) and `rom_size_`. -/
structure ROM where
  data_ : List Nat
  rom_size_ : Nat

/-- Constructor `ROM::ROM`. -/
def ROM.ctor : ROM := { data_ := [], rom_size_ := 0 }

/-- Method `ROM::get_data`. The test `index < 0` never holds for a `WORD`. -/
def ROM.get_data (rom : ROM) (index : Nat) : Except Fault Nat :=
  if index ≥ rom.rom_size_ then .error .rom_out_of_range
  else match rom.data_[index]? with
    | some b => .ok b
    | none => .error .undefined_behaviour

/-- The index `i & 0xFFC0 | pc_sequence[i & 0x3F]` read from the dump by `load_rom`. -/
def raw_index (i : Nat) : Nat :=
  (i &&& 0xFFC0) ||| pc_sequence.getD (i &&& 0x3F) 0

/-- The rewriting of a fetched byte in `load_rom`: a byte with its top bit set keeps
its top two bits and gets `inverseSequence` of its low six bits as operand. -/
def remap_opcode (b : Nat) : Except Fault Nat :=
  if b &&& 0x80 ≠ 0 then do
    let newAddress ← inverseSequence (b &&& 0x3F)
    pure ((b &&& 0xC0) ||| newAddress)
  else pure b

/-- One iteration of the loop of `load_rom`: the value stored in `remappedROM[i]`. -/
def remap_byte (buffer : List Nat) (i : Nat) : Except Fault Nat :=
  match buffer[raw_index i]? with
  | none => .error .undefined_behaviour
  | some c => remap_opcode (c % 256)

/-- The array `remappedROM` after the first `k` iterations of the loop of `load_rom`. -/
def remap_loop (buffer : List Nat) : Nat → Except Fault (List Nat)
  | 0 => pure []
  | k + 1 => do
    let done ← remap_loop buffer k
    let b ← remap_byte buffer k
    pure (done ++ [b])

/-- Method `ROM::load_rom`, from the point where the file has been read into `buffer`
(`size` is the length of the file). -/
def ROM.load_rom (_rom : ROM) (buffer : List Nat) : Except Fault ROM := do
  let size := buffer.length
  let remappedROM ← remap_loop buffer size
  pure { data_ := remappedROM, rom_size_ := size }

/-- A call of one of the three host callbacks, with its arguments. -/
inductive Event where
  /-- A call `output_r_cb_(index, value)`. -/
  | r (index : Nat) (value : Bool)
  /-- A call `output_o_cb_(value)`. -/
  | o (value : Nat)
  /-- A call `input_k_cb_(value)`. -/
  | k (value : Nat)
  deriving DecidableEq, Repr

/-- Class `CPUState`. The array `reg_r_` is a function of the index (every access in
the source is guarded by `index < R_WIDTH`). A callback slot holding `NULL` is
`false` (resp. `none`); `trace` lists the callback calls made so far, oldest first. -/
structure CPUState where
  reg_a_ : Nat
  reg_cl_ : Bool
  reg_ca_ : Nat
  reg_cb_ : Nat
  reg_cs_ : Nat
  reg_k_ : Nat
  reg_o_ : Nat
  reg_pa_ : Nat
  reg_pb_ : Nat
  reg_pc_ : Nat
  reg_r_ : Nat → Bool
  reg_s_ : Bool
  reg_sl_ : Bool
  reg_sr_ : Nat
  reg_x_ : Nat
  reg_y_ : Nat
  output_r_cb_ : Bool
  output_o_cb_ : Bool
  input_k_cb_ : Option (Int → Int)
  trace : List Event

namespace CPUState

/-- Method `CPUState::increment_pc`. -/
def increment_pc (c : CPUState) : CPUState := { c with reg_pc_ := SET6 (c.reg_pc_ + 1) }

/-- Method `CPUState::get_pc`. -/
def get_pc (c : CPUState) : Nat := c.reg_pc_
/-- Method `CPUState::set_pc`. -/
def set_pc (c : CPUState) (pc : Nat) : CPUState := { c with reg_pc_ := SET6 pc }
/-- Method `CPUState::get_pa`. -/
def get_pa (c : CPUState) : Nat := c.reg_pa_
/-- Method `CPUState::set_pa`. -/
def set_pa (c : CPUState) (pa : Nat) : CPUState := { c with reg_pa_ := SET4 pa }
/-- Method `CPUState::get_pb`. -/
def get_pb (c : CPUState) : Nat := c.reg_pb_
/-- Method `CPUState::set_pb`. -/
def set_pb (c : CPUState) (pb : Nat) : CPUState := { c with reg_pb_ := SET4 pb }
/-- Method `CPUState::get_s`. -/
def get_s (c : CPUState) : Bool := c.reg_s_
/-- Method `CPUState::set_s`. -/
def set_s (c : CPUState) (val : Bool) : CPUState := { c with reg_s_ := val }
/-- Method `CPUState::get_sl`. -/
def get_sl (c : CPUState) : Bool := c.reg_sl_
/-- Method `CPUState::set_sl`. -/
def set_sl (c : CPUState) (val : Bool) : CPUState := { c with reg_sl_ := val }
/-- Method `CPUState::get_sr`. -/
def get_sr (c : CPUState) : Nat := c.reg_sr_
/-- Method `CPUState::set_sr`: the value is stored as it is. -/
def set_sr (c : CPUState) (val : Nat) : CPUState := { c with reg_sr_ := val }
/-- Method `CPUState::get_a`. -/
def get_a (c : CPUState) : Nat := c.reg_a_
/-- Method `CPUState::set_a`. -/
def set_a (c : CPUState) (val : Nat) : CPUState := { c with reg_a_ := SET4 val }
/-- Method `CPUState::get_y`. -/
def get_y (c : CPUState) : Nat := c.reg_y_
/-- Method `CPUState::set_y`. -/
def set_y (c : CPUState) (val : Nat) : CPUState := { c with reg_y_ := SET4 val }
/-- Method `CPUState::inc_y`: `reg_y_ + 1` is converted to `BYTE` for `set_y`. -/
def inc_y (c : CPUState) : CPUState := c.set_y ((c.reg_y_ + 1) % 256)
/-- Method `CPUState::dec_y`: `reg_y_ - 1` is converted to `BYTE` for `set_y`
(`-1` becomes `255`). -/
def dec_y (c : CPUState) : CPUState := c.set_y ((c.reg_y_ + 256 - 1) % 256)
/-- Method `CPUState::get_x`. -/
def get_x (c : CPUState) : Nat := c.reg_x_
/-- Method `CPUState::set_x`. -/
def set_x (c : CPUState) (val : Nat) : CPUState := { c with reg_x_ := SET3 val }
/-- Method `CPUState::com_x`. The argument of the macro is not parenthesised, so
`SET3(reg_x_ ^ 4)` expands to `(reg_x_ ^ 4 & 0x07)`, which C reads as
`reg_x_ ^ (4 & 0x07)`; the `int` result is converted to `BYTE`. -/
def com_x (c : CPUState) : CPUState := { c with reg_x_ := (c.reg_x_ ^^^ (4 &&& 0x07)) % 256 }
/-- Method `CPUState::com_cb`. -/
def com_cb (c : CPUState) : CPUState := { c with reg_cb_ := SET1 (c.reg_cb_ ^^^ 0xFFFFFFFF) }
/-- Method `CPUState::set_k`. -/
def set_k (c : CPUState) (val : Nat) : CPUState := { c with reg_k_ := SET4 val }

/-- Method `CPUState::get_k`: the updated state and the returned value. The `int`
returned by the callback is converted to `BYTE` for `set_k`. -/
def get_k (c : CPUState) : CPUState × Nat :=
  match c.input_k_cb_ with
  | some cb =>
    let c1 := { c with trace := c.trace ++ [Event.k c.reg_o_] }
    let c2 := c1.set_k ((cb (Int.ofNat c.reg_o_) % 256).toNat)
    (c2, c2.reg_k_)
  | none => (c, c.reg_k_)

/-- Method `CPUState::set_r_index`. The test `index >= 0` always holds for a `BYTE`. -/
def set_r_index (c : CPUState) (index : Nat) : CPUState :=
  if index < R_WIDTH then
    let c1 := { c with reg_r_ := fun j => if j = index then true else c.reg_r_ j }
    if c1.output_r_cb_ then { c1 with trace := c1.trace ++ [Event.r index true] } else c1
  else c

/-- Method `CPUState::rst_r_index`. -/
def rst_r_index (c : CPUState) (index : Nat) : CPUState :=
  if index < R_WIDTH then
    let c1 := { c with reg_r_ := fun j => if j = index then false else c.reg_r_ j }
    if c1.output_r_cb_ then { c1 with trace := c1.trace ++ [Event.r index false] } else c1
  else c

/-- Method `CPUState::set_o`: the value is stored as it is. -/
def set_o (c : CPUState) (val : Nat) : CPUState :=
  let c1 := { c with reg_o_ := val }
  if c1.output_o_cb_ then { c1 with trace := c1.trace ++ [Event.o c1.reg_o_] } else c1

/-- Method `CPUState::get_cl`. -/
def get_cl (c : CPUState) : Bool := c.reg_cl_
/-- Method `CPUState::set_cl`. -/
def set_cl (c : CPUState) (val : Bool) : CPUState := { c with reg_cl_ := val }
/-- Method `CPUState::get_ca`. -/
def get_ca (c : CPUState) : Nat := c.reg_ca_
/-- Method `CPUState::set_ca`. -/
def set_ca (c : CPUState) (val : Nat) : CPUState := { c with reg_ca_ := SET1 val }
/-- Method `CPUState::get_cb`. -/
def get_cb (c : CPUState) : Nat := c.reg_cb_
/-- Method `CPUState::set_cb`. -/
def set_cb (c : CPUState) (val : Nat) : CPUState := { c with reg_cb_ := SET1 val }
/-- Method `CPUState::get_cs`. -/
def get_cs (c : CPUState) : Nat := c.reg_cs_
/-- Method `CPUState::set_cs`. -/
def set_cs (c : CPUState) (val : Nat) : CPUState := { c with reg_cs_ := SET1 val }

/-- Method `CPUState::set_output_r_cb` with a callback that is not `NULL`. -/
def set_output_r_cb (c : CPUState) : CPUState := { c with output_r_cb_ := true }
/-- Method `CPUState::set_output_o_cb` with a callback that is not `NULL`. -/
def set_output_o_cb (c : CPUState) : CPUState := { c with output_o_cb_ := true }
/-- Method `CPUState::set_input_k_cb`. -/
def set_input_k_cb (c : CPUState) (cb : Option (Int → Int)) : CPUState :=
  { c with input_k_cb_ := cb }

/-- The storage of a `CPUState` object before its constructor body has run. The
constructor overwrites every field (for `reg_r_`, every index below `R_WIDTH`). -/
def storage : CPUState :=
  { reg_a_ := 0, reg_cl_ := false, reg_ca_ := 0, reg_cb_ := 0, reg_cs_ := 0, reg_k_ := 0,
    reg_o_ := 0, reg_pa_ := 0, reg_pb_ := 0, reg_pc_ := 0, reg_r_ := fun _ => false,
    reg_s_ := false, reg_sl_ := false, reg_sr_ := 0, reg_x_ := 0, reg_y_ := 0,
    output_r_cb_ := false, output_o_cb_ := false, input_k_cb_ := none, trace := [] }

/-- Constructor `CPUState::CPUState`, statement by statement. -/
def ctor : CPUState :=
  let c := { storage with output_r_cb_ := false, output_o_cb_ := false, input_k_cb_ := none }
  let c := c.set_x 0xAA
  let c := c.set_y 0xAA
  let c := c.set_a 0xAA
  let c := c.set_s false
  let c := c.set_sl false
  let c := c.set_sr 0x00
  let c := c.set_pc 0x00
  let c := c.set_pa 0xFF
  let c := c.set_pb 0xFF
  let c := c.set_k 0x00
  let c := c.set_cl false
  let c := c.set_o 0
  let c := (List.range R_WIDTH).foldl
    (fun (c : CPUState) i => { c with reg_r_ := fun j => if j = i then false else c.reg_r_ j }) c
  let c := c.set_ca 0
  let c := c.set_cb 0
  let c := c.set_cs 0
  c

end CPUState

/-- The member functions of `TMS1100` that `setup_op_codes` stores in `op_code_func_`. -/
inductive OpFunc where
  | op_tay | op_tya | op_cla
  | op_tam | op_tamiyc | op_tamdyn | op_tamza
  | op_tmy | op_tma | op_xma
  | op_amaac | op_saman | op_imac | op_dman | op_a_aac
  | op_iyc | op_dyn | op_cpaiz
  | op_alem
  | op_mnea | op_mnez | op_ynea
  | op_ldp | op_tcy | op_ynec | op_tcmiy
  | op_comx | op_comc
  | op_sbit | op_rbit | op_tbit1
  | op_knez | op_tka
  | op_setr | op_rstr | op_tdo
  | op_ldx
  | op_br | op_call | op_retn
  deriving DecidableEq, Repr

/-- The members `op_code_func_` and `op_code_constant_` of `TMS1100`, as functions of
the index. In `op_code_func_`, `none` is `NULL`; in `op_code_constant_`, `none` is a
cell that no statement has written. -/
structure OpTables where
  op_code_func_ : Nat → Option OpFunc
  op_code_constant_ : Nat → Option Nat

/-- The assignment `op_code_func_[i] = f`. -/
def OpTables.set_func (tb : OpTables) (i : Nat) (f : Option OpFunc) : OpTables :=
  { tb with op_code_func_ := fun j => if j = i then f else tb.op_code_func_ j }

/-- The assignment `op_code_constant_[i] = k`. -/
def OpTables.set_constant (tb : OpTables) (i : Nat) (k : Nat) : OpTables :=
  { tb with op_code_constant_ := fun j => if j = i then some k else tb.op_code_constant_ j }

/-- Method `TMS1100::setup_op_codes`, statement by statement; a `for` loop over an
array of constants is a fold over its indices (`op_index` is a `BYTE`). -/
def setup_op_codes (tb : OpTables) : OpTables :=
  let tb := tb.set_func 0x20 (some .op_tay)
  let tb := tb.set_func 0x23 (some .op_tya)
  let tb := tb.set_func 0x7f (some .op_cla)
  let tb := tb.set_func 0x27 (some .op_tam)
  let tb := tb.set_func 0x25 (some .op_tamiyc)
  let tb := tb.set_func 0x24 (some .op_tamdyn)
  let tb := tb.set_func 0x26 (some .op_tamza)
  let tb := tb.set_func 0x22 (some .op_tmy)
  let tb := tb.set_func 0x21 (some .op_tma)
  let tb := tb.set_func 0x03 (some .op_xma)
  let tb := tb.set_func 0x06 (some .op_amaac)
  let tb := tb.set_func 0x3c (some .op_saman)
  let tb := tb.set_func 0x3e (some .op_imac)
  let tb := tb.set_func 0x07 (some .op_dman)
  let op_constants_0 : List Nat := [1, 9, 5, 13, 3, 11, 7, 15, 2, 10, 6, 14, 4, 12, 8]
  let tb := (List.range op_constants_0.length).foldl (fun (tb : OpTables) i =>
    let op_index := (0x70 + i) % 256
    let tb := tb.set_func op_index (some .op_a_aac)
    tb.set_constant op_index (op_constants_0.getD i 0)) tb
  let tb := tb.set_func 0x05 (some .op_iyc)
  let tb := tb.set_func 0x04 (some .op_dyn)
  let tb := tb.set_func 0x3d (some .op_cpaiz)
  let tb := tb.set_func 0x01 (some .op_alem)
  let tb := tb.set_func 0x00 (some .op_mnea)
  let tb := tb.set_func 0x3f (some .op_mnez)
  let tb := tb.set_func 0x02 (some .op_ynea)
  let op_constants_1 : List Nat := [0, 8, 4, 12, 2, 10, 6, 14, 1, 9, 5, 13, 3, 11, 7, 15]
  let tb := (List.range op_constants_1.length).foldl (fun (tb : OpTables) i =>
    let op_index := (0x10 + i) % 256
    let tb := tb.set_func op_index (some .op_ldp)
    let tb := tb.set_constant op_index (op_constants_1.getD i 0)
    let op_index := (0x40 + i) % 256
    let tb := tb.set_func op_index (some .op_tcy)
    let tb := tb.set_constant op_index (op_constants_1.getD i 0)
    let op_index := (0x50 + i) % 256
    let tb := tb.set_func op_index (some .op_ynec)
    let tb := tb.set_constant op_index (op_constants_1.getD i 0)
    let op_index := (0x60 + i) % 256
    let tb := tb.set_func op_index (some .op_tcmiy)
    tb.set_constant op_index (op_constants_1.getD i 0)) tb
  let tb := tb.set_func 0x09 (some .op_comx)
  let tb := tb.set_func 0x0b (some .op_comc)
  let op_constants_2 : List Nat := [0, 2, 1, 3]
  let tb := (List.range op_constants_2.length).foldl (fun (tb : OpTables) i =>
    let op_index := (0x30 + i) % 256
    let tb := tb.set_func op_index (some .op_sbit)
    let tb := tb.set_constant op_index (op_constants_2.getD i 0)
    let op_index := (0x34 + i) % 256
    let tb := tb.set_func op_index (some .op_rbit)
    let tb := tb.set_constant op_index (op_constants_2.getD i 0)
    let op_index := (0x38 + i) % 256
    let tb := tb.set_func op_index (some .op_tbit1)
    tb.set_constant op_index (op_constants_2.getD i 0)) tb
  let tb := tb.set_func 0x0e (some .op_knez)
  let tb := tb.set_func 0x08 (some .op_tka)
  let tb := tb.set_func 0x0d (some .op_setr)
  let tb := tb.set_func 0x0c (some .op_rstr)
  let tb := tb.set_func 0x0a (some .op_tdo)
  let op_constants_3 : List Nat := [0, 4, 2, 6, 1, 5, 3, 7]
  let tb := (List.range op_constants_3.length).foldl (fun (tb : OpTables) i =>
    let op_index := (0x28 + i) % 256
    let tb := tb.set_func op_index (some .op_ldx)
    tb.set_constant op_index (op_constants_3.getD i 0)) tb
  let tb := (List.range 0x40).foldl (fun (tb : OpTables) i =>
    let tb := tb.set_func (0x80 + i) (some .op_br)
    tb.set_func (0xC0 + i) (some .op_call)) tb
  let tb := tb.set_func 0x0f (some .op_retn)
  tb

/-- The two tables as the constructor `TMS1100::TMS1100` leaves them: every cell of
`op_code_func_` is set to `NULL`, then `setup_op_codes` runs. No other code writes
them, so they are the same for every `TMS1100` object. -/
def op_tables : OpTables :=
  let tb : OpTables := { op_code_func_ := fun _ => none, op_code_constant_ := fun _ => none }
  let tb := (List.range 256).foldl (fun (tb : OpTables) i => tb.set_func i none) tb
  setup_op_codes tb

/-- A read of `op_code_func_[opcode]`. -/
def op_code_func_ (opcode : Nat) : Option OpFunc := op_tables.op_code_func_ opcode

/-- A read of `op_code_constant_[opcode]`; reading a never written cell is a fault. -/
def op_code_constant_ (opcode : Nat) : Except Fault Nat :=
  match op_tables.op_code_constant_ opcode with
  | some k => .ok k
  | none => .error .undefined_behaviour

/-- Class `TMS1100` (the two tables are `op_tables`): the CPU state, the ROM and the
128 cells of `ram_`, as a function of the index. -/
structure TMS1100 where
  cpu_ : CPUState
  rom_ : ROM
  ram_ : Nat → Nat

/-- Number of cells allocated for `ram_` by the constructor. -/
def RAM_SIZE : Nat := 128

namespace TMS1100

/-- The index `(cpu_->get_x() << 4) | cpu_->get_y()` of macro `CURR_RAM`. -/
def CURR_RAM_index (t : TMS1100) : Nat := (t.cpu_.get_x <<< 4) ||| t.cpu_.get_y

/-- A read of `CURR_RAM`; an index outside the 128 cells is a fault. -/
def CURR_RAM (t : TMS1100) : Except Fault Nat :=
  if t.CURR_RAM_index < RAM_SIZE then .ok (t.ram_ t.CURR_RAM_index)
  else .error .undefined_behaviour

/-- An assignment `CURR_RAM = val`; an index outside the 128 cells is a fault. -/
def CURR_RAM_assign (t : TMS1100) (val : Nat) : Except Fault TMS1100 :=
  if t.CURR_RAM_index < RAM_SIZE then
    .ok { t with ram_ := fun j => if j = t.CURR_RAM_index then val else t.ram_ j }
  else .error .undefined_behaviour

/-- Method `op_tay`. -/
def op_tay (_opcode : Nat) (_last_s : Bool) (t : TMS1100) : Except Fault TMS1100 :=
  pure { t with cpu_ := t.cpu_.set_y t.cpu_.get_a }

/-- Method `op_tya`. -/
def op_tya (_opcode : Nat) (_last_s : Bool) (t : TMS1100) : Except Fault TMS1100 :=
  pure { t with cpu_ := t.cpu_.set_a t.cpu_.get_y }

/-- Method `op_cla`. -/
def op_cla (_opcode : Nat) (_last_s : Bool) (t : TMS1100) : Except Fault TMS1100 :=
  pure { t with cpu_ := t.cpu_.set_a 0 }

/-- Method `op_tam`. -/
def op_tam (_opcode : Nat) (_last_s : Bool) (t : TMS1100) : Except Fault TMS1100 :=
  t.CURR_RAM_assign t.cpu_.get_a

/-- Method `op_tamiyc`. -/
def op_tamiyc (_opcode : Nat) (_last_s : Bool) (t : TMS1100) : Except Fault TMS1100 := do
  let t ← t.CURR_RAM_assign t.cpu_.get_a
  let t := { t with cpu_ := t.cpu_.set_s (decide (t.cpu_.get_y = 0x0F)) }
  pure { t with cpu_ := t.cpu_.inc_y }

/-- Method `op_tamdyn`. -/
def op_tamdyn (_opcode : Nat) (_last_s : Bool) (t : TMS1100) : Except Fault TMS1100 := do
  let t ← t.CURR_RAM_assign t.cpu_.get_a
  let t := { t with cpu_ := t.cpu_.set_s (decide (t.cpu_.get_y ≥ 1)) }
  pure { t with cpu_ := t.cpu_.dec_y }

/-- Method `op_tamza`. -/
def op_tamza (_opcode : Nat) (_last_s : Bool) (t : TMS1100) : Except Fault TMS1100 := do
  let t ← t.CURR_RAM_assign t.cpu_.get_a
  pure { t with cpu_ := t.cpu_.set_a 0 }

/-- Method `op_tmy`. -/
def op_tmy (_opcode : Nat) (_last_s : Bool) (t : TMS1100) : Except Fault TMS1100 := do
  let v ← t.CURR_RAM
  pure { t with cpu_ := t.cpu_.set_y v }

/-- Method `op_tma`. -/
def op_tma (_opcode : Nat) (_last_s : Bool) (t : TMS1100) : Except Fault TMS1100 := do
  let v ← t.CURR_RAM
  pure { t with cpu_ := t.cpu_.set_a v }

/-- Method `op_xma`. -/
def op_xma (_opcode : Nat) (_last_s : Bool) (t : TMS1100) : Except Fault TMS1100 := do
  let temp ← t.CURR_RAM
  let t ← t.CURR_RAM_assign t.cpu_.get_a
  pure { t with cpu_ := t.cpu_.set_a temp }

/-- Method `uADC_a`: `sum` is a `BYTE`. -/
def uADC_a (t : TMS1100) (val : Nat) : TMS1100 :=
  let sum := (t.cpu_.get_a + val) % 256
  let t := { t with cpu_ := t.cpu_.set_s (decide (sum > 0x0F)) }
  { t with cpu_ := t.cpu_.set_a sum }

/-- Method `uADC_y`: `sum` is a `BYTE`. -/
def uADC_y (t : TMS1100) (val : Nat) : TMS1100 :=
  let sum := (t.cpu_.get_y + val) % 256
  let t := { t with cpu_ := t.cpu_.set_s (decide (sum > 0x0F)) }
  { t with cpu_ := t.cpu_.set_y sum }

/-- Method `op_amaac`. -/
def op_amaac (_opcode : Nat) (_last_s : Bool) (t : TMS1100) : Except Fault TMS1100 := do
  let v ← t.CURR_RAM
  pure (t.uADC_a v)

/-- Method `op_saman`: `sum` is a `BYTE`. -/
def op_saman (_opcode : Nat) (_last_s : Bool) (t : TMS1100) : Except Fault TMS1100 := do
  let v ← t.CURR_RAM
  let sum := (NOT4 t.cpu_.get_a + v + 1) % 256
  let t := { t with cpu_ := t.cpu_.set_s (decide (sum > 0x0F)) }
  pure { t with cpu_ := t.cpu_.set_a sum }

/-- Method `op_imac`. -/
def op_imac (_opcode : Nat) (_last_s : Bool) (t : TMS1100) : Except Fault TMS1100 := do
  let v ← t.CURR_RAM
  let t := { t with cpu_ := t.cpu_.set_a v }
  pure (t.uADC_a 0x01)

/-- Method `op_dman`. -/
def op_dman (_opcode : Nat) (_last_s : Bool) (t : TMS1100) : Except Fault TMS1100 := do
  let v ← t.CURR_RAM
  let t := { t with cpu_ := t.cpu_.set_a v }
  pure (t.uADC_a 0x0F)

/-- Method `op_a_aac`. -/
def op_a_aac (opcode : Nat) (_last_s : Bool) (t : TMS1100) : Except Fault TMS1100 := do
  let k ← op_code_constant_ opcode
  pure (t.uADC_a k)

/-- Method `op_iyc`. -/
def op_iyc (_opcode : Nat) (_last_s : Bool) (t : TMS1100) : Except Fault TMS1100 :=
  pure (t.uADC_y 0x01)

/-- Method `op_dyn`. -/
def op_dyn (_opcode : Nat) (_last_s : Bool) (t : TMS1100) : Except Fault TMS1100 :=
  pure (t.uADC_y 0x0F)

/-- Method `op_cpaiz`: `sum` is a `BYTE`. -/
def op_cpaiz (_opcode : Nat) (_last_s : Bool) (t : TMS1100) : Except Fault TMS1100 :=
  let sum := (NOT4 t.cpu_.get_a + 1) % 256
  let t := { t with cpu_ := t.cpu_.set_s (decide (sum > 0x0F)) }
  pure { t with cpu_ := t.cpu_.set_a sum }

/-- Method `op_alem`: `sum` is a `BYTE`. -/
def op_alem (_opcode : Nat) (_last_s : Bool) (t : TMS1100) : Except Fault TMS1100 := do
  let v ← t.CURR_RAM
  let sum := (NOT4 t.cpu_.get_a + v + 1) % 256
  pure { t with cpu_ := t.cpu_.set_s (decide (sum > 0x0F)) }

/-- Method `op_mnea`. -/
def op_mnea (_opcode : Nat) (_last_s : Bool) (t : TMS1100) : Except Fault TMS1100 := do
  let v ← t.CURR_RAM
  pure { t with cpu_ := t.cpu_.set_s (decide (v ≠ t.cpu_.get_a)) }

/-- Method `op_mnez`. -/
def op_mnez (_opcode : Nat) (_last_s : Bool) (t : TMS1100) : Except Fault TMS1100 := do
  let v ← t.CURR_RAM
  pure { t with cpu_ := t.cpu_.set_s (decide (v ≠ 0)) }

/-- Method `op_ynea`. -/
def op_ynea (_opcode : Nat) (_last_s : Bool) (t : TMS1100) : Except Fault TMS1100 :=
  let t := { t with cpu_ := t.cpu_.set_s (decide (t.cpu_.get_a ≠ t.cpu_.get_y)) }
  pure { t with cpu_ := t.cpu_.set_sl t.cpu_.get_s }

/-- Method `op_ldp`. -/
def op_ldp (opcode : Nat) (_last_s : Bool) (t : TMS1100) : Except Fault TMS1100 := do
  let k ← op_code_constant_ opcode
  pure { t with cpu_ := t.cpu_.set_pb k }

/-- Method `op_tcy`. -/
def op_tcy (opcode : Nat) (_last_s : Bool) (t : TMS1100) : Except Fault TMS1100 := do
  let k ← op_code_constant_ opcode
  pure { t with cpu_ := t.cpu_.set_y k }

/-- Method `op_ynec`. -/
def op_ynec (opcode : Nat) (_last_s : Bool) (t : TMS1100) : Except Fault TMS1100 := do
  let k ← op_code_constant_ opcode
  pure { t with cpu_ := t.cpu_.set_s (decide (t.cpu_.get_y ≠ k)) }

/-- Method `op_tcmiy`. -/
def op_tcmiy (opcode : Nat) (_last_s : Bool) (t : TMS1100) : Except Fault TMS1100 := do
  let k ← op_code_constant_ opcode
  let t ← t.CURR_RAM_assign k
  pure { t with cpu_ := t.cpu_.inc_y }

/-- Method `op_comx`. -/
def op_comx (_opcode : Nat) (_last_s : Bool) (t : TMS1100) : Except Fault TMS1100 :=
  pure { t with cpu_ := t.cpu_.com_x }

/-- Method `op_comc`. -/
def op_comc (_opcode : Nat) (_last_s : Bool) (t : TMS1100) : Except Fault TMS1100 :=
  pure { t with cpu_ := t.cpu_.com_cb }

/-- Method `op_sbit`: `setBit` is a `BYTE`, and so is the cell assigned by `|=`. -/
def op_sbit (opcode : Nat) (_last_s : Bool) (t : TMS1100) : Except Fault TMS1100 := do
  let k ← op_code_constant_ opcode
  let setBit := (1 <<< k) % 256
  let v ← t.CURR_RAM
  t.CURR_RAM_assign ((v ||| setBit) % 256)

/-- Method `op_rbit`: `setBit` is `SET4(~(1 << k))`. -/
def op_rbit (opcode : Nat) (_last_s : Bool) (t : TMS1100) : Except Fault TMS1100 := do
  let k ← op_code_constant_ opcode
  let setBit := SET4 ((1 <<< k) ^^^ 0xFFFFFFFF)
  let v ← t.CURR_RAM
  t.CURR_RAM_assign (v &&& setBit)

/-- Method `op_tbit1`: the `int` argument of `set_s` is converted to `bool`. -/
def op_tbit1 (opcode : Nat) (_last_s : Bool) (t : TMS1100) : Except Fault TMS1100 := do
  let k ← op_code_constant_ opcode
  let v ← t.CURR_RAM
  pure { t with cpu_ := t.cpu_.set_s (decide (v &&& (1 <<< k) ≠ 0)) }

/-- Method `op_knez`. -/
def op_knez (_opcode : Nat) (_last_s : Bool) (t : TMS1100) : Except Fault TMS1100 :=
  let (c, k) := t.cpu_.get_k
  pure { t with cpu_ := c.set_s (decide (k ≠ 0)) }

/-- Method `op_tka`. -/
def op_tka (_opcode : Nat) (_last_s : Bool) (t : TMS1100) : Except Fault TMS1100 :=
  let (c, k) := t.cpu_.get_k
  pure { t with cpu_ := c.set_a k }

/-- Method `op_setr`. -/
def op_setr (_opcode : Nat) (_last_s : Bool) (t : TMS1100) : Except Fault TMS1100 :=
  if t.cpu_.get_x ≤ 3 ∧ t.cpu_.get_y ≤ 10 then
    pure { t with cpu_ := t.cpu_.set_r_index t.cpu_.get_y }
  else pure t

/-- Method `op_rstr`. -/
def op_rstr (_opcode : Nat) (_last_s : Bool) (t : TMS1100) : Except Fault TMS1100 :=
  if t.cpu_.get_x ≤ 3 ∧ t.cpu_.get_y ≤ 10 then
    pure { t with cpu_ := t.cpu_.rst_r_index t.cpu_.get_y }
  else pure t

/-- Method `op_tdo`: the `int` argument of `set_o` is converted to `BYTE`. -/
def op_tdo (_opcode : Nat) (_last_s : Bool) (t : TMS1100) : Except Fault TMS1100 :=
  pure { t with cpu_ :=
    t.cpu_.set_o ((t.cpu_.get_a ||| (if t.cpu_.get_sl then 0x10 else 0)) % 256) }

/-- Method `op_ldx`. -/
def op_ldx (opcode : Nat) (_last_s : Bool) (t : TMS1100) : Except Fault TMS1100 := do
  let k ← op_code_constant_ opcode
  pure { t with cpu_ := t.cpu_.set_x k }

/-- Method `op_br`. -/
def op_br (opcode : Nat) (last_s : Bool) (t : TMS1100) : Except Fault TMS1100 :=
  if !last_s then pure t
  else
    let c := t.cpu_.set_ca t.cpu_.get_cb
    let c := c.set_pc (SET6 opcode)
    let c := if !c.get_cl then c.set_pa c.get_pb else c
    pure { t with cpu_ := c }

/-- Method `op_call`. -/
def op_call (opcode : Nat) (last_s : Bool) (t : TMS1100) : Except Fault TMS1100 :=
  if !last_s then pure t
  else
    let c := t.cpu_
    let c :=
      if c.get_cl then c.set_pb c.get_pa
      else
        let c := c.set_cs c.get_ca
        let c := c.set_sr c.get_pc
        let temp := c.get_pb
        let c := c.set_pb c.get_pa
        let c := c.set_pa temp
        c.set_cl true
    let c := c.set_ca c.get_cb
    let c := c.set_pc (SET6 opcode)
    pure { t with cpu_ := c }

/-- Method `op_retn`. -/
def op_retn (_opcode : Nat) (_last_s : Bool) (t : TMS1100) : Except Fault TMS1100 :=
  let c := t.cpu_.set_pa t.cpu_.get_pb
  let c :=
    if c.get_cl then
      let c := c.set_ca c.get_cs
      let c := c.set_pc c.get_sr
      c.set_cl false
    else c
  pure { t with cpu_ := c }

end TMS1100

/-- The call `(this->*func)(opcode, last_status)` through a member function pointer. -/
def OpFunc.call : OpFunc → Nat → Bool → TMS1100 → Except Fault TMS1100
  | .op_tay => TMS1100.op_tay
  | .op_tya => TMS1100.op_tya
  | .op_cla => TMS1100.op_cla
  | .op_tam => TMS1100.op_tam
  | .op_tamiyc => TMS1100.op_tamiyc
  | .op_tamdyn => TMS1100.op_tamdyn
  | .op_tamza => TMS1100.op_tamza
  | .op_tmy => TMS1100.op_tmy
  | .op_tma => TMS1100.op_tma
  | .op_xma => TMS1100.op_xma
  | .op_amaac => TMS1100.op_amaac
  | .op_saman => TMS1100.op_saman
  | .op_imac => TMS1100.op_imac
  | .op_dman => TMS1100.op_dman
  | .op_a_aac => TMS1100.op_a_aac
  | .op_iyc => TMS1100.op_iyc
  | .op_dyn => TMS1100.op_dyn
  | .op_cpaiz => TMS1100.op_cpaiz
  | .op_alem => TMS1100.op_alem
  | .op_mnea => TMS1100.op_mnea
  | .op_mnez => TMS1100.op_mnez
  | .op_ynea => TMS1100.op_ynea
  | .op_ldp => TMS1100.op_ldp
  | .op_tcy => TMS1100.op_tcy
  | .op_ynec => TMS1100.op_ynec
  | .op_tcmiy => TMS1100.op_tcmiy
  | .op_comx => TMS1100.op_comx
  | .op_comc => TMS1100.op_comc
  | .op_sbit => TMS1100.op_sbit
  | .op_rbit => TMS1100.op_rbit
  | .op_tbit1 => TMS1100.op_tbit1
  | .op_knez => TMS1100.op_knez
  | .op_tka => TMS1100.op_tka
  | .op_setr => TMS1100.op_setr
  | .op_rstr => TMS1100.op_rstr
  | .op_tdo => TMS1100.op_tdo
  | .op_ldx => TMS1100.op_ldx
  | .op_br => TMS1100.op_br
  | .op_call => TMS1100.op_call
  | .op_retn => TMS1100.op_retn

namespace TMS1100

/-- Method `TMS1100::exec`. -/
def exec (t : TMS1100) (opcode : Nat) : Except Fault TMS1100 :=
  let last_status := t.cpu_.get_s
  let t := { t with cpu_ := t.cpu_.set_s true }
  match op_code_func_ opcode with
  | some func => func.call opcode last_status t
  | none => pure t

/-- Method `TMS1100::step`: `rom_address` is a `WORD`. -/
def step (t : TMS1100) : Except Fault TMS1100 := do
  let rom_address :=
    ((t.cpu_.get_ca <<< 10) ||| (t.cpu_.get_pa <<< 6) ||| t.cpu_.get_pc) % 65536
  let opcode ← t.rom_.get_data rom_address
  let t := { t with cpu_ := t.cpu_.increment_pc }
  t.exec opcode

/-- Constructor `TMS1100::TMS1100` (the tables it fills are `op_tables`); the cells
of `ram_` are written one by one. -/
def ctor (rom : ROM) : TMS1100 :=
  { cpu_ := CPUState.ctor
    rom_ := rom
    ram_ := (List.range 128).foldl
      (fun (ram : Nat → Nat) i => fun j => if j = i then SET4 0xAA else ram j) (fun _ => 0) }

/-- Method `TMS1100::set_output_r_cb` with a callback that is not `NULL`. -/
def set_output_r_cb (t : TMS1100) : TMS1100 := { t with cpu_ := t.cpu_.set_output_r_cb }
/-- Method `TMS1100::set_output_o_cb` with a callback that is not `NULL`. -/
def set_output_o_cb (t : TMS1100) : TMS1100 := { t with cpu_ := t.cpu_.set_output_o_cb }
/-- Method `TMS1100::set_input_k_cb`. -/
def set_input_k_cb (t : TMS1100) (cb : Option (Int → Int)) : TMS1100 :=
  { t with cpu_ := t.cpu_.set_input_k_cb cb }

/-- The result of `n` successive calls of `step`. -/
def steps : Nat → TMS1100 → Except Fault TMS1100
  | 0, t => pure t
  | n + 1, t => do
    let t ← t.step
    steps n t

end TMS1100

/-- The host's registration of its callbacks after construction, as `run_emulator`
of `main.cpp` and `init` of `python.cpp` do it: `r_cb` (resp. `o_cb`) tells whether
`set_output_r_cb` (resp. `set_output_o_cb`) is called, `k_cb` is the K callback given to
`set_input_k_cb`, if any. -/
def TMS1100.attach (t : TMS1100) (r_cb o_cb : Bool) (k_cb : Option (Int → Int)) : TMS1100 :=
  let t := if r_cb then t.set_output_r_cb else t
  let t := if o_cb then t.set_output_o_cb else t
  match k_cb with
  | some cb => t.set_input_k_cb (some cb)
  | none => t

/-! ## Predicates used in the statements -/

/-- Every register of the CPU state is within the width the data model declares. -/
def CPUState.WidthInv (c : CPUState) : Prop :=
  c.reg_pc_ < 64 ∧ c.reg_pa_ < 16 ∧ c.reg_pb_ < 16 ∧ c.reg_x_ < 8 ∧ c.reg_a_ < 16 ∧
  c.reg_y_ < 16 ∧ c.reg_k_ < 16 ∧ c.reg_o_ < 32 ∧ c.reg_sr_ < 64 ∧
  c.reg_ca_ < 2 ∧ c.reg_cb_ < 2 ∧ c.reg_cs_ < 2

/-- Every one of the 128 RAM cells holds a nibble. -/
def TMS1100.RamInv (t : TMS1100) : Prop := ∀ i, i < RAM_SIZE → t.ram_ i < 16

/-- A ROM object holding an image of `size` bytes. -/
def ROM.Holds (rom : ROM) (size : Nat) : Prop :=
  rom.rom_size_ = size ∧ rom.data_.length = size ∧ ∀ b ∈ rom.data_, b < 256

/-- Table `a` holds every handler and every constant that table `b` holds. -/
def OpTables.Extends (a b : OpTables) : Prop :=
  (∀ j f, b.op_code_func_ j = some f → a.op_code_func_ j = some f) ∧
  (∀ j k, b.op_code_constant_ j = some k → a.op_code_constant_ j = some k)

/-! ## Concrete inputs used in the statements -/

/-- A dump of one page in which every byte is `CALL` with operand 1. -/
def one_page_dump : List Nat := List.replicate 64 0xC1

/-- A dump of one page in which every byte is `BR` with operand 3. -/
def branch_page_dump : List Nat := List.replicate 64 0x83

/-- A dump of one page in which every byte is `BR` with operand 0. -/
def branch_zero_dump : List Nat := List.replicate 64 0x80

/-- A dump of 1025 pages: 1024 pages of zeros, then one page of ones. -/
def oversize_dump : List Nat := List.replicate 65536 0 ++ List.replicate 64 1

/-- A dump of 1025 pages: one page of `BR 0`, then 1024 pages of zeros. -/
def far_branch_dump : List Nat := List.replicate 64 0x80 ++ List.replicate 65536 0

/-- A ROM object holding 2048 bytes, every one of them `BR` with operand 5. -/
def branch_rom : ROM := { data_ := List.replicate 2048 0x85, rom_size_ := 2048 }

/-- A ROM object holding 2048 bytes, every one of them `TAMIYC`. -/
def store_rom : ROM := { data_ := List.replicate 2048 0x25, rom_size_ := 2048 }

/-- A ROM object holding 2048 bytes, every one of them `TKA`. -/
def input_rom : ROM := { data_ := List.replicate 2048 0x08, rom_size_ := 2048 }

/-- A ROM object holding 2048 bytes: `LDP 0` and `CALL 0` at the addresses `0x3C0` and
`0x3C1`, `RETN` everywhere else. -/
def call_retn_rom : ROM :=
  { data_ := List.replicate 960 0x0F ++ ([0x10, 0xC0] ++ List.replicate 1086 0x0F),
    rom_size_ := 2048 }

/-- The constructed machine (no ROM loaded, every RAM cell `0xA`, no callback) with
chosen contents of `X`, `Y`, `A` and `S`. -/
def sample_machine (x y a : Nat) (s : Bool) : TMS1100 :=
  { cpu_ := { CPUState.ctor with reg_x_ := x, reg_y_ := y, reg_a_ := a, reg_s_ := s }
    rom_ := ROM.ctor
    ram_ := (TMS1100.ctor ROM.ctor).ram_ }

/-- A ROM object holding 4096 bytes, every one of them `KNEZ`. -/
def large_rom : ROM := { data_ := List.replicate 4096 0x0E, rom_size_ := 4096 }

/-- A ROM object holding 1024 bytes, every one of them `TCMIY` with constant 0. -/
def small_rom : ROM := { data_ := List.replicate 1024 0x60, rom_size_ := 1024 }

end TMS

/-! ## Lemmas on the ROM loader -/

namespace TMS

theorem pc_sequence_lt : ∀ n, n < 64 → pc_sequence.getD n 0 < 64 := by decide

/-- The page part of an index read by `load_rom` is a multiple of 64. -/
theorem and_ffc0_mod (i : Nat) : (i &&& 0xFFC0) % 64 = 0 := by
  have h := Nat.and_pow_two_sub_one_eq_mod (i &&& 0xFFC0) 6
  have h2 : (i &&& 0xFFC0) &&& (2 ^ 6 - 1) = i &&& (0xFFC0 &&& (2 ^ 6 - 1)) := Nat.and_assoc _ _ _
  have h3 : (0xFFC0 &&& (2 ^ 6 - 1) : Nat) = 0 := by decide
  rw [h3, Nat.and_zero] at h2
  omega

theorem or_eq_add_of_mod (q s : Nat) (hq : q % 64 = 0) (hs : s < 64) : q ||| s = q + s := by
  have h := Nat.mul_add_lt_is_or (i := 6) (b := s) (by simpa using hs) (q / 64)
  have hq2 : 2 ^ 6 * (q / 64) = q := by omega
  rw [hq2] at h
  exact h.symm

theorem and_3f_eq_mod (x : Nat) : x &&& 0x3F = x % 64 :=
  Nat.and_pow_two_sub_one_eq_mod x 6

theorem page_and_ffc0 : ∀ k, k < 1024 → (64 * k) &&& 0xFFC0 = 64 * k := by decide
theorem offset_and_ffc0 : ∀ s, s < 64 → s &&& 0xFFC0 = 0 := by decide

theorem raw_index_lt (n i : Nat) (hn : n % 64 = 0) (hi : i < n) : raw_index i < n := by
  unfold raw_index
  have h1 := and_ffc0_mod i
  have h2 : i &&& 0xFFC0 ≤ i := Nat.and_le_left
  have h3 : pc_sequence.getD (i &&& 0x3F) 0 < 64 :=
    pc_sequence_lt _ (by rw [and_3f_eq_mod]; omega)
  rw [or_eq_add_of_mod _ _ h1 h3]
  omega

theorem raw_index_page (p j : Nat) (hp : p % 64 = 0) (hp2 : p < 65536) (hj : j < 64) :
    raw_index (p ||| j) = p ||| pc_sequence.getD j 0 := by
  unfold raw_index
  rw [or_eq_add_of_mod p j hp hj]
  have e1 : (p + j) &&& 0x3F = j := by rw [and_3f_eq_mod]; omega
  have e2 : (p + j) &&& 0xFFC0 = p := by
    rw [← or_eq_add_of_mod p j hp hj, Nat.and_comm, Nat.and_or_distrib_left,
      Nat.and_comm _ p, Nat.and_comm _ j, offset_and_ffc0 j hj, Nat.or_zero]
    have := page_and_ffc0 (p / 64) (by omega)
    have e : 64 * (p / 64) = p := by omega
    rwa [e] at this
  rw [e1, e2]

theorem remap_opcode_table : ∀ b, b < 256 →
    (remap_opcode b).toOption.map (fun y => decide (y < 256 ∧ y &&& 0xC0 = b &&& 0xC0 ∧
        (b < 0x80 → y = b) ∧
        (0x80 ≤ b → pc_sequence[y &&& 0x3F]? = some (b &&& 0x3F)) ∧
        (y = b ↔ (b < 0x80 ∨ b &&& 0x3F ∈ [0x00, 0x01, 0x16, 0x18, 0x23])) ∧
        (0x80 ≤ y ↔ 0x80 ≤ b) ∧
        (0x80 ≤ b → inverseSequence (b &&& 0x3F) = .ok (y &&& 0x3F)))) = some true := by
  decide

theorem remap_opcode_spec (b : Nat) (hb : b < 256) : ∃ y, y < 256 ∧ remap_opcode b = .ok y ∧
    y &&& 0xC0 = b &&& 0xC0 ∧ (b < 0x80 → y = b) ∧
    (0x80 ≤ b → pc_sequence[y &&& 0x3F]? = some (b &&& 0x3F)) ∧
    (y = b ↔ (b < 0x80 ∨ b &&& 0x3F ∈ [0x00, 0x01, 0x16, 0x18, 0x23])) ∧
    (0x80 ≤ y ↔ 0x80 ≤ b) ∧
    (0x80 ≤ b → inverseSequence (b &&& 0x3F) = .ok (y &&& 0x3F)) := by
  have h := remap_opcode_table b hb
  cases hr : remap_opcode b with
  | error e => rw [hr] at h; simp [Except.toOption] at h
  | ok y =>
    rw [hr] at h
    simp only [Except.toOption, Option.map_some', Option.some.injEq, decide_eq_true_eq] at h
    exact ⟨y, h.1, rfl, h.2⟩

theorem remap_loop_spec (buffer : List Nat) :
    ∀ k, (∀ i, i < k → ∃ b, remap_byte buffer i = .ok b) →
      ∃ img, remap_loop buffer k = .ok img ∧ img.length = k ∧
        ∀ i, i < k → ∃ b, img[i]? = some b ∧ remap_byte buffer i = .ok b := by
  intro k
  induction k with
  | zero => intro _; exact ⟨[], rfl, rfl, by intro i hi; omega⟩
  | succ k ih =>
    intro h
    obtain ⟨img, h1, h2, h3⟩ := ih (fun i hi => h i (by omega))
    obtain ⟨b, hb⟩ := h k (by omega)
    refine ⟨img ++ [b], ?_, by simp [h2], ?_⟩
    · simp [remap_loop, h1, hb, bind, Except.bind, pure, Except.pure]
    · intro i hi
      by_cases hik : i < k
      · obtain ⟨c, hc1, hc2⟩ := h3 i hik
        exact ⟨c, by rw [List.getElem?_append_left (by omega)]; exact hc1, hc2⟩
      · have : i = k := by omega
        subst this
        exact ⟨b, by rw [List.getElem?_append_right (by omega)]; simp [h2], hb⟩

theorem remap_byte_spec (buffer : List Nat) (hbytes : ∀ b ∈ buffer, b < 256) (i : Nat)
    (hi : raw_index i < buffer.length) :
    ∃ x y, buffer[raw_index i]? = some x ∧ x < 256 ∧ remap_opcode x = .ok y ∧
      remap_byte buffer i = .ok y := by
  have hx : buffer[raw_index i]? = some (buffer[raw_index i]) := List.getElem?_eq_getElem hi
  have hlt : buffer[raw_index i] < 256 := hbytes _ (List.getElem_mem _)
  obtain ⟨y, _, hy, _⟩ := remap_opcode_spec _ hlt
  refine ⟨_, y, hx, hlt, hy, ?_⟩
  simp only [remap_byte, hx]
  rw [Nat.mod_eq_of_lt hlt]
  exact hy
theorem inverseSequence_loop_ok (addr : Nat) :
    ∀ todo i n, inverseSequence_loop addr todo i = .ok n →
      i ≤ n ∧ n < i + todo ∧ pc_sequence.getD n 0 = addr := by
  intro todo
  induction todo with
  | zero => intro i n h; simp [inverseSequence_loop] at h
  | succ k ih =>
    intro i n h
    simp only [inverseSequence_loop] at h
    split at h
    · rename_i heq
      cases h
      exact ⟨le_refl _, by omega, heq⟩
    · obtain ⟨h1, h2, h3⟩ := ih (i + 1) n h
      exact ⟨by omega, by omega, h3⟩

theorem inverseSequence_loop_error (addr : Nat) :
    ∀ todo i e, inverseSequence_loop addr todo i = .error e → e = .inverseSequence_error := by
  intro todo
  induction todo with
  | zero => intro i e h; simp [inverseSequence_loop] at h; exact h.symm
  | succ k ih =>
    intro i e h
    simp only [inverseSequence_loop] at h
    split at h
    · cases h
    · exact ih _ _ h

theorem inverseSequence_small : ∀ v, v < 64 →
    ∃ n, n < 64 ∧ inverseSequence v = .ok n ∧ pc_sequence[n]? = some v := by decide

theorem inverseSequence_pc_sequence : ∀ n, n < 64 →
    ∃ v, v < 64 ∧ pc_sequence[n]? = some v ∧ inverseSequence v = .ok n := by decide

theorem inverseSequence_large (v : Nat) (hv : 64 ≤ v) :
    inverseSequence v = .error .inverseSequence_error := by
  cases h : inverseSequence v with
  | error e => rw [inverseSequence_loop_error v 64 0 e h]
  | ok n =>
    obtain ⟨_, h2, h3⟩ := inverseSequence_loop_ok v 64 0 n h
    have := pc_sequence_lt n (by omega)
    omega


theorem byte_top_bit : ∀ b, b < 256 → (b &&& 0x80 ≠ 0 ↔ 0x80 ≤ b) := by decide

theorem pc_sequence_getD (j s : Nat) (h : pc_sequence[j]? = some s) : pc_sequence.getD j 0 = s := by
  simp [List.getD, h]

/-- What `load_rom` stores at every linear address of a dump made of whole pages. -/
theorem load_rom_spec (rom : ROM) (raw : List Nat) (hlen : raw.length % 64 = 0)
    (hbytes : ∀ b ∈ raw, b < 256) :
    ∃ image, rom.load_rom raw = .ok image ∧ image.rom_size_ = raw.length ∧
      image.data_.length = raw.length ∧
      ∀ i, i < raw.length → ∃ x y, raw[raw_index i]? = some x ∧ x < 256 ∧
        remap_opcode x = .ok y ∧ image.data_[i]? = some y := by
  have hidx : ∀ i, i < raw.length → raw_index i < raw.length :=
    fun i hi => raw_index_lt raw.length i hlen hi
  obtain ⟨img, h1, h2, h3⟩ := remap_loop_spec raw raw.length (fun i hi => by
    obtain ⟨x, y, _, _, _, h⟩ := remap_byte_spec raw hbytes i (hidx i hi)
    exact ⟨y, h⟩)
  refine ⟨{ data_ := img, rom_size_ := raw.length }, ?_, rfl, h2, ?_⟩
  · simp [ROM.load_rom, h1, bind, Except.bind, pure, Except.pure]
  · intro i hi
    obtain ⟨b, hb1, hb2⟩ := h3 i hi
    obtain ⟨x, y, hx, hx2, hy, hxy⟩ := remap_byte_spec raw hbytes i (hidx i hi)
    rw [hxy] at hb2
    cases hb2
    exact ⟨x, _, hx, hx2, hy, hb1⟩


/-! ## The ROM loader: statements C1 to C3 -/

/-- C1: `inverseSequence` is the two-sided inverse of the 64-entry table `pc_sequence`,
which is a permutation of 0..63: for every `v < 64` it returns some `n < 64` with
`pc_sequence[n] = v`, for every `n < 64` it maps `pc_sequence[n]` back to `n`, and it
throws exactly for `v ≥ 64`. -/
theorem inverseSequence_two_sided_inverse :
    pc_sequence.length = 64 ∧ pc_sequence.Perm (List.range 64) ∧
    (∀ v, v < 64 → ∃ n, n < 64 ∧ inverseSequence v = .ok n ∧ pc_sequence[n]? = some v) ∧
    (∀ n, n < 64 → ∃ v, v < 64 ∧ pc_sequence[n]? = some v ∧ inverseSequence v = .ok n) ∧
    (∀ v e, inverseSequence v = .error e → 64 ≤ v) ∧
    (∀ v, 64 ≤ v → inverseSequence v = .error .inverseSequence_error) := by
  refine ⟨by decide, by decide, inverseSequence_small, inverseSequence_pc_sequence, ?_,
    inverseSequence_large⟩
  intro v e h
  by_contra hv
  obtain ⟨n, _, hn, _⟩ := inverseSequence_small v (by omega)
  rw [hn] at h
  cases h


/-- C2 (amended): for a dump of bytes whose length is a multiple of 64, `load_rom` reads
only indices inside the dump and returns an image of the same length; for every page
base `p` below 65536 and every raw offset `r < 64`, the image byte `y` at
`p | inverseSequence(r)` has the top two bits of the raw byte `x` at `p | r`, is `x`
itself when `x < 0x80`, and otherwise has low six bits `l` with
`pc_sequence[l] = x & 0x3F`; `y = x` holds exactly when `x < 0x80` or the operand of `x`
is one of the five fixed points of `pc_sequence`. -/
theorem load_rom_page_deinterleave (rom : ROM) (raw : List Nat) (hlen : raw.length % 64 = 0)
    (hbytes : ∀ b ∈ raw, b < 256) :
    (∀ i, i < raw.length → raw_index i < raw.length) ∧
    ∃ image, rom.load_rom raw = .ok image ∧ image.rom_size_ = raw.length ∧
      image.data_.length = raw.length ∧
      ∀ p r, p % 64 = 0 → p < raw.length → p < 65536 → r < 64 →
        ∃ j x y, inverseSequence r = .ok j ∧ raw[p ||| r]? = some x ∧
          image.data_[p ||| j]? = some y ∧
          y &&& 0xC0 = x &&& 0xC0 ∧
          (x < 0x80 → y = x) ∧
          (0x80 ≤ x → pc_sequence[y &&& 0x3F]? = some (x &&& 0x3F)) ∧
          (y = x ↔ (x < 0x80 ∨ x &&& 0x3F ∈ [0x00, 0x01, 0x16, 0x18, 0x23])) := by
  refine ⟨fun i hi => raw_index_lt raw.length i hlen hi, ?_⟩
  obtain ⟨image, h1, h2, h3, h4⟩ := load_rom_spec rom raw hlen hbytes
  refine ⟨image, h1, h2, h3, ?_⟩
  intro p r hp hpn hp2 hr
  obtain ⟨j, hj, hinv, hseq⟩ := inverseSequence_small r hr
  have hlt : p ||| j < raw.length := by rw [or_eq_add_of_mod p j hp hj]; omega
  obtain ⟨x, y, hx, hx2, hy, himg⟩ := h4 (p ||| j) hlt
  rw [raw_index_page p j hp hp2 hj, pc_sequence_getD j r hseq] at hx
  obtain ⟨y', _, hy', e1, e2, e3, e4, _⟩ := remap_opcode_spec x hx2
  rw [hy] at hy'
  cases hy'
  exact ⟨j, x, _, hinv, hx, himg, e1, e2, e3, e4⟩


/-- Instance of `load_rom_page_deinterleave` at a one-page dump of `CALL 1` bytes: the
image byte at `inverseSequence(5)` is `0xC1`, the operand 1 being a fixed point. -/
theorem load_rom_page_deinterleave_witness :
    one_page_dump.length % 64 = 0 ∧ (∀ b ∈ one_page_dump, b < 256) ∧
    ∃ image j y, ROM.ctor.load_rom one_page_dump = .ok image ∧ image.rom_size_ = 64 ∧
      inverseSequence 5 = .ok j ∧ image.data_[0 ||| j]? = some y ∧ y = 0xC1 := by
  have hb : ∀ b ∈ one_page_dump, b < 256 := by decide
  refine ⟨by decide, hb, ?_⟩
  obtain ⟨_, image, h1, h2, _, h4⟩ :=
    load_rom_page_deinterleave ROM.ctor one_page_dump (by decide) hb
  obtain ⟨j, x, y, e1, e2, e3, _, _, _, e7⟩ := h4 0 5 (by decide) (by decide) (by decide)
    (by decide)
  have hx : x = 0xC1 := by
    have : one_page_dump[0 ||| 5]? = some 0xC1 := by decide
    rw [this] at e2
    exact (Option.some.inj e2).symm
  refine ⟨image, j, y, h1, h2, e1, e3, ?_⟩
  rw [← hx]
  exact e7.mpr (Or.inr (by rw [hx]; decide))

/-- C2 fails as stated, twice. In a dump of 1025 pages the image byte at
`65536 | inverseSequence(0)` is the raw byte at `0`, which is 0, and not the raw byte
at `65536 | 0`, which is 1. In a one-page dump of `BR 0` bytes the image byte at
`0 | inverseSequence(0)` equals the raw byte `0x80` although that byte is not below
`0x80`. -/
theorem load_rom_page_deinterleave_counterexample :
    (oversize_dump.length = 65600 ∧ 65600 % 64 = 0 ∧ (∀ b ∈ oversize_dump, b < 256) ∧
      ∃ image, ROM.ctor.load_rom oversize_dump = .ok image ∧ inverseSequence 0 = .ok 0 ∧
        oversize_dump[65536 ||| 0]? = some 1 ∧ image.data_[65536 ||| 0]? = some 0) ∧
    (branch_zero_dump.length = 64 ∧
      ∃ image, ROM.ctor.load_rom branch_zero_dump = .ok image ∧ inverseSequence 0 = .ok 0 ∧
        branch_zero_dump[0 ||| 0]? = some 0x80 ∧ image.data_[0 ||| 0]? = some 0x80 ∧
        ¬ (0x80 < 0x80)) := by
  have hlen : oversize_dump.length = 65600 := by
    simp only [oversize_dump, List.length_append, List.length_replicate]
  have hb : ∀ b ∈ oversize_dump, b < 256 := by
    intro b hb
    simp only [oversize_dump, List.mem_append, List.mem_replicate] at hb
    omega
  have hraw0 : oversize_dump[raw_index 65536]? = some 0 := by
    have e : raw_index 65536 = 0 := by decide
    rw [e, oversize_dump, List.getElem?_append_left (by rw [List.length_replicate]; decide),
      List.getElem?_replicate]
    rfl
  have hraw1 : oversize_dump[65536 ||| 0]? = some 1 := by
    have e : 65536 ||| 0 = 65536 := by decide
    rw [e, oversize_dump, List.getElem?_append_right (by rw [List.length_replicate]),
      List.getElem?_replicate, List.length_replicate]
    rfl
  constructor
  · refine ⟨hlen, by decide, hb, ?_⟩
    obtain ⟨image, h1, _, _, h4⟩ := load_rom_spec ROM.ctor oversize_dump (by rw [hlen]) hb
    obtain ⟨x, y, hx, _, hy, himg⟩ := h4 65536 (by rw [hlen]; decide)
    rw [hraw0] at hx
    cases hx
    have hy0 : remap_opcode 0 = .ok 0 := by decide
    rw [hy0] at hy
    cases hy
    exact ⟨image, h1, by decide, hraw1, himg⟩
  · refine ⟨by decide, ?_⟩
    obtain ⟨image, h1, _, _, h4⟩ :=
      load_rom_spec ROM.ctor branch_zero_dump (by decide) (by decide)
    obtain ⟨x, y, hx, _, hy, himg⟩ := h4 0 (by decide)
    have hraw : branch_zero_dump[raw_index 0]? = some 0x80 := by decide
    rw [hraw] at hx
    cases hx
    have hy0 : remap_opcode 0x80 = .ok 0x80 := by decide
    rw [hy0] at hy
    cases hy
    exact ⟨image, h1, by decide, by decide, himg, by decide⟩

/-- C3 (amended): for a dump of bytes whose length is a multiple of 64 and every linear
address `i` below 65536 whose image byte `b` has its top bit set, with `q` the raw byte
at `(page of i) | pc_sequence[i & 0x3F]`, the image byte at `(page of i) | (b & 0x3F)`
is the rewriting of the raw byte at `(page of i) | (q & 0x3F)`. -/
theorem load_rom_branch_target_preserved (rom : ROM) (raw : List Nat) (hlen : raw.length % 64 = 0)
    (hbytes : ∀ b ∈ raw, b < 256) :
    ∃ image, rom.load_rom raw = .ok image ∧
      ∀ i b, i < raw.length → i < 65536 → image.data_[i]? = some b → b &&& 0x80 ≠ 0 →
        ∃ s q x y, pc_sequence[i &&& 0x3F]? = some s ∧
          raw[(i / 64 * 64) ||| s]? = some q ∧
          raw[(i / 64 * 64) ||| (q &&& 0x3F)]? = some x ∧
          remap_opcode x = .ok y ∧
          image.data_[(i / 64 * 64) ||| (b &&& 0x3F)]? = some y := by
  obtain ⟨image, h1, h2, h3, h4⟩ := load_rom_spec rom raw hlen hbytes
  refine ⟨image, h1, ?_⟩
  intro i b hi hi2 hb htop
  have hp : (i / 64 * 64) % 64 = 0 := by omega
  have hp2 : i / 64 * 64 < 65536 := by omega
  have hj : i % 64 < 64 := by omega
  have hij : i = (i / 64 * 64) ||| (i % 64) := by
    rw [or_eq_add_of_mod _ _ hp hj]; omega
  -- the byte at `i`
  obtain ⟨q, b', hq, hq2, hb', himg⟩ := h4 i hi
  rw [hb] at himg
  cases himg
  have hri : raw_index i = (i / 64 * 64) ||| pc_sequence.getD (i % 64) 0 := by
    conv_lhs => rw [hij]
    exact raw_index_page _ _ hp hp2 hj
  rw [hri] at hq
  obtain ⟨s, _, hs, _⟩ := inverseSequence_pc_sequence (i % 64) hj
  rw [pc_sequence_getD _ _ hs] at hq
  obtain ⟨b', hblt, hb'', _, _, e3, _, e5, e6⟩ := remap_opcode_spec q hq2
  rw [hb'] at hb''
  cases hb''
  have hq80 : 0x80 ≤ q := e5.mp ((byte_top_bit b hblt).mp htop)
  -- the byte at the target
  have ht : b &&& 0x3F < 64 := by rw [and_3f_eq_mod]; omega
  have hlt : (i / 64 * 64) ||| (b &&& 0x3F) < raw.length := by
    rw [or_eq_add_of_mod _ _ hp ht]; omega
  obtain ⟨x, y, hx, _, hy, himg2⟩ := h4 _ hlt
  rw [raw_index_page _ _ hp hp2 ht, pc_sequence_getD _ _ (e3 hq80)] at hx
  refine ⟨s, q, x, y, ?_, hq, hx, hy, himg2⟩
  rw [and_3f_eq_mod]
  exact hs


/-- Instance of `load_rom_branch_target_preserved` at a one-page dump of `BR 3` bytes
and the linear address 7. -/
theorem load_rom_branch_target_preserved_witness :
    branch_page_dump.length % 64 = 0 ∧ (∀ b ∈ branch_page_dump, b < 256) ∧
    ∃ image b y, ROM.ctor.load_rom branch_page_dump = .ok image ∧
      image.data_[7]? = some b ∧ b &&& 0x80 ≠ 0 ∧
      image.data_[(7 / 64 * 64) ||| (b &&& 0x3F)]? = some y ∧ remap_opcode 0x83 = .ok y := by
  have hb : ∀ b ∈ branch_page_dump, b < 256 := by decide
  refine ⟨by decide, hb, ?_⟩
  obtain ⟨image, h1, h2⟩ :=
    load_rom_branch_target_preserved ROM.ctor branch_page_dump (by decide) hb
  obtain ⟨image', h1', _, _, h4⟩ := load_rom_spec ROM.ctor branch_page_dump (by decide) hb
  rw [h1] at h1'
  cases h1'
  obtain ⟨x, b, hx, _, hb1, hb2⟩ := h4 7 (by decide)
  have hraw : branch_page_dump[raw_index 7]? = some 0x83 := by decide
  rw [hraw] at hx
  cases hx
  have hb3 : remap_opcode 0x83 = .ok 0x82 := by decide
  rw [hb3] at hb1
  cases hb1
  obtain ⟨s, q, x, y, _, _, e3, e4, e5⟩ := h2 7 0x82 (by decide) (by decide) hb2 (by decide)
  have hx2 : x = 0x83 := List.eq_of_mem_replicate (List.getElem?_mem e3)
  rw [hx2] at e4
  exact ⟨image, 0x82, y, h1, hb2, by decide, e5, e4⟩

/-- C3 fails as stated in a dump of 1025 pages whose first page holds `BR 0` bytes and
whose other bytes are zero: the image byte `b` at 65536 is `0x80`, the raw byte `q` at
`65536 | pc_sequence[0]` is 0, the image byte at `65536 | (b & 0x3F)` is `0x80`, but the
rewriting of the raw byte at `65536 | (q & 0x3F)` is 0. -/
theorem load_rom_branch_target_counterexample :
    far_branch_dump.length = 65600 ∧ 65600 % 64 = 0 ∧ (∀ b ∈ far_branch_dump, b < 256) ∧
    ∃ image, ROM.ctor.load_rom far_branch_dump = .ok image ∧
      image.data_[65536]? = some 0x80 ∧ 0x80 &&& 0x80 ≠ 0 ∧
      pc_sequence[65536 &&& 0x3F]? = some 0 ∧
      far_branch_dump[(65536 / 64 * 64) ||| 0]? = some 0 ∧
      far_branch_dump[(65536 / 64 * 64) ||| (0 &&& 0x3F)]? = some 0 ∧
      remap_opcode 0 = .ok 0 ∧
      image.data_[(65536 / 64 * 64) ||| (0x80 &&& 0x3F)]? = some 0x80 ∧ 0x80 ≠ 0 := by
  have hlen : far_branch_dump.length = 65600 := by
    simp only [far_branch_dump, List.length_append, List.length_replicate]
  have hb : ∀ b ∈ far_branch_dump, b < 256 := by
    intro b hb
    simp only [far_branch_dump, List.mem_append, List.mem_replicate] at hb
    omega
  have hraw0 : far_branch_dump[raw_index 65536]? = some 0x80 := by
    have e : raw_index 65536 = 0 := by decide
    rw [e, far_branch_dump, List.getElem?_append_left (by rw [List.length_replicate]; decide),
      List.getElem?_replicate]
    rfl
  have hraw1 : far_branch_dump[65536]? = some 0 := by
    rw [far_branch_dump, List.getElem?_append_right (by rw [List.length_replicate]; decide),
      List.getElem?_replicate, List.length_replicate]
    rfl
  refine ⟨hlen, by decide, hb, ?_⟩
  obtain ⟨image, h1, _, _, h4⟩ := load_rom_spec ROM.ctor far_branch_dump (by rw [hlen]) hb
  obtain ⟨x, y, hx, _, hy, himg⟩ := h4 65536 (by rw [hlen]; decide)
  rw [hraw0] at hx
  cases hx
  have hy0 : remap_opcode 0x80 = .ok 0x80 := by decide
  rw [hy0] at hy
  cases hy
  have e1 : (65536 / 64 * 64) ||| 0 = 65536 := by decide
  have e2 : (65536 / 64 * 64) ||| (0 &&& 0x3F) = 65536 := by decide
  have e3 : (65536 / 64 * 64) ||| (0x80 &&& 0x3F) = 65536 := by decide
  rw [e1, e2, e3]
  exact ⟨image, h1, himg, by decide, by decide, hraw1, hraw1, by decide, himg, by decide⟩

end TMS

/-! ## Lemmas on the invariants of a run -/

namespace TMS

theorem SET1_lt (x : Nat) : SET1 x < 2 := Nat.and_lt_two_pow x (n := 1) (by decide)
theorem SET3_lt (x : Nat) : SET3 x < 8 := Nat.and_lt_two_pow x (n := 3) (by decide)
theorem SET4_lt (x : Nat) : SET4 x < 16 := Nat.and_lt_two_pow x (n := 4) (by decide)
theorem SET6_lt (x : Nat) : SET6 x < 64 := Nat.and_lt_two_pow x (n := 6) (by decide)

theorem CURR_RAM_index_lt (t : TMS1100) (hx : t.cpu_.reg_x_ < 8) (hy : t.cpu_.reg_y_ < 16) :
    t.CURR_RAM_index < RAM_SIZE := by
  unfold TMS1100.CURR_RAM_index CPUState.get_x CPUState.get_y RAM_SIZE
  have h1 : t.cpu_.reg_x_ <<< 4 < 2 ^ 7 := by rw [Nat.shiftLeft_eq]; omega
  have h2 : t.cpu_.reg_y_ < 2 ^ 7 := by omega
  exact Nat.or_lt_two_pow h1 h2

theorem rom_address_lt (ca pa pc : Nat) (h1 : ca < 2) (h2 : pa < 16) (h3 : pc < 64) :
    ((ca <<< 10) ||| (pa <<< 6) ||| pc) % 65536 < 2048 := by
  have e1 : ca <<< 10 < 2 ^ 11 := by rw [Nat.shiftLeft_eq]; omega
  have e2 : pa <<< 6 < 2 ^ 11 := by rw [Nat.shiftLeft_eq]; omega
  have e3 : pc < 2 ^ 11 := by omega
  have := Nat.or_lt_two_pow (Nat.or_lt_two_pow e1 e2) e3
  omega

theorem sbit_value : ∀ v, v < 16 → ∀ k, k < 4 → (v ||| (1 <<< k) % 256) % 256 < 16 := by decide

theorem tdo_value : ∀ a, a < 16 → ∀ sl : Bool, (a ||| (if sl then 0x10 else 0)) % 256 < 32 := by
  decide

theorem constant_table : ∀ op, op < 256 →
    (op_code_func_ op ∈ [some OpFunc.op_a_aac, some .op_ldp, some .op_tcy, some .op_ynec,
        some .op_tcmiy] → (op_tables.op_code_constant_ op).any (fun k => decide (k < 16)) = true) ∧
    (op_code_func_ op ∈ [some OpFunc.op_sbit, some .op_rbit, some .op_tbit1] →
        (op_tables.op_code_constant_ op).any (fun k => decide (k < 4)) = true) ∧
    (op_code_func_ op = some OpFunc.op_ldx →
        (op_tables.op_code_constant_ op).any (fun k => decide (k < 8)) = true) := by
  decide

theorem constant_of_any (op n : Nat)
    (h : (op_tables.op_code_constant_ op).any (fun k => decide (k < n)) = true) :
    ∃ k, op_code_constant_ op = .ok k ∧ k < n := by
  unfold op_code_constant_
  cases hk : op_tables.op_code_constant_ op with
  | none => rw [hk] at h; simp at h
  | some k => rw [hk] at h; exact ⟨k, rfl, by simpa using h⟩

theorem com_x_value : ∀ x, x < 8 → (x ^^^ (4 &&& 0x07)) % 256 < 8 := by decide

theorem get_k_preserves (c : CPUState) (h : c.WidthInv) :
    c.get_k.1.WidthInv ∧ c.get_k.2 < 16 := by
  unfold CPUState.get_k
  cases hcb : c.input_k_cb_ with
  | none => exact ⟨h, h.2.2.2.2.2.2.1⟩
  | some cb =>
    obtain ⟨hpc, hpa, hpb, hx, ha, hy, hk, ho, hsr, hca, hcb, hcs⟩ := h
    simp [CPUState.WidthInv, CPUState.set_k, SET4_lt, *]

theorem call_preserves (f : OpFunc) (opcode : Nat) (last_s : Bool) (t : TMS1100)
    (hlt : opcode < 256) (hf : op_code_func_ opcode = some f) (hc : t.cpu_.WidthInv)
    (hr : t.RamInv) :
    ∃ t', f.call opcode last_s t = .ok t' ∧ t'.cpu_.WidthInv ∧ t'.RamInv ∧ t'.rom_ = t.rom_ := by
  obtain ⟨hpc, hpa, hpb, hx, ha, hy, hk, ho, hsr, hca, hcb, hcs⟩ := hc
  have hidx := CURR_RAM_index_lt t hx hy
  have hcell : t.ram_ t.CURR_RAM_index < 16 := hr _ hidx
  obtain ⟨c16, c4, c8⟩ := constant_table opcode hlt
  have hram : ∀ v, v < 16 → ∀ i, i < RAM_SIZE →
      (if i = t.CURR_RAM_index then v else t.ram_ i) < 16 := by
    intro v hv i hi
    split
    · exact hv
    · exact hr i hi
  have hand : ∀ m, t.ram_ t.CURR_RAM_index &&& m < 16 :=
    fun m => Nat.lt_of_le_of_lt Nat.and_le_left hcell
  have hgk := get_k_preserves t.cpu_
  cases f
  case op_a_aac | op_ldp | op_tcy | op_ynec | op_tcmiy =>
    obtain ⟨k, hk1, hk2⟩ := constant_of_any _ _ (c16 (by simp [hf]))
    simp only [OpFunc.call, TMS1100.op_a_aac, TMS1100.op_ldp, TMS1100.op_tcy, TMS1100.op_ynec,
      TMS1100.op_tcmiy, hk1, TMS1100.CURR_RAM_assign, hidx, bind, Except.bind, pure,
      Except.pure, if_true]
    refine ⟨_, rfl, ?_, ?_, rfl⟩
    · simp [CPUState.WidthInv, TMS1100.uADC_a, CPUState.set_a, CPUState.set_s, CPUState.set_pb,
        CPUState.set_y, CPUState.inc_y, SET4_lt, *]
    · first
        | exact hr
        | exact hram k hk2
  case op_sbit | op_rbit | op_tbit1 =>
    obtain ⟨k, hk1, hk2⟩ := constant_of_any _ _ (c4 (by simp [hf]))
    simp only [OpFunc.call, TMS1100.op_sbit, TMS1100.op_rbit, TMS1100.op_tbit1, hk1,
      TMS1100.CURR_RAM_assign, TMS1100.CURR_RAM, hidx, bind, Except.bind, pure,
      Except.pure, if_true]
    refine ⟨_, rfl, ?_, ?_, rfl⟩
    · simp [CPUState.WidthInv, CPUState.set_s, *]
    · first
        | exact hr
        | exact hram _ (sbit_value _ hcell _ hk2)
        | exact hram _ (hand _)
  case op_ldx =>
    obtain ⟨k, hk1, hk2⟩ := constant_of_any _ _ (c8 hf)
    simp only [OpFunc.call, TMS1100.op_ldx, hk1, bind, Except.bind, pure, Except.pure]
    refine ⟨_, rfl, ?_, hr, rfl⟩
    simp [CPUState.WidthInv, CPUState.set_x, SET3_lt, *]
  case op_knez | op_tka =>
    simp only [OpFunc.call, TMS1100.op_knez, TMS1100.op_tka, pure, Except.pure]
    refine ⟨_, rfl, ?_, hr, rfl⟩
    have h := hgk ⟨hpc, hpa, hpb, hx, ha, hy, hk, ho, hsr, hca, hcb, hcs⟩
    revert h
    simp only [CPUState.WidthInv, CPUState.set_s, CPUState.set_a]
    intro h
    simp [SET4_lt, h]
  case op_setr | op_rstr =>
    simp only [OpFunc.call, TMS1100.op_setr, TMS1100.op_rstr, pure, Except.pure]
    split
    · refine ⟨_, rfl, ?_, hr, rfl⟩
      simp only [CPUState.WidthInv, CPUState.set_r_index, CPUState.rst_r_index]
      split <;> [split; skip] <;> simp [*]
    · exact ⟨_, rfl, ⟨hpc, hpa, hpb, hx, ha, hy, hk, ho, hsr, hca, hcb, hcs⟩, hr, rfl⟩
  case op_tdo =>
    simp only [OpFunc.call, TMS1100.op_tdo, pure, Except.pure]
    refine ⟨_, rfl, ?_, hr, rfl⟩
    have := tdo_value _ ha t.cpu_.reg_sl_
    simp only [CPUState.WidthInv, CPUState.set_o, CPUState.get_a, CPUState.get_sl]
    split <;> simp [*]
  case op_comx =>
    simp only [OpFunc.call, TMS1100.op_comx, pure, Except.pure]
    refine ⟨_, rfl, ?_, hr, rfl⟩
    unfold CPUState.WidthInv CPUState.com_x
    exact ⟨hpc, hpa, hpb, com_x_value _ hx, ha, hy, hk, ho, hsr, hca, hcb, hcs⟩
  case op_br | op_call | op_retn =>
    simp only [OpFunc.call, TMS1100.op_br, TMS1100.op_call, TMS1100.op_retn, pure, Except.pure]
    cases last_s <;> cases hcl : t.cpu_.reg_cl_ <;>
    simp [CPUState.WidthInv, CPUState.set_ca, CPUState.get_cb, CPUState.set_pc,
      CPUState.get_cl, CPUState.set_pa, CPUState.get_pb, CPUState.set_pb, CPUState.get_pa,
      CPUState.set_cs, CPUState.get_ca, CPUState.set_sr, CPUState.get_pc, CPUState.set_cl,
      CPUState.get_cs, CPUState.get_sr,
      SET1_lt, SET4_lt, SET6_lt, TMS1100.RamInv, *] <;> exact hr
  all_goals
    simp only [OpFunc.call, TMS1100.op_tay, TMS1100.op_tya, TMS1100.op_cla, TMS1100.op_tam,
      TMS1100.op_tamiyc, TMS1100.op_tamdyn, TMS1100.op_tamza, TMS1100.op_tmy, TMS1100.op_tma,
      TMS1100.op_xma, TMS1100.op_amaac, TMS1100.op_saman, TMS1100.op_imac, TMS1100.op_dman,
      TMS1100.op_iyc, TMS1100.op_dyn, TMS1100.op_cpaiz, TMS1100.op_alem, TMS1100.op_mnea,
      TMS1100.op_mnez, TMS1100.op_ynea, TMS1100.op_comx, TMS1100.op_comc,
      TMS1100.CURR_RAM_assign, TMS1100.CURR_RAM, hidx, bind, Except.bind, pure,
      Except.pure, if_true]
    refine ⟨_, rfl, ?_, ?_, rfl⟩
    · simp [CPUState.WidthInv, TMS1100.uADC_a, TMS1100.uADC_y, CPUState.set_a, CPUState.set_s,
        CPUState.set_y, CPUState.inc_y, CPUState.dec_y, CPUState.com_x, CPUState.com_cb,
        CPUState.set_sl, SET1_lt, SET3_lt, SET4_lt, *]
    · first
        | exact hr
        | exact hram _ ha


theorem exec_preserves (t : TMS1100) (opcode : Nat) (hlt : opcode < 256)
    (hc : t.cpu_.WidthInv) (hr : t.RamInv) :
    ∃ t', t.exec opcode = .ok t' ∧ t'.cpu_.WidthInv ∧ t'.RamInv ∧ t'.rom_ = t.rom_ := by
  unfold TMS1100.exec
  have hc' : ({ t with cpu_ := t.cpu_.set_s true } : TMS1100).cpu_.WidthInv := hc
  cases hf : op_code_func_ opcode with
  | none => exact ⟨_, rfl, hc', hr, rfl⟩
  | some f => exact call_preserves f opcode _ _ hlt hf hc' hr

theorem step_preserves (t : TMS1100) (size : Nat) (hsize : 2048 ≤ size)
    (hrom : t.rom_.Holds size) (hc : t.cpu_.WidthInv) (hr : t.RamInv) :
    ∃ t', t.step = .ok t' ∧ t'.cpu_.WidthInv ∧ t'.RamInv ∧ t'.rom_ = t.rom_ := by
  obtain ⟨hpc, hpa, hpb, hx, ha, hy, hk, ho, hsr, hca, hcb, hcs⟩ := hc
  obtain ⟨h1, h2, h3⟩ := hrom
  have haddr := rom_address_lt _ _ _ hca hpa hpc
  have hin : ((t.cpu_.reg_ca_ <<< 10) ||| (t.cpu_.reg_pa_ <<< 6) ||| t.cpu_.reg_pc_) % 65536
      < t.rom_.data_.length := by omega
  have hget := List.getElem?_eq_getElem hin
  have hb : t.rom_.data_[((t.cpu_.reg_ca_ <<< 10) ||| (t.cpu_.reg_pa_ <<< 6) |||
      t.cpu_.reg_pc_) % 65536] < 256 := h3 _ (List.getElem_mem _)
  have hfetch : t.rom_.get_data (((t.cpu_.get_ca <<< 10) ||| (t.cpu_.get_pa <<< 6) |||
      t.cpu_.get_pc) % 65536) = .ok (t.rom_.data_[((t.cpu_.reg_ca_ <<< 10) |||
        (t.cpu_.reg_pa_ <<< 6) ||| t.cpu_.reg_pc_) % 65536]) := by
    unfold ROM.get_data CPUState.get_ca CPUState.get_pa CPUState.get_pc
    rw [if_neg (by omega), hget]
  have hc' : ({ t with cpu_ := t.cpu_.increment_pc } : TMS1100).cpu_.WidthInv :=
    ⟨SET6_lt _, hpa, hpb, hx, ha, hy, hk, ho, hsr, hca, hcb, hcs⟩
  obtain ⟨t', e1, e2, e3, e4⟩ := exec_preserves _ _ hb hc' hr
  refine ⟨t', ?_, e2, e3, e4⟩
  simp only [TMS1100.step, hfetch, bind, Except.bind]
  exact e1

theorem steps_preserves (size : Nat) (hsize : 2048 ≤ size) :
    ∀ (n : Nat) (t : TMS1100), t.rom_.Holds size → t.cpu_.WidthInv → t.RamInv →
      ∃ t', TMS1100.steps n t = .ok t' ∧ t'.cpu_.WidthInv ∧ t'.RamInv ∧ t'.rom_ = t.rom_ := by
  intro n
  induction n with
  | zero => intro t _ hc hr; exact ⟨t, rfl, hc, hr, rfl⟩
  | succ n ih =>
    intro t hrom hc hr
    obtain ⟨t1, e1, e2, e3, e4⟩ := step_preserves t size hsize hrom hc hr
    obtain ⟨t2, f1, f2, f3, f4⟩ := ih t1 (by rw [e4]; exact hrom) e2 e3
    refine ⟨t2, ?_, f2, f3, by rw [f4, e4]⟩
    simp only [TMS1100.steps, e1, bind, Except.bind]
    exact f1

theorem ctor_width : CPUState.ctor.WidthInv := by
  unfold CPUState.WidthInv
  decide

theorem ctor_ram_cells : ∀ i, i < 128 → (TMS1100.ctor ROM.ctor).ram_ i = 0xA := by decide

theorem attach_fields (rom : ROM) (r_cb o_cb : Bool) (k_cb : Option (Int → Int)) :
    ((TMS1100.ctor rom).attach r_cb o_cb k_cb).cpu_.WidthInv ∧
    ((TMS1100.ctor rom).attach r_cb o_cb k_cb).RamInv ∧
    ((TMS1100.ctor rom).attach r_cb o_cb k_cb).rom_ = rom := by
  have hw := ctor_width
  have hram : (TMS1100.ctor rom).RamInv := by
    intro i hi
    have := ctor_ram_cells i hi
    show (TMS1100.ctor ROM.ctor).ram_ i < 16
    omega
  cases r_cb <;> cases o_cb <;> cases k_cb <;> exact ⟨hw, hram, rfl⟩


theorem rom_holds_replicate (b : Nat) (hb : b < 256) :
    ROM.Holds { data_ := List.replicate 2048 b, rom_size_ := 2048 } 2048 :=
  ⟨rfl, List.length_replicate _ _, fun x hx => by rw [List.eq_of_mem_replicate hx]; exact hb⟩

/-! ## Invariants of a run: statement C4 -/

/-- C4: from the constructed power-up state, for every ROM object holding 2048 bytes,
every choice of registered callbacks (the K callback being any function from `int` to
`int`) and every number `n` of calls of `step`, the `n` calls return and leave
`PC < 64`, `PA < 16`, `PB < 16`, `X < 8`, `A < 16`, `Y < 16`, `K < 16`, `O < 32`,
`SR < 64` and `CA`, `CB`, `CS` in `{0, 1}`. -/
theorem step_register_widths (rom : ROM) (hrom : rom.Holds 2048) (r_cb o_cb : Bool)
    (k_cb : Option (Int → Int)) (n : Nat) :
    ∃ t, TMS1100.steps n ((TMS1100.ctor rom).attach r_cb o_cb k_cb) = .ok t ∧
      t.cpu_.reg_pc_ < 64 ∧ t.cpu_.reg_pa_ < 16 ∧ t.cpu_.reg_pb_ < 16 ∧ t.cpu_.reg_x_ < 8 ∧
      t.cpu_.reg_a_ < 16 ∧ t.cpu_.reg_y_ < 16 ∧ t.cpu_.reg_k_ < 16 ∧ t.cpu_.reg_o_ < 32 ∧
      t.cpu_.reg_sr_ < 64 ∧ t.cpu_.reg_ca_ < 2 ∧ t.cpu_.reg_cb_ < 2 ∧ t.cpu_.reg_cs_ < 2 := by
  obtain ⟨h1, h2, h3⟩ := attach_fields rom r_cb o_cb k_cb
  obtain ⟨t, e1, e2, _, _⟩ := steps_preserves 2048 (le_refl _) n _ (by rw [h3]; exact hrom) h1 h2
  exact ⟨t, e1, e2⟩


/-- Instance of `step_register_widths`: a ROM of `TKA` bytes, a K callback that always
returns `-1`, five steps. -/
theorem step_register_widths_witness :
    input_rom.Holds 2048 ∧
    ∃ t, TMS1100.steps 5 ((TMS1100.ctor input_rom).attach true true (some fun _ => -1)) = .ok t ∧
      t.cpu_.reg_pc_ < 64 ∧ t.cpu_.reg_pa_ < 16 ∧ t.cpu_.reg_pb_ < 16 ∧ t.cpu_.reg_x_ < 8 ∧
      t.cpu_.reg_a_ < 16 ∧ t.cpu_.reg_y_ < 16 ∧ t.cpu_.reg_k_ < 16 ∧ t.cpu_.reg_o_ < 32 ∧
      t.cpu_.reg_sr_ < 64 ∧ t.cpu_.reg_ca_ < 2 ∧ t.cpu_.reg_cb_ < 2 ∧ t.cpu_.reg_cs_ < 2 :=
  ⟨rom_holds_replicate 0x08 (by decide),
    step_register_widths input_rom (rom_holds_replicate 0x08 (by decide)) true true
      (some fun _ => -1) 5⟩

end TMS

/-! ## Lemmas on `exec` for `BR` and `CALL` -/

namespace TMS

theorem op_code_func_br_table : ∀ op, op < 256 → 0x80 ≤ op → op ≤ 0xBF →
    op_code_func_ op = some .op_br := by decide

theorem op_code_func_call_table : ∀ op, op < 256 → 0xC0 ≤ op →
    op_code_func_ op = some .op_call := by decide

theorem SET6_SET6 (x : Nat) : SET6 (SET6 x) = x &&& 0x3F := by
  unfold SET6
  rw [Nat.and_assoc]
  rfl

theorem SET1_of_lt : ∀ x, x < 2 → SET1 x = x := by decide

theorem SET4_of_lt : ∀ x, x < 16 → SET4 x = x := by decide

theorem exec_branch_not_taken (t : TMS1100) (opcode : Nat) (h1 : 0x80 ≤ opcode)
    (h2 : opcode ≤ 0xFF) (hs : t.cpu_.reg_s_ = false) :
    t.exec opcode = .ok { t with cpu_ := { t.cpu_ with reg_s_ := true } } := by
  by_cases hc : opcode ≤ 0xBF
  · simp [TMS1100.exec, op_code_func_br_table opcode (by omega) h1 hc, OpFunc.call,
      TMS1100.op_br, CPUState.get_s, CPUState.set_s, hs, pure, Except.pure]
  · simp [TMS1100.exec, op_code_func_call_table opcode (by omega) (by omega), OpFunc.call,
      TMS1100.op_call, CPUState.get_s, CPUState.set_s, hs, pure, Except.pure]

theorem exec_br_taken (t : TMS1100) (opcode : Nat) (h1 : 0x80 ≤ opcode)
    (h2 : opcode ≤ 0xBF) (hs : t.cpu_.reg_s_ = true) :
    t.exec opcode = .ok { t with cpu_ := { t.cpu_ with
      reg_ca_ := SET1 t.cpu_.reg_cb_
      reg_pc_ := opcode &&& 0x3F
      reg_pa_ := if t.cpu_.reg_cl_ then t.cpu_.reg_pa_ else SET4 t.cpu_.reg_pb_ } } := by
  cases hcl : t.cpu_.reg_cl_ <;>
  simp [TMS1100.exec, op_code_func_br_table opcode (by omega) h1 h2, OpFunc.call,
      TMS1100.op_br, CPUState.get_s, CPUState.set_s, hs, pure, Except.pure,
      CPUState.set_ca, CPUState.get_cb, CPUState.set_pc, CPUState.get_cl, CPUState.set_pa,
      CPUState.get_pb, SET6_SET6, hcl]

theorem exec_call_taken (t : TMS1100) (opcode : Nat) (h1 : 0xC0 ≤ opcode)
    (h2 : opcode ≤ 0xFF) (hs : t.cpu_.reg_s_ = true) :
    t.exec opcode = .ok { t with cpu_ :=
      if t.cpu_.reg_cl_ then
        { t.cpu_ with
          reg_pb_ := SET4 t.cpu_.reg_pa_
          reg_ca_ := SET1 t.cpu_.reg_cb_
          reg_pc_ := opcode &&& 0x3F }
      else
        { t.cpu_ with
          reg_cs_ := SET1 t.cpu_.reg_ca_
          reg_sr_ := t.cpu_.reg_pc_
          reg_pb_ := SET4 t.cpu_.reg_pa_
          reg_pa_ := SET4 t.cpu_.reg_pb_
          reg_cl_ := true
          reg_ca_ := SET1 t.cpu_.reg_cb_
          reg_pc_ := opcode &&& 0x3F } } := by
  cases hcl : t.cpu_.reg_cl_ <;>
  simp [TMS1100.exec, op_code_func_call_table opcode (by omega) h1, OpFunc.call,
      TMS1100.op_call, CPUState.get_s, CPUState.set_s, hs, pure, Except.pure,
      CPUState.set_ca, CPUState.get_cb, CPUState.set_pc, CPUState.get_cl, CPUState.set_pa,
      CPUState.get_pb, SET6_SET6, hcl, CPUState.set_pb, CPUState.get_pa, CPUState.set_cs,
      CPUState.get_ca, CPUState.set_sr, CPUState.get_pc, CPUState.set_cl]

theorem ctor_cpu (rom : ROM) : (TMS1100.ctor rom).cpu_ = CPUState.ctor := rfl

theorem ctor_rom (rom : ROM) : (TMS1100.ctor rom).rom_ = rom := rfl

theorem ctor_ram (rom : ROM) : (TMS1100.ctor rom).ram_ = (TMS1100.ctor ROM.ctor).ram_ := rfl

/-- The first `step` of a constructed machine whose first fetched byte is `BR` or `CALL`. -/
theorem first_step_branch (rom : ROM) (opcode : Nat) (hfetch : rom.get_data 0x3C0 = .ok opcode)
    (h1 : 0x80 ≤ opcode) (h2 : opcode ≤ 0xFF) :
    (TMS1100.ctor rom).step = .ok { TMS1100.ctor rom with
      cpu_ := { (TMS1100.ctor rom).cpu_ with reg_pc_ := 1, reg_s_ := true } } := by
  have haddr : ((CPUState.ctor.get_ca <<< 10) ||| (CPUState.ctor.get_pa <<< 6)
      ||| CPUState.ctor.get_pc) % 65536 = 0x3C0 := by decide
  have hs : CPUState.ctor.increment_pc.reg_s_ = false := by decide
  have hpc : ({ CPUState.ctor.increment_pc with reg_s_ := true } : CPUState) =
      { CPUState.ctor with reg_pc_ := 1, reg_s_ := true } := rfl
  simp only [TMS1100.step, ctor_cpu, ctor_rom, haddr, hfetch, bind, Except.bind]
  rw [exec_branch_not_taken _ opcode h1 h2 hs]
  simp only [hpc]

theorem get_data_replicate (n b index : Nat) (h : index < n) :
    ROM.get_data { data_ := List.replicate n b, rom_size_ := n } index = .ok b := by
  unfold ROM.get_data
  simp only [ge_iff_le]
  rw [if_neg (by omega), List.getElem?_replicate, if_pos h]

theorem remap_loop_length (buffer : List Nat) :
    ∀ k img, remap_loop buffer k = .ok img → img.length = k := by
  intro k
  induction k with
  | zero => intro img h; cases h; rfl
  | succ k ih =>
    intro img h
    simp only [remap_loop, bind, Except.bind] at h
    split at h
    · cases h
    · rename_i done hd
      split at h
      · cases h
      · cases h
        simp [ih _ hd]

theorem setters_mask (c : CPUState) (v : Nat) :
    (c.set_a v).reg_a_ = v &&& 0x0F ∧ (c.set_y v).reg_y_ = v &&& 0x0F ∧
    (c.set_pa v).reg_pa_ = v &&& 0x0F ∧ (c.set_pb v).reg_pb_ = v &&& 0x0F ∧
    (c.set_k v).reg_k_ = v &&& 0x0F ∧ (c.set_x v).reg_x_ = v &&& 0x07 ∧
    (c.set_pc v).reg_pc_ = v &&& 0x3F ∧ (c.set_ca v).reg_ca_ = v &&& 0x01 ∧
    (c.set_cb v).reg_cb_ = v &&& 0x01 ∧ (c.set_cs v).reg_cs_ = v &&& 0x01 :=
  ⟨rfl, rfl, rfl, rfl, rfl, rfl, rfl, rfl, rfl, rfl⟩

theorem set_o_stores (c : CPUState) (v : Nat) : (c.set_o v).reg_o_ = v := by
  unfold CPUState.set_o
  cases c.output_o_cb_ <;> rfl

/-! ## Setters, power-up state, ROM reads, `BR` and `CALL`: statements C6 to C10 -/

/-- C6, evaluated on the code: the setters of `A`, `Y`, `PA`, `PB`, `K`, `X`, `PC`, `CA`,
`CB` and `CS` mask their argument to the width of the register, but `set_sr` and `set_o`
store it as it is: after `set_sr(0xFF)` the field is `0xFF`, not `0xFF & 0x3F = 0x3F`,
and after `set_o(0xFF)` the field is `0xFF`, not `0xFF & 0x1F = 0x1F`. -/
theorem set_sr_set_o_store_unmasked :
    (∀ (c : CPUState) (v : Nat),
      (c.set_a v).reg_a_ = v &&& 0x0F ∧ (c.set_y v).reg_y_ = v &&& 0x0F ∧
      (c.set_pa v).reg_pa_ = v &&& 0x0F ∧ (c.set_pb v).reg_pb_ = v &&& 0x0F ∧
      (c.set_k v).reg_k_ = v &&& 0x0F ∧ (c.set_x v).reg_x_ = v &&& 0x07 ∧
      (c.set_pc v).reg_pc_ = v &&& 0x3F ∧ (c.set_ca v).reg_ca_ = v &&& 0x01 ∧
      (c.set_cb v).reg_cb_ = v &&& 0x01 ∧ (c.set_cs v).reg_cs_ = v &&& 0x01) ∧
    (∀ (c : CPUState) (v : Nat), (c.set_sr v).reg_sr_ = v ∧ (c.set_o v).reg_o_ = v) ∧
    (CPUState.ctor.set_sr 0xFF).get_sr = 0xFF ∧ (0xFF &&& 0x3F : Nat) = 0x3F ∧
    (CPUState.ctor.set_o 0xFF).reg_o_ = 0xFF ∧ (0xFF &&& 0x1F : Nat) = 0x1F :=
  ⟨setters_mask, fun c v => ⟨rfl, set_o_stores c v⟩, by decide, by decide, by decide, by decide⟩

/-- C7 (amended): the constructed power-up state has `A = 0xA`, `X = 2`, `Y = 0xA`,
`PA = PB = 0xF`, `PC = 0`, `S = false`, `CL = false`, every R latch false and every one
of the 128 RAM cells `0xA`; the first fetch is at address `0x3C0`, and as `S` starts
clear a `BR` or `CALL` fetched as the very first instruction is not taken: the first
`step` only advances `PC` to 1 and sets `S`. -/
theorem power_up_state (rom : ROM) :
    (TMS1100.ctor rom).cpu_.reg_a_ = 0xA ∧ (TMS1100.ctor rom).cpu_.reg_x_ = 2 ∧
    (TMS1100.ctor rom).cpu_.reg_y_ = 0xA ∧ (TMS1100.ctor rom).cpu_.reg_pa_ = 0xF ∧
    (TMS1100.ctor rom).cpu_.reg_pb_ = 0xF ∧ (TMS1100.ctor rom).cpu_.reg_pc_ = 0 ∧
    (TMS1100.ctor rom).cpu_.reg_s_ = false ∧ (TMS1100.ctor rom).cpu_.reg_cl_ = false ∧
    (∀ i, i < R_WIDTH → (TMS1100.ctor rom).cpu_.reg_r_ i = false) ∧
    (∀ i, i < 128 → (TMS1100.ctor rom).ram_ i = 0xA) ∧
    (((TMS1100.ctor rom).cpu_.get_ca <<< 10) ||| ((TMS1100.ctor rom).cpu_.get_pa <<< 6) |||
      (TMS1100.ctor rom).cpu_.get_pc) % 65536 = 0x3C0 ∧
    (∀ opcode, rom.get_data 0x3C0 = .ok opcode → 0x80 ≤ opcode → opcode ≤ 0xFF →
      (TMS1100.ctor rom).step = .ok { TMS1100.ctor rom with
        cpu_ := { (TMS1100.ctor rom).cpu_ with reg_pc_ := 1, reg_s_ := true } }) := by
  rw [ctor_cpu, ctor_ram]
  exact ⟨by decide, by decide, by decide, by decide, by decide, by decide, by decide,
    by decide, by decide, by decide, by decide,
    fun opcode hf h1 h2 => by
      have := first_step_branch rom opcode hf h1 h2
      rw [ctor_cpu] at this
      exact this⟩

/-- Instance of `power_up_state`: on a ROM of `BR 5` bytes the first `step` leaves
`PC = 1` and `S = true`. -/
theorem power_up_state_witness :
    branch_rom.get_data 0x3C0 = .ok 0x85 ∧
    (TMS1100.ctor branch_rom).step = .ok { TMS1100.ctor branch_rom with
      cpu_ := { (TMS1100.ctor branch_rom).cpu_ with reg_pc_ := 1, reg_s_ := true } } :=
  ⟨get_data_replicate 2048 0x85 0x3C0 (by decide),
    (power_up_state branch_rom).2.2.2.2.2.2.2.2.2.2.2 0x85
      (get_data_replicate 2048 0x85 0x3C0 (by decide)) (by decide) (by decide)⟩

/-- C7 fails as stated: the constructed state has `S = false`, and on a ROM whose
bytes are all `BR 5` the first `step` fetches `0x85` and leaves `PC = 1`, not 5. -/
theorem power_up_state_counterexample :
    (TMS1100.ctor branch_rom).cpu_.get_s = false ∧
    branch_rom.get_data 0x3C0 = .ok 0x85 ∧ (0x85 &&& 0x3F : Nat) = 5 ∧
    ∃ t, (TMS1100.ctor branch_rom).step = .ok t ∧ t.cpu_.reg_pc_ = 1 ∧ t.cpu_.reg_pc_ ≠ 5 :=
  ⟨by rw [ctor_cpu]; decide, get_data_replicate 2048 0x85 0x3C0 (by decide), by decide, _,
    first_step_branch branch_rom 0x85 (get_data_replicate 2048 0x85 0x3C0 (by decide))
      (by decide) (by decide), rfl, by decide⟩

/-- C8: `ROM::get_data(index)` throws its out-of-range error if and only if
`index ≥ rom_size_`; on a ROM whose image has `rom_size_` bytes (every constructed or
loaded ROM) it fails in no other way and otherwise returns the image byte at `index`;
on a ROM that was constructed and never loaded (`rom_size_ = 0`) every read throws. -/
theorem get_data_range (rom : ROM) (index : Nat) :
    (rom.get_data index = .error .rom_out_of_range ↔ rom.rom_size_ ≤ index) ∧
    (rom.data_.length = rom.rom_size_ →
      ((∃ e, rom.get_data index = .error e) ↔ rom.rom_size_ ≤ index) ∧
      (index < rom.rom_size_ →
        ∃ b, rom.data_[index]? = some b ∧ rom.get_data index = .ok b)) ∧
    (ROM.ctor.data_.length = ROM.ctor.rom_size_ ∧ ROM.ctor.rom_size_ = 0 ∧
      ROM.ctor.get_data index = .error .rom_out_of_range) ∧
    (∀ raw image, rom.load_rom raw = .ok image →
      image.data_.length = image.rom_size_ ∧ image.rom_size_ = raw.length) := by
  refine ⟨?_, ?_, ⟨rfl, rfl, by unfold ROM.get_data; exact if_pos (Nat.zero_le _)⟩, ?_⟩
  · unfold ROM.get_data
    by_cases h : index ≥ rom.rom_size_
    · simp [h]
    · rw [if_neg h]
      constructor
      · intro h2
        split at h2 <;> cases h2
      · intro h2
        exact absurd h2 h
  · intro hwf
    have hok : index < rom.rom_size_ →
        ∃ b, rom.data_[index]? = some b ∧ rom.get_data index = .ok b := by
      intro h
      have hin : index < rom.data_.length := by omega
      refine ⟨rom.data_[index], List.getElem?_eq_getElem hin, ?_⟩
      unfold ROM.get_data
      rw [if_neg (by omega), List.getElem?_eq_getElem hin]
    refine ⟨⟨?_, ?_⟩, hok⟩
    · rintro ⟨e, he⟩
      by_contra hlt
      obtain ⟨b, _, hb⟩ := hok (by omega)
      rw [hb] at he
      cases he
    · intro h
      exact ⟨_, by unfold ROM.get_data; rw [if_pos h]⟩
  · intro raw image h
    simp only [ROM.load_rom, bind, Except.bind] at h
    split at h
    · cases h
    · rename_i img himg
      cases h
      exact ⟨remap_loop_length raw _ _ himg, rfl⟩

/-- Instance of `get_data_range`: in a ROM of 2048 bytes `0x85`, the read at 5 returns
`0x85` and the read at 2048 throws. -/
theorem get_data_range_witness :
    branch_rom.data_.length = branch_rom.rom_size_ ∧
    (∃ b, branch_rom.data_[5]? = some b ∧ branch_rom.get_data 5 = .ok b) ∧
    branch_rom.get_data 2048 = .error .rom_out_of_range :=
  have hwf : branch_rom.data_.length = branch_rom.rom_size_ := List.length_replicate _ _
  ⟨hwf, ((get_data_range branch_rom 5).2.1 hwf).2 (by decide),
    (get_data_range branch_rom 2048).1.mpr (by decide)⟩

/-- C9: for every state and every opcode in `0x80..0xFF`, if `S` is false before
`exec` then `exec` returns the state unchanged (registers, RAM, R latches, callback
trace) except that `S` is true; if `S` is true before `exec` (the chapter register `CB`
being within its width of one bit) then afterwards `PC = opcode & 0x3F` and `CA` is the
prior `CB`. -/
theorem exec_branch_gated (t : TMS1100) (opcode : Nat) (h1 : 0x80 ≤ opcode)
    (h2 : opcode ≤ 0xFF) :
    (t.cpu_.reg_s_ = false →
      t.exec opcode = .ok { t with cpu_ := { t.cpu_ with reg_s_ := true } }) ∧
    (t.cpu_.reg_s_ = true → t.cpu_.reg_cb_ < 2 →
      ∃ t', t.exec opcode = .ok t' ∧ t'.cpu_.reg_pc_ = opcode &&& 0x3F ∧
        t'.cpu_.reg_ca_ = t.cpu_.reg_cb_) := by
  refine ⟨exec_branch_not_taken t opcode h1 h2, ?_⟩
  intro hs hcb
  by_cases hc : opcode ≤ 0xBF
  · exact ⟨_, exec_br_taken t opcode h1 hc hs, rfl, SET1_of_lt _ hcb⟩
  · refine ⟨_, exec_call_taken t opcode (by omega) h2 hs, ?_, ?_⟩
    · cases hcl : t.cpu_.reg_cl_ <;> simp
    · cases hcl : t.cpu_.reg_cl_ <;> simp [SET1_of_lt _ hcb]

/-- Instance of `exec_branch_gated`: `CALL 5` on the power-up state (`S` false) only
sets `S`; executed again on the resulting state it is taken. -/
theorem exec_branch_gated_witness :
    (TMS1100.ctor ROM.ctor).exec 0xC5 = .ok { TMS1100.ctor ROM.ctor with
      cpu_ := { CPUState.ctor with reg_s_ := true } } ∧
    ∃ t', ({ TMS1100.ctor ROM.ctor with cpu_ := { CPUState.ctor with reg_s_ := true } } :
        TMS1100).exec 0xC5 = .ok t' ∧ t'.cpu_.reg_pc_ = 0xC5 &&& 0x3F ∧ t'.cpu_.reg_ca_ = 0 :=
  ⟨(exec_branch_gated (TMS1100.ctor ROM.ctor) 0xC5 (by decide) (by decide)).1 (by decide),
    (exec_branch_gated { TMS1100.ctor ROM.ctor with cpu_ := { CPUState.ctor with reg_s_ := true } }
      0xC5 (by decide) (by decide)).2 rfl (by decide)⟩

/-- C10: for every state with `S` true (the registers `CA`, `CB`, `PA`, `PB` being
within their widths) and every opcode in `0xC0..0xFF`, `exec` returns the state in
which, when `CL` was false, `CS` is the old `CA`, `SR` the old `PC`, `PA` the old `PB`,
`PB` the old `PA`, `CL` is true, `CA` is the old `CB` and `PC = opcode & 0x3F`; and when
`CL` was true, `PB` is the old `PA`, `CA` the old `CB` and `PC = opcode & 0x3F`. Every
other field (`A`, `X`, `Y`, `S`, `SL`, `K`, `O`, `CB`, RAM, R, and in the second case
`PA`, `SR`, `CS`, `CL`) is unchanged. -/
theorem exec_call_taken_frame (t : TMS1100) (opcode : Nat) (h1 : 0xC0 ≤ opcode)
    (h2 : opcode ≤ 0xFF) (hs : t.cpu_.reg_s_ = true) (hca : t.cpu_.reg_ca_ < 2)
    (hcb : t.cpu_.reg_cb_ < 2) (hpa : t.cpu_.reg_pa_ < 16) (hpb : t.cpu_.reg_pb_ < 16) :
    (t.cpu_.reg_cl_ = false →
      t.exec opcode = .ok { t with cpu_ := { t.cpu_ with
        reg_cs_ := t.cpu_.reg_ca_
        reg_sr_ := t.cpu_.reg_pc_
        reg_pa_ := t.cpu_.reg_pb_
        reg_pb_ := t.cpu_.reg_pa_
        reg_cl_ := true
        reg_ca_ := t.cpu_.reg_cb_
        reg_pc_ := opcode &&& 0x3F } }) ∧
    (t.cpu_.reg_cl_ = true →
      t.exec opcode = .ok { t with cpu_ := { t.cpu_ with
        reg_pb_ := t.cpu_.reg_pa_
        reg_ca_ := t.cpu_.reg_cb_
        reg_pc_ := opcode &&& 0x3F } }) := by
  have h := exec_call_taken t opcode h1 h2 hs
  rw [SET1_of_lt _ hca, SET1_of_lt _ hcb, SET4_of_lt _ hpa, SET4_of_lt _ hpb] at h
  constructor
  · intro hcl
    rw [h, hcl]
    rfl
  · intro hcl
    rw [h, hcl]
    rfl

/-- Instance of `exec_call_taken_frame`: `CALL 5` on the power-up state with `S` set
(`CL` false) pushes the frame. -/
theorem exec_call_taken_frame_witness :
    ({ TMS1100.ctor ROM.ctor with cpu_ := { CPUState.ctor with reg_s_ := true } } :
      TMS1100).exec 0xC5 = .ok { TMS1100.ctor ROM.ctor with cpu_ := { CPUState.ctor with
        reg_s_ := true
        reg_cs_ := 0
        reg_sr_ := 0
        reg_pa_ := 0xF
        reg_pb_ := 0xF
        reg_cl_ := true
        reg_ca_ := 0
        reg_pc_ := 5 } } :=
  (exec_call_taken_frame
    { TMS1100.ctor ROM.ctor with cpu_ := { CPUState.ctor with reg_s_ := true } } 0xC5
    (by decide) (by decide) rfl (by decide) (by decide) (by decide) (by decide)).1 rfl

end TMS

/-! ## Lemmas on `exec` and `step` for single opcodes -/

namespace TMS

/-- What `exec` does once the handler of the opcode is known. -/
theorem exec_of_func (t : TMS1100) (opcode : Nat) (f : OpFunc)
    (hf : op_code_func_ opcode = some f) :
    t.exec opcode =
      f.call opcode t.cpu_.reg_s_ { t with cpu_ := { t.cpu_ with reg_s_ := true } } := by
  simp only [TMS1100.exec, hf, CPUState.get_s, CPUState.set_s]

/-- What `step` does once the fetched opcode is known. -/
theorem step_of_fetch (t : TMS1100) (opcode : Nat)
    (hfetch : t.rom_.get_data (((t.cpu_.reg_ca_ <<< 10) ||| (t.cpu_.reg_pa_ <<< 6) |||
      t.cpu_.reg_pc_) % 65536) = .ok opcode) :
    t.step = ({ t with cpu_ := t.cpu_.increment_pc } : TMS1100).exec opcode := by
  simp only [TMS1100.step, CPUState.get_ca, CPUState.get_pa, CPUState.get_pc, hfetch, bind,
    Except.bind]

theorem SET6_of_lt : ∀ x, x < 64 → SET6 x = x := by decide

theorem SET6_succ (x : Nat) : SET6 (x + 1) = (x + 1) % 64 :=
  Nat.and_pow_two_sub_one_eq_mod (x + 1) 6

theorem exec_retn (t : TMS1100) :
    t.exec 0x0F = .ok { t with cpu_ :=
      if t.cpu_.reg_cl_ then
        { t.cpu_ with
          reg_s_ := true
          reg_pa_ := SET4 t.cpu_.reg_pb_
          reg_ca_ := SET1 t.cpu_.reg_cs_
          reg_pc_ := SET6 t.cpu_.reg_sr_
          reg_cl_ := false }
      else
        { t.cpu_ with
          reg_s_ := true
          reg_pa_ := SET4 t.cpu_.reg_pb_ } } := by
  rw [exec_of_func t 0x0F .op_retn (by decide)]
  cases hcl : t.cpu_.reg_cl_ <;>
  simp [OpFunc.call, TMS1100.op_retn, pure, Except.pure, CPUState.set_pa, CPUState.get_pb,
    CPUState.get_cl, CPUState.set_ca, CPUState.get_cs, CPUState.set_pc, CPUState.get_sr,
    CPUState.set_cl, hcl]

theorem exec_call_retn (t : TMS1100) (c : Nat) (h1 : 0xC0 ≤ c) (h2 : c ≤ 0xFF)
    (hs : t.cpu_.reg_s_ = true) (hcl : t.cpu_.reg_cl_ = false) (hca : t.cpu_.reg_ca_ < 2)
    (hpa : t.cpu_.reg_pa_ < 16) (hpc : t.cpu_.reg_pc_ < 64) :
    ∃ t1 t2, t.exec c = .ok t1 ∧ t1.exec 0x0F = .ok t2 ∧
      t2.cpu_.reg_ca_ = t.cpu_.reg_ca_ ∧ t2.cpu_.reg_pa_ = t.cpu_.reg_pa_ ∧
      t2.cpu_.reg_pc_ = t.cpu_.reg_pc_ ∧ t2.cpu_.reg_cl_ = false ∧
      t2.cpu_.reg_pb_ = t.cpu_.reg_pa_ := by
  refine ⟨_, _, exec_call_taken t c h1 h2 hs, exec_retn _, ?_⟩
  simp [hcl, SET1_of_lt _ hca, SET4_of_lt _ hpa, SET6_of_lt _ hpc, SET1_of_lt _ (SET1_lt _),
    SET4_of_lt _ (SET4_lt _)]

theorem exec_ldp_zero (t : TMS1100) :
    t.exec 0x10 = .ok { t with cpu_ := { t.cpu_ with reg_s_ := true, reg_pb_ := 0 } } := by
  rw [exec_of_func t 0x10 .op_ldp (by decide)]
  have hk : op_code_constant_ 0x10 = .ok 0 := by decide
  simp only [OpFunc.call, TMS1100.op_ldp, hk, bind, Except.bind, pure, Except.pure,
    CPUState.set_pb]
  rfl

/-- What `step` does on a machine given by its three fields, once the fetch address and
the fetched opcode are known. -/
theorem step_of_cpu (c : CPUState) (rom : ROM) (ram : Nat → Nat) (addr opcode : Nat)
    (haddr : ((c.reg_ca_ <<< 10) ||| (c.reg_pa_ <<< 6) ||| c.reg_pc_) % 65536 = addr)
    (hfetch : rom.get_data addr = .ok opcode) :
    ({ cpu_ := c, rom_ := rom, ram_ := ram } : TMS1100).step =
      ({ cpu_ := c.increment_pc, rom_ := rom, ram_ := ram } : TMS1100).exec opcode := by
  subst haddr
  exact step_of_fetch _ opcode hfetch

/-- The first two steps of a constructed machine that fetches `LDP 0` and then `CALL 0`. -/
theorem power_up_ldp_call (rom : ROM) (h0 : rom.get_data 0x3C0 = .ok 0x10)
    (h1 : rom.get_data 0x3C1 = .ok 0xC0) :
    (TMS1100.ctor rom).steps 2 = .ok {
      cpu_ := { CPUState.ctor with
        reg_s_ := true, reg_cl_ := true, reg_sr_ := 2, reg_pa_ := 0, reg_pb_ := 0xF, reg_pc_ := 0 },
        rom_ := rom, ram_ := (TMS1100.ctor rom).ram_ } := by
  have hstep1 : (TMS1100.ctor rom).step = .ok {
      cpu_ := { CPUState.ctor with reg_s_ := true, reg_pb_ := 0, reg_pc_ := 1 },
      rom_ := rom, ram_ := (TMS1100.ctor rom).ram_ } := by
    have e := step_of_cpu CPUState.ctor rom (TMS1100.ctor rom).ram_ 0x3C0 0x10 (by decide) h0
    have e2 := exec_ldp_zero ⟨CPUState.ctor.increment_pc, rom, (TMS1100.ctor rom).ram_⟩
    exact e.trans e2
  have hstep2 : (⟨{ CPUState.ctor with reg_s_ := true, reg_pb_ := 0, reg_pc_ := 1 },
      rom, (TMS1100.ctor rom).ram_⟩ : TMS1100).step =
      .ok {
        cpu_ := { CPUState.ctor with
        reg_s_ := true, reg_cl_ := true, reg_sr_ := 2, reg_pa_ := 0, reg_pb_ := 0xF, reg_pc_ := 0 },
        rom_ := rom, ram_ := (TMS1100.ctor rom).ram_ } := by
    have e := step_of_cpu { CPUState.ctor with reg_s_ := true, reg_pb_ := 0, reg_pc_ := 1 }
      rom (TMS1100.ctor rom).ram_ 0x3C1 0xC0 (by decide) h1
    have e2 := exec_call_taken
      ⟨CPUState.increment_pc { CPUState.ctor with reg_s_ := true, reg_pb_ := 0, reg_pc_ := 1 },
        rom, (TMS1100.ctor rom).ram_⟩ 0xC0 (by decide) (by decide) rfl
    dsimp only at e2
    exact e.trans e2
  simp only [TMS1100.steps, hstep1, hstep2, bind, Except.bind, pure, Except.pure]

/-- `RETN`, executed or fetched at address 0, on the state that `power_up_ldp_call`
reaches. -/
theorem power_up_ldp_call_retn (rom : ROM) :
    (∃ t3, (⟨{ CPUState.ctor with
        reg_s_ := true, reg_cl_ := true, reg_sr_ := 2, reg_pa_ := 0, reg_pb_ := 0xF, reg_pc_ := 0 },
        rom, (TMS1100.ctor rom).ram_⟩ : TMS1100).exec 0x0F = .ok t3 ∧
      t3.cpu_.reg_pa_ = 0xF ∧ t3.cpu_.reg_pc_ = 2 ∧ t3.cpu_.reg_cl_ = false) ∧
    (rom.get_data 0 = .ok 0x0F →
      ∃ t3, (⟨{ CPUState.ctor with
        reg_s_ := true, reg_cl_ := true, reg_sr_ := 2, reg_pa_ := 0, reg_pb_ := 0xF, reg_pc_ := 0 },
        rom, (TMS1100.ctor rom).ram_⟩ : TMS1100).step = .ok t3 ∧
      t3.cpu_.reg_pa_ = 0xF ∧ t3.cpu_.reg_pc_ = 2 ∧ t3.cpu_.reg_cl_ = false) := by
  constructor
  · have e := exec_retn ⟨{ CPUState.ctor with
        reg_s_ := true, reg_cl_ := true, reg_sr_ := 2, reg_pa_ := 0, reg_pb_ := 0xF, reg_pc_ := 0 },
        rom, (TMS1100.ctor rom).ram_⟩
    dsimp only at e
    exact ⟨_, e, rfl, rfl, rfl⟩
  · intro h
    have e := step_of_cpu { CPUState.ctor with
        reg_s_ := true, reg_cl_ := true, reg_sr_ := 2, reg_pa_ := 0, reg_pb_ := 0xF, reg_pc_ := 0 }
        rom (TMS1100.ctor rom).ram_ 0 0x0F (by decide) h
    have e2 := exec_retn ⟨CPUState.increment_pc { CPUState.ctor with
        reg_s_ := true, reg_cl_ := true, reg_sr_ := 2, reg_pa_ := 0, reg_pb_ := 0xF, reg_pc_ := 0 },
        rom, (TMS1100.ctor rom).ram_⟩
    dsimp only at e2
    exact ⟨_, e.trans e2, rfl, rfl, rfl⟩

theorem get_data_call_retn_rom :
    call_retn_rom.get_data 0x3C0 = .ok 0x10 ∧ call_retn_rom.get_data 0x3C1 = .ok 0xC0 ∧
    call_retn_rom.get_data 0 = .ok 0x0F := by
  have e0 : call_retn_rom.data_[0x3C0]? = some 0x10 := by
    rw [call_retn_rom, List.getElem?_append_right (Nat.le_of_eq (List.length_replicate _ _)),
      List.length_replicate]
    rfl
  have e1 : call_retn_rom.data_[0x3C1]? = some 0xC0 := by
    rw [call_retn_rom, List.getElem?_append_right (by rw [List.length_replicate]; decide),
      List.length_replicate]
    rfl
  have e2 : call_retn_rom.data_[0]? = some 0x0F := by
    rw [call_retn_rom, List.getElem?_append_left (by rw [List.length_replicate]; decide),
      List.getElem?_replicate]
    rfl
  refine ⟨?_, ?_, ?_⟩ <;> unfold ROM.get_data
  · rw [if_neg (by decide), e0]
  · rw [if_neg (by decide), e1]
  · rw [if_neg (by decide), e2]

/-! ## Subroutine linkage: statement C11 -/

/-- C11: for every state with `S` true and `CL` false (the registers `CA`, `PA`, `PC`
being within their widths) and every `CALL` opcode `c` in `0xC0..0xFF`, `exec(c)` then
`exec(0x0F)` both return and leave `CA`, `PA` and `PC` equal to their values before the
`CALL`, `CL` false and `PB` equal to the original `PA`. From power-up, on a ROM holding
`0x10` and `0xC0` at the first two fetch addresses `0x3C0` and `0x3C1`, two steps leave
`CL` true, `SR = 2`, `PA = 0`, `PB = 0xF`, `PC = 0`, and a following `RETN` (executed, or
fetched by `step` at the then current address 0) gives `PA = 0xF`, `PC = 2`, `CL` false. -/
theorem call_then_retn_returns :
    (∀ (t : TMS1100) (c : Nat), 0xC0 ≤ c → c ≤ 0xFF → t.cpu_.reg_s_ = true →
      t.cpu_.reg_cl_ = false → t.cpu_.reg_ca_ < 2 → t.cpu_.reg_pa_ < 16 →
      t.cpu_.reg_pc_ < 64 →
      ∃ t1 t2, t.exec c = .ok t1 ∧ t1.exec 0x0F = .ok t2 ∧
        t2.cpu_.reg_ca_ = t.cpu_.reg_ca_ ∧ t2.cpu_.reg_pa_ = t.cpu_.reg_pa_ ∧
        t2.cpu_.reg_pc_ = t.cpu_.reg_pc_ ∧ t2.cpu_.reg_cl_ = false ∧
        t2.cpu_.reg_pb_ = t.cpu_.reg_pa_) ∧
    (∀ rom : ROM, rom.get_data 0x3C0 = .ok 0x10 → rom.get_data 0x3C1 = .ok 0xC0 →
      ∃ t2, (TMS1100.ctor rom).steps 2 = .ok t2 ∧
        t2.cpu_.reg_cl_ = true ∧ t2.cpu_.reg_sr_ = 2 ∧ t2.cpu_.reg_pa_ = 0 ∧
        t2.cpu_.reg_pb_ = 0xF ∧ t2.cpu_.reg_pc_ = 0 ∧
        (∃ t3, t2.exec 0x0F = .ok t3 ∧
          t3.cpu_.reg_pa_ = 0xF ∧ t3.cpu_.reg_pc_ = 2 ∧ t3.cpu_.reg_cl_ = false) ∧
        (rom.get_data 0 = .ok 0x0F → ∃ t3, t2.step = .ok t3 ∧
          t3.cpu_.reg_pa_ = 0xF ∧ t3.cpu_.reg_pc_ = 2 ∧ t3.cpu_.reg_cl_ = false)) := by
  refine ⟨fun t c h1 h2 hs hcl hca hpa hpc => exec_call_retn t c h1 h2 hs hcl hca hpa hpc, ?_⟩
  intro rom h0 h1
  have hr := power_up_ldp_call_retn rom
  exact ⟨_, power_up_ldp_call rom h0 h1, rfl, rfl, rfl, rfl, rfl, hr.1, hr.2⟩

/-- Instance of `call_then_retn_returns`: `CALL 5` then `RETN` on the power-up state with
`S` set, and the two steps and the `RETN` on a ROM holding `LDP 0`, `CALL 0` at `0x3C0`
and `RETN` elsewhere. -/
theorem call_then_retn_returns_witness :
    (∃ t1 t2, (⟨{ CPUState.ctor with reg_s_ := true }, ROM.ctor,
        (TMS1100.ctor ROM.ctor).ram_⟩ : TMS1100).exec 0xC5 = .ok t1 ∧
      t1.exec 0x0F = .ok t2 ∧ t2.cpu_.reg_ca_ = 0 ∧ t2.cpu_.reg_pa_ = 0xF ∧
      t2.cpu_.reg_pc_ = 0 ∧ t2.cpu_.reg_cl_ = false ∧ t2.cpu_.reg_pb_ = 0xF) ∧
    (∃ t2, (TMS1100.ctor call_retn_rom).steps 2 = .ok t2 ∧
      t2.cpu_.reg_cl_ = true ∧ t2.cpu_.reg_sr_ = 2 ∧ t2.cpu_.reg_pa_ = 0 ∧
      t2.cpu_.reg_pb_ = 0xF ∧ t2.cpu_.reg_pc_ = 0 ∧
      ∃ t3, t2.step = .ok t3 ∧
        t3.cpu_.reg_pa_ = 0xF ∧ t3.cpu_.reg_pc_ = 2 ∧ t3.cpu_.reg_cl_ = false) := by
  constructor
  · exact call_then_retn_returns.1 ⟨{ CPUState.ctor with reg_s_ := true }, ROM.ctor,
      (TMS1100.ctor ROM.ctor).ram_⟩ 0xC5 (by decide) (by decide) rfl (by decide) (by decide)
      (by decide) (by decide)
  · obtain ⟨t2, h1, h2, h3, h4, h5, h6, _, h8⟩ := call_then_retn_returns.2 call_retn_rom
      get_data_call_retn_rom.1 get_data_call_retn_rom.2.1
    exact ⟨t2, h1, h2, h3, h4, h5, h6, h8 get_data_call_retn_rom.2.2⟩

theorem get_k_frame (c : CPUState) :
    c.get_k.1.reg_s_ = c.reg_s_ ∧ c.get_k.1.reg_pc_ = c.reg_pc_ ∧
    c.get_k.1.reg_pa_ = c.reg_pa_ ∧ c.get_k.1.reg_ca_ = c.reg_ca_ := by
  unfold CPUState.get_k
  cases c.input_k_cb_ <;> exact ⟨rfl, rfl, rfl, rfl⟩

theorem set_r_index_frame (c : CPUState) (index : Nat) :
    (c.set_r_index index).reg_s_ = c.reg_s_ ∧ (c.set_r_index index).reg_pc_ = c.reg_pc_ ∧
    (c.set_r_index index).reg_pa_ = c.reg_pa_ ∧ (c.set_r_index index).reg_ca_ = c.reg_ca_ := by
  unfold CPUState.set_r_index
  split
  · cases c.output_r_cb_ <;> exact ⟨rfl, rfl, rfl, rfl⟩
  · exact ⟨rfl, rfl, rfl, rfl⟩

theorem rst_r_index_frame (c : CPUState) (index : Nat) :
    (c.rst_r_index index).reg_s_ = c.reg_s_ ∧ (c.rst_r_index index).reg_pc_ = c.reg_pc_ ∧
    (c.rst_r_index index).reg_pa_ = c.reg_pa_ ∧ (c.rst_r_index index).reg_ca_ = c.reg_ca_ := by
  unfold CPUState.rst_r_index
  split
  · cases c.output_r_cb_ <;> exact ⟨rfl, rfl, rfl, rfl⟩
  · exact ⟨rfl, rfl, rfl, rfl⟩

theorem set_o_frame (c : CPUState) (v : Nat) :
    (c.set_o v).reg_s_ = c.reg_s_ ∧ (c.set_o v).reg_pc_ = c.reg_pc_ ∧
    (c.set_o v).reg_pa_ = c.reg_pa_ ∧ (c.set_o v).reg_ca_ = c.reg_ca_ := by
  unfold CPUState.set_o
  cases c.output_o_cb_ <;> exact ⟨rfl, rfl, rfl, rfl⟩

/-- Every handler returns on a state whose `X` and `Y` are within their widths; the
handlers of the listed opcodes leave `S` as `exec` set it, and every handler other than
`op_br`, `op_call` and `op_retn` leaves `PC`, `PA` and `CA` as they are. -/
theorem call_frame (f : OpFunc) (opcode : Nat) (last_s : Bool) (t : TMS1100)
    (hlt : opcode < 256) (hf : op_code_func_ opcode = some f) (hx : t.cpu_.reg_x_ < 8)
    (hy : t.cpu_.reg_y_ < 16) :
    ∃ t', f.call opcode last_s t = .ok t' ∧
      (f ∈ [OpFunc.op_tay, .op_tya, .op_cla, .op_tam, .op_tamza, .op_tmy, .op_tma, .op_xma,
          .op_ldp, .op_tcy, .op_tcmiy, .op_sbit, .op_rbit, .op_comx, .op_comc, .op_tka, .op_setr,
          .op_rstr, .op_tdo, .op_ldx, .op_retn, .op_br, .op_call] →
        t'.cpu_.reg_s_ = t.cpu_.reg_s_) ∧
      (f ∉ [OpFunc.op_br, .op_call, .op_retn] →
        t'.cpu_.reg_pc_ = t.cpu_.reg_pc_ ∧ t'.cpu_.reg_pa_ = t.cpu_.reg_pa_ ∧
        t'.cpu_.reg_ca_ = t.cpu_.reg_ca_) := by
  have hidx := CURR_RAM_index_lt t hx hy
  obtain ⟨c16, c4, c8⟩ := constant_table opcode hlt
  have hgk := get_k_frame t.cpu_
  cases f
  case op_a_aac | op_ldp | op_tcy | op_ynec | op_tcmiy =>
    obtain ⟨k, hk1, -⟩ := constant_of_any _ _ (c16 (by simp [hf]))
    simp only [OpFunc.call, TMS1100.op_a_aac, TMS1100.op_ldp, TMS1100.op_tcy, TMS1100.op_ynec,
      TMS1100.op_tcmiy, hk1, TMS1100.CURR_RAM_assign, hidx, bind, Except.bind, pure,
      Except.pure, if_true]
    exact ⟨_, rfl, by simp [CPUState.set_pb, CPUState.set_y, CPUState.inc_y],
      fun _ => ⟨rfl, rfl, rfl⟩⟩
  case op_sbit | op_rbit | op_tbit1 =>
    obtain ⟨k, hk1, -⟩ := constant_of_any _ _ (c4 (by simp [hf]))
    simp only [OpFunc.call, TMS1100.op_sbit, TMS1100.op_rbit, TMS1100.op_tbit1, hk1,
      TMS1100.CURR_RAM_assign, TMS1100.CURR_RAM, hidx, bind, Except.bind, pure,
      Except.pure, if_true]
    exact ⟨_, rfl, by simp, fun _ => ⟨rfl, rfl, rfl⟩⟩
  case op_ldx =>
    obtain ⟨k, hk1, -⟩ := constant_of_any _ _ (c8 hf)
    simp only [OpFunc.call, TMS1100.op_ldx, hk1, bind, Except.bind, pure, Except.pure]
    exact ⟨_, rfl, fun _ => rfl, fun _ => ⟨rfl, rfl, rfl⟩⟩
  case op_knez =>
    simp only [OpFunc.call, TMS1100.op_knez, pure, Except.pure]
    exact ⟨_, rfl, fun h => absurd h (by decide), fun _ => ⟨hgk.2.1, hgk.2.2.1, hgk.2.2.2⟩⟩
  case op_tka =>
    simp only [OpFunc.call, TMS1100.op_tka, pure, Except.pure]
    exact ⟨_, rfl, fun _ => hgk.1, fun _ => ⟨hgk.2.1, hgk.2.2.1, hgk.2.2.2⟩⟩
  case op_setr =>
    simp only [OpFunc.call, TMS1100.op_setr, pure, Except.pure]
    have h := set_r_index_frame t.cpu_ t.cpu_.get_y
    split
    · exact ⟨_, rfl, fun _ => h.1, fun _ => h.2⟩
    · exact ⟨_, rfl, fun _ => rfl, fun _ => ⟨rfl, rfl, rfl⟩⟩
  case op_rstr =>
    simp only [OpFunc.call, TMS1100.op_rstr, pure, Except.pure]
    have h := rst_r_index_frame t.cpu_ t.cpu_.get_y
    split
    · exact ⟨_, rfl, fun _ => h.1, fun _ => h.2⟩
    · exact ⟨_, rfl, fun _ => rfl, fun _ => ⟨rfl, rfl, rfl⟩⟩
  case op_tdo =>
    simp only [OpFunc.call, TMS1100.op_tdo, pure, Except.pure]
    have h := set_o_frame t.cpu_
      ((t.cpu_.get_a ||| (if t.cpu_.get_sl then 0x10 else 0)) % 256)
    exact ⟨_, rfl, fun _ => h.1, fun _ => h.2⟩
  case op_br | op_call | op_retn =>
    cases last_s <;> cases hcl : t.cpu_.reg_cl_ <;>
    simp [OpFunc.call, TMS1100.op_br, TMS1100.op_call, TMS1100.op_retn, pure, Except.pure,
      CPUState.set_ca, CPUState.get_cb, CPUState.set_pc,
      CPUState.get_cl, CPUState.set_pa, CPUState.get_pb, CPUState.set_pb, CPUState.get_pa,
      CPUState.set_cs, CPUState.get_ca, CPUState.set_sr, CPUState.get_pc, CPUState.set_cl,
      CPUState.get_cs, CPUState.get_sr, hcl]
  all_goals
    simp only [OpFunc.call, TMS1100.op_tay, TMS1100.op_tya, TMS1100.op_cla, TMS1100.op_tam,
      TMS1100.op_tamiyc, TMS1100.op_tamdyn, TMS1100.op_tamza, TMS1100.op_tmy, TMS1100.op_tma,
      TMS1100.op_xma, TMS1100.op_amaac, TMS1100.op_saman, TMS1100.op_imac, TMS1100.op_dman,
      TMS1100.op_iyc, TMS1100.op_dyn, TMS1100.op_cpaiz, TMS1100.op_alem, TMS1100.op_mnea,
      TMS1100.op_mnez, TMS1100.op_ynea, TMS1100.op_comx, TMS1100.op_comc,
      TMS1100.CURR_RAM_assign, TMS1100.CURR_RAM, hidx, bind, Except.bind, pure,
      Except.pure, if_true]
    exact ⟨_, rfl, by simp [CPUState.set_a, CPUState.set_y, CPUState.com_x, CPUState.com_cb],
      fun _ => ⟨rfl, rfl, rfl⟩⟩

/-! ## Status and program counter in `step`: statement C13 -/

/-- C13: for every state (with `X` and `Y` within their widths, so that the RAM cell
addressed by an opcode exists) whose fetch returns the byte `opcode`: `step` returns; if
the opcode is bound to one of the handlers that do not write `S` (TAY, TYA, CLA, TAM,
TAMZA, TMY, TMA, XMA, LDP, TCY, TCMIY, SBIT, RBIT, COMX, COMC, TKA, SETR, RSTR, TDO, LDX,
RETN, BR, CALL) then `S` is true after `step`, whatever it was before; and if the opcode
is not bound to BR, CALL or RETN then after `step` `PC = (old PC + 1) mod 64` with `PA`
and `CA` unchanged. -/
theorem step_default_status (t : TMS1100) (opcode : Nat)
    (hfetch : t.rom_.get_data (((t.cpu_.reg_ca_ <<< 10) ||| (t.cpu_.reg_pa_ <<< 6) |||
      t.cpu_.reg_pc_) % 65536) = .ok opcode)
    (hlt : opcode < 256) (hx : t.cpu_.reg_x_ < 8) (hy : t.cpu_.reg_y_ < 16) :
    ∃ t', t.step = .ok t' ∧
      (op_code_func_ opcode ∈ [some OpFunc.op_tay, some .op_tya, some .op_cla, some .op_tam,
          some .op_tamza, some .op_tmy, some .op_tma, some .op_xma, some .op_ldp, some .op_tcy,
          some .op_tcmiy, some .op_sbit, some .op_rbit, some .op_comx, some .op_comc,
          some .op_tka, some .op_setr, some .op_rstr, some .op_tdo, some .op_ldx,
          some .op_retn, some .op_br, some .op_call] →
        t'.cpu_.reg_s_ = true) ∧
      (op_code_func_ opcode ∉ [some OpFunc.op_br, some .op_call, some .op_retn] →
        t'.cpu_.reg_pc_ = (t.cpu_.reg_pc_ + 1) % 64 ∧ t'.cpu_.reg_pa_ = t.cpu_.reg_pa_ ∧
        t'.cpu_.reg_ca_ = t.cpu_.reg_ca_) := by
  rw [step_of_fetch t opcode hfetch]
  cases hf : op_code_func_ opcode with
  | none =>
    refine ⟨{ cpu_ := (t.cpu_.increment_pc).set_s true, rom_ := t.rom_, ram_ := t.ram_ }, ?_,
      fun _ => rfl, fun _ => ⟨SET6_succ _, rfl, rfl⟩⟩
    simp only [TMS1100.exec, hf, CPUState.get_s]
    rfl
  | some f =>
    rw [exec_of_func _ opcode f hf]
    obtain ⟨t', h1, h2, h3⟩ := call_frame f opcode
      ({ t with cpu_ := t.cpu_.increment_pc } : TMS1100).cpu_.reg_s_
      { cpu_ := { t.cpu_.increment_pc with reg_s_ := true }, rom_ := t.rom_, ram_ := t.ram_ }
      hlt hf hx hy
    refine ⟨t', h1, fun h => ?_, fun h => ?_⟩
    · rw [h2 (by simpa using h)]
    · obtain ⟨e1, e2, e3⟩ := h3 (by simpa using h)
      rw [e1, e2, e3]
      exact ⟨SET6_succ _, rfl, rfl⟩

/-- Instance of `step_default_status`: the first step on a ROM of `TKA` bytes leaves `S`
true (it was false) and `PC = 1`, `PA = 0xF`, `CA = 0`. -/
theorem step_default_status_witness :
    input_rom.get_data 0x3C0 = .ok 0x08 ∧ op_code_func_ 0x08 = some .op_tka ∧
    (TMS1100.ctor input_rom).cpu_.reg_s_ = false ∧
    ∃ t', (TMS1100.ctor input_rom).step = .ok t' ∧ t'.cpu_.reg_s_ = true ∧
      t'.cpu_.reg_pc_ = 1 ∧ t'.cpu_.reg_pa_ = 0xF ∧ t'.cpu_.reg_ca_ = 0 := by
  have hfetch : input_rom.get_data 0x3C0 = .ok 0x08 := get_data_replicate 2048 0x08 0x3C0 (by decide)
  refine ⟨hfetch, by decide, by decide, ?_⟩
  obtain ⟨t', h1, h2, h3⟩ := step_default_status (TMS1100.ctor input_rom) 0x08 hfetch
    (by decide) (by decide) (by decide)
  obtain ⟨e1, e2, e3⟩ := h3 (by decide)
  exact ⟨t', h1, h2 (by decide), e1, e2, e3⟩

end TMS

/-! ## Lemmas on `exec` for the register and memory opcodes -/

namespace TMS

theorem exec_xma (t : TMS1100) (hidx : t.CURR_RAM_index < RAM_SIZE) :
    t.exec 0x03 = .ok {
      cpu_ := { t.cpu_ with reg_s_ := true, reg_a_ := SET4 (t.ram_ t.CURR_RAM_index) }
      rom_ := t.rom_
      ram_ := fun j => if j = t.CURR_RAM_index then t.cpu_.reg_a_ else t.ram_ j } := by
  rw [exec_of_func t 0x03 .op_xma (by decide)]
  have hidx' : ({ t with cpu_ := { t.cpu_ with reg_s_ := true } } : TMS1100).CURR_RAM_index
      < RAM_SIZE := hidx
  simp only [OpFunc.call, TMS1100.op_xma, TMS1100.CURR_RAM, TMS1100.CURR_RAM_assign, hidx',
    if_true, bind, Except.bind, pure, Except.pure]
  rfl

theorem bit_table : ∀ i, i < 4 →
    op_code_func_ (0x30 + i) = some .op_sbit ∧ op_code_func_ (0x34 + i) = some .op_rbit ∧
    op_code_func_ (0x38 + i) = some .op_tbit1 ∧
    op_code_constant_ (0x30 + i) = .ok ([0, 2, 1, 3].getD i 0) ∧
    op_code_constant_ (0x34 + i) = .ok ([0, 2, 1, 3].getD i 0) ∧
    op_code_constant_ (0x38 + i) = .ok ([0, 2, 1, 3].getD i 0) := by decide

theorem exec_sbit (t : TMS1100) (i : Nat) (hi : i < 4) (hidx : t.CURR_RAM_index < RAM_SIZE) :
    t.exec (0x30 + i) = .ok {
      cpu_ := { t.cpu_ with reg_s_ := true }
      rom_ := t.rom_
      ram_ := fun j => if j = t.CURR_RAM_index
        then (t.ram_ t.CURR_RAM_index ||| (1 <<< ([0, 2, 1, 3].getD i 0)) % 256) % 256
        else t.ram_ j } := by
  obtain ⟨hf, -, -, hk, -, -⟩ := bit_table i hi
  rw [exec_of_func t _ .op_sbit hf]
  have hidx' : ({ t with cpu_ := { t.cpu_ with reg_s_ := true } } : TMS1100).CURR_RAM_index
      < RAM_SIZE := hidx
  simp only [OpFunc.call, TMS1100.op_sbit, hk, TMS1100.CURR_RAM, TMS1100.CURR_RAM_assign, hidx',
    if_true, bind, Except.bind, pure, Except.pure]
  rfl

theorem exec_rbit (t : TMS1100) (i : Nat) (hi : i < 4) (hidx : t.CURR_RAM_index < RAM_SIZE) :
    t.exec (0x34 + i) = .ok {
      cpu_ := { t.cpu_ with reg_s_ := true }
      rom_ := t.rom_
      ram_ := fun j => if j = t.CURR_RAM_index
        then t.ram_ t.CURR_RAM_index &&& SET4 ((1 <<< ([0, 2, 1, 3].getD i 0)) ^^^ 0xFFFFFFFF)
        else t.ram_ j } := by
  obtain ⟨-, hf, -, -, hk, -⟩ := bit_table i hi
  rw [exec_of_func t _ .op_rbit hf]
  have hidx' : ({ t with cpu_ := { t.cpu_ with reg_s_ := true } } : TMS1100).CURR_RAM_index
      < RAM_SIZE := hidx
  simp only [OpFunc.call, TMS1100.op_rbit, hk, TMS1100.CURR_RAM, TMS1100.CURR_RAM_assign, hidx',
    if_true, bind, Except.bind, pure, Except.pure]
  rfl

theorem exec_tbit1 (t : TMS1100) (i : Nat) (hi : i < 4) (hidx : t.CURR_RAM_index < RAM_SIZE) :
    t.exec (0x38 + i) = .ok { t with cpu_ := { t.cpu_ with
      reg_s_ := decide (t.ram_ t.CURR_RAM_index &&& (1 <<< ([0, 2, 1, 3].getD i 0)) ≠ 0) } } := by
  obtain ⟨-, -, hf, -, -, hk⟩ := bit_table i hi
  rw [exec_of_func t _ .op_tbit1 hf]
  have hidx' : ({ t with cpu_ := { t.cpu_ with reg_s_ := true } } : TMS1100).CURR_RAM_index
      < RAM_SIZE := hidx
  simp only [OpFunc.call, TMS1100.op_tbit1, hk, TMS1100.CURR_RAM, hidx',
    if_true, bind, Except.bind, pure, Except.pure]
  rfl

theorem exec_iyc (t : TMS1100) :
    t.exec 0x05 = .ok { t with cpu_ := { t.cpu_ with
      reg_s_ := decide ((t.cpu_.reg_y_ + 0x01) % 256 > 0x0F)
      reg_y_ := SET4 ((t.cpu_.reg_y_ + 0x01) % 256) } } := by
  rw [exec_of_func t 0x05 .op_iyc (by decide)]
  rfl

theorem exec_dyn (t : TMS1100) :
    t.exec 0x04 = .ok { t with cpu_ := { t.cpu_ with
      reg_s_ := decide ((t.cpu_.reg_y_ + 0x0F) % 256 > 0x0F)
      reg_y_ := SET4 ((t.cpu_.reg_y_ + 0x0F) % 256) } } := by
  rw [exec_of_func t 0x04 .op_dyn (by decide)]
  rfl

theorem exec_tamiyc (t : TMS1100) (hidx : t.CURR_RAM_index < RAM_SIZE) :
    t.exec 0x25 = .ok {
      cpu_ := { t.cpu_ with
        reg_s_ := decide (t.cpu_.reg_y_ = 0x0F)
        reg_y_ := SET4 ((t.cpu_.reg_y_ + 1) % 256) }
      rom_ := t.rom_
      ram_ := fun j => if j = t.CURR_RAM_index then t.cpu_.reg_a_ else t.ram_ j } := by
  rw [exec_of_func t 0x25 .op_tamiyc (by decide)]
  have hidx' : ({ t with cpu_ := { t.cpu_ with reg_s_ := true } } : TMS1100).CURR_RAM_index
      < RAM_SIZE := hidx
  simp only [OpFunc.call, TMS1100.op_tamiyc, TMS1100.CURR_RAM_assign, hidx',
    if_true, bind, Except.bind, pure, Except.pure]
  rfl

theorem exec_tamdyn (t : TMS1100) (hidx : t.CURR_RAM_index < RAM_SIZE) :
    t.exec 0x24 = .ok {
      cpu_ := { t.cpu_ with
        reg_s_ := decide (t.cpu_.reg_y_ ≥ 1)
        reg_y_ := SET4 ((t.cpu_.reg_y_ + 256 - 1) % 256) }
      rom_ := t.rom_
      ram_ := fun j => if j = t.CURR_RAM_index then t.cpu_.reg_a_ else t.ram_ j } := by
  rw [exec_of_func t 0x24 .op_tamdyn (by decide)]
  have hidx' : ({ t with cpu_ := { t.cpu_ with reg_s_ := true } } : TMS1100).CURR_RAM_index
      < RAM_SIZE := hidx
  simp only [OpFunc.call, TMS1100.op_tamdyn, TMS1100.CURR_RAM_assign, hidx',
    if_true, bind, Except.bind, pure, Except.pure]
  rfl

theorem exec_alem (t : TMS1100) (hidx : t.CURR_RAM_index < RAM_SIZE) :
    t.exec 0x01 = .ok { t with cpu_ := { t.cpu_ with
      reg_s_ := decide ((NOT4 t.cpu_.reg_a_ + t.ram_ t.CURR_RAM_index + 1) % 256 > 0x0F) } } := by
  rw [exec_of_func t 0x01 .op_alem (by decide)]
  have hidx' : ({ t with cpu_ := { t.cpu_ with reg_s_ := true } } : TMS1100).CURR_RAM_index
      < RAM_SIZE := hidx
  simp only [OpFunc.call, TMS1100.op_alem, TMS1100.CURR_RAM, hidx',
    if_true, bind, Except.bind, pure, Except.pure]
  rfl

theorem exec_saman (t : TMS1100) (hidx : t.CURR_RAM_index < RAM_SIZE) :
    t.exec 0x3C = .ok { t with cpu_ := { t.cpu_ with
      reg_s_ := decide ((NOT4 t.cpu_.reg_a_ + t.ram_ t.CURR_RAM_index + 1) % 256 > 0x0F)
      reg_a_ := SET4 ((NOT4 t.cpu_.reg_a_ + t.ram_ t.CURR_RAM_index + 1) % 256) } } := by
  rw [exec_of_func t 0x3C .op_saman (by decide)]
  have hidx' : ({ t with cpu_ := { t.cpu_ with reg_s_ := true } } : TMS1100).CURR_RAM_index
      < RAM_SIZE := hidx
  simp only [OpFunc.call, TMS1100.op_saman, TMS1100.CURR_RAM, hidx',
    if_true, bind, Except.bind, pure, Except.pure]
  rfl

theorem a_aac_table : ∀ i, i < 15 →
    op_code_func_ (0x70 + i) = some .op_a_aac ∧
    op_code_constant_ (0x70 + i) =
      .ok ([1, 9, 5, 13, 3, 11, 7, 15, 2, 10, 6, 14, 4, 12, 8].getD i 0) := by decide

theorem exec_a_aac (t : TMS1100) (i : Nat) (hi : i < 15) :
    t.exec (0x70 + i) = .ok { t with cpu_ := { t.cpu_ with
      reg_s_ := decide ((t.cpu_.reg_a_ +
        [1, 9, 5, 13, 3, 11, 7, 15, 2, 10, 6, 14, 4, 12, 8].getD i 0) % 256 > 0x0F)
      reg_a_ := SET4 ((t.cpu_.reg_a_ +
        [1, 9, 5, 13, 3, 11, 7, 15, 2, 10, 6, 14, 4, 12, 8].getD i 0) % 256) } } := by
  obtain ⟨hf, hk⟩ := a_aac_table i hi
  rw [exec_of_func t _ .op_a_aac hf]
  simp only [OpFunc.call, TMS1100.op_a_aac, hk, bind, Except.bind, pure, Except.pure]
  rfl

theorem exec_cla (t : TMS1100) :
    t.exec 0x7F = .ok { t with cpu_ := { t.cpu_ with reg_s_ := true, reg_a_ := 0 } } := by
  rw [exec_of_func t 0x7F .op_cla (by decide)]
  rfl

theorem exec_setr (t : TMS1100) :
    t.exec 0x0D = .ok { t with cpu_ :=
      if t.cpu_.reg_x_ ≤ 3 ∧ t.cpu_.reg_y_ ≤ 10 then
        { t.cpu_ with
          reg_s_ := true
          reg_r_ := fun j => if j = t.cpu_.reg_y_ then true else t.cpu_.reg_r_ j
          trace := if t.cpu_.output_r_cb_ then t.cpu_.trace ++ [Event.r t.cpu_.reg_y_ true]
            else t.cpu_.trace }
      else { t.cpu_ with reg_s_ := true } } := by
  rw [exec_of_func t 0x0D .op_setr (by decide)]
  simp only [OpFunc.call, TMS1100.op_setr, CPUState.get_x, CPUState.get_y, pure, Except.pure]
  split
  · rename_i h
    have hy : t.cpu_.reg_y_ < R_WIDTH := by unfold R_WIDTH; omega
    cases hcb : t.cpu_.output_r_cb_ <;> simp [CPUState.set_r_index, hy, hcb]
  · rfl

theorem exec_rstr (t : TMS1100) :
    t.exec 0x0C = .ok { t with cpu_ :=
      if t.cpu_.reg_x_ ≤ 3 ∧ t.cpu_.reg_y_ ≤ 10 then
        { t.cpu_ with
          reg_s_ := true
          reg_r_ := fun j => if j = t.cpu_.reg_y_ then false else t.cpu_.reg_r_ j
          trace := if t.cpu_.output_r_cb_ then t.cpu_.trace ++ [Event.r t.cpu_.reg_y_ false]
            else t.cpu_.trace }
      else { t.cpu_ with reg_s_ := true } } := by
  rw [exec_of_func t 0x0C .op_rstr (by decide)]
  simp only [OpFunc.call, TMS1100.op_rstr, CPUState.get_x, CPUState.get_y, pure, Except.pure]
  split
  · rename_i h
    have hy : t.cpu_.reg_y_ < R_WIDTH := by unfold R_WIDTH; omega
    cases hcb : t.cpu_.output_r_cb_ <;> simp [CPUState.rst_r_index, hy, hcb]
  · rfl

end TMS

namespace TMS

theorem y_step_values : ∀ y, y < 16 →
    decide ((y + 0x01) % 256 > 0x0F) = decide (y = 15) ∧
    SET4 ((y + 0x01) % 256) = (y + 1) % 16 ∧
    decide ((y + 0x0F) % 256 > 0x0F) = decide (y ≥ 1) ∧
    SET4 ((y + 0x0F) % 256) = (y + 15) % 16 ∧
    SET4 ((y + 256 - 1) % 256) = (y + 15) % 16 := by decide

theorem compare_values : ∀ a, a < 16 → ∀ m, m < 16 →
    decide ((NOT4 a + m + 1) % 256 > 0x0F) = decide (a ≤ m) ∧
    SET4 ((NOT4 a + m + 1) % 256) = (m + 16 - a) % 16 := by decide

theorem add_values : ∀ a, a < 16 → ∀ i, i < 15 →
    decide ((a + [1, 9, 5, 13, 3, 11, 7, 15, 2, 10, 6, 14, 4, 12, 8].getD i 0) % 256 > 0x0F) =
      decide (a + [1, 9, 5, 13, 3, 11, 7, 15, 2, 10, 6, 14, 4, 12, 8].getD i 0 > 15) ∧
    SET4 ((a + [1, 9, 5, 13, 3, 11, 7, 15, 2, 10, 6, 14, 4, 12, 8].getD i 0) % 256) =
      (a + [1, 9, 5, 13, 3, 11, 7, 15, 2, 10, 6, 14, 4, 12, 8].getD i 0) % 16 := by decide

theorem bit_values : ∀ v, v < 16 → ∀ i, i < 4 →
    (v ||| (1 <<< ([0, 2, 1, 3].getD i 0)) % 256) % 256 < 16 ∧
    ((v ||| (1 <<< ([0, 2, 1, 3].getD i 0)) % 256) % 256) &&&
      (1 <<< ([0, 2, 1, 3].getD i 0)) ≠ 0 ∧
    (v &&& SET4 ((1 <<< ([0, 2, 1, 3].getD i 0)) ^^^ 0xFFFFFFFF)) &&&
      (1 <<< ([0, 2, 1, 3].getD i 0)) = 0 ∧
    [0, 2, 1, 3].getD i 0 < 4 ∧
    ∀ n, n < 4 →
      ((v ||| (1 <<< ([0, 2, 1, 3].getD i 0)) % 256) % 256).testBit n =
        (decide (n = [0, 2, 1, 3].getD i 0) || v.testBit n) ∧
      (v &&& SET4 ((1 <<< ([0, 2, 1, 3].getD i 0)) ^^^ 0xFFFFFFFF)).testBit n =
        (!decide (n = [0, 2, 1, 3].getD i 0) && v.testBit n) := by decide

theorem testBit_high (v n : Nat) (hv : v < 16) (hn : 4 ≤ n) : v.testBit n = false :=
  Nat.testBit_lt_two_pow (Nat.lt_of_lt_of_le hv (Nat.pow_le_pow_right (Nat.succ_pos 1) hn))

/-- The bits of the cell written by `SBIT` and by `RBIT`. -/
theorem bit_values_all (v i : Nat) (hv : v < 16) (hi : i < 4) (n : Nat) :
    ((v ||| (1 <<< ([0, 2, 1, 3].getD i 0)) % 256) % 256).testBit n =
      (decide (n = [0, 2, 1, 3].getD i 0) || v.testBit n) ∧
    (v &&& SET4 ((1 <<< ([0, 2, 1, 3].getD i 0)) ^^^ 0xFFFFFFFF)).testBit n =
      (!decide (n = [0, 2, 1, 3].getD i 0) && v.testBit n) := by
  obtain ⟨h1, -, -, hb, h4⟩ := bit_values v hv i hi
  by_cases hn : n < 4
  · exact h4 n hn
  · have hn4 : 4 ≤ n := by omega
    have hne : n ≠ [0, 2, 1, 3].getD i 0 := by omega
    have h2 : v &&& SET4 ((1 <<< ([0, 2, 1, 3].getD i 0)) ^^^ 0xFFFFFFFF) < 16 :=
      Nat.lt_of_le_of_lt Nat.and_le_left hv
    rw [testBit_high _ n h1 hn4, testBit_high _ n h2 hn4, testBit_high v n hv hn4,
      decide_eq_false hne]
    exact ⟨rfl, rfl⟩

end TMS

namespace TMS

/-! ## Return outside a call, exchange, bit and counter opcodes: statements C12, C14 to C17 -/

/-- C12: for every state with `CL` false (`PB` being within its width), `exec(0x0F)`
returns the state in which `PA` is `PB` and `S` is true; every other register (`PC`,
`CA`, `CB`, `CS`, `SR`, `CL`, `PB`, `A`, `X`, `Y`, `SL`, `K`, `O`), every RAM cell, every
R latch and the callback trace are unchanged. -/
theorem retn_outside_call (t : TMS1100) (hcl : t.cpu_.reg_cl_ = false)
    (hpb : t.cpu_.reg_pb_ < 16) :
    t.exec 0x0F = .ok { t with cpu_ := { t.cpu_ with
      reg_s_ := true
      reg_pa_ := t.cpu_.reg_pb_ } } := by
  rw [exec_retn, hcl, SET4_of_lt _ hpb]
  rfl

/-- Instance of `retn_outside_call`: on the power-up state with `PB = 3`, `RETN` sets
`PA = 3` and `S`. -/
theorem retn_outside_call_witness :
    (⟨{ CPUState.ctor with reg_pb_ := 3 }, ROM.ctor, (TMS1100.ctor ROM.ctor).ram_⟩ :
      TMS1100).exec 0x0F =
    .ok ⟨{ CPUState.ctor with reg_pb_ := 3, reg_s_ := true, reg_pa_ := 3 }, ROM.ctor,
      (TMS1100.ctor ROM.ctor).ram_⟩ :=
  retn_outside_call ⟨{ CPUState.ctor with reg_pb_ := 3 }, ROM.ctor,
    (TMS1100.ctor ROM.ctor).ram_⟩ (by decide) (by decide)

/-- C14: for every state whose addressed cell `RAM[(X<<4)|Y]` is one of the 128 cells,
with `A < 16` and `RAM[(X<<4)|Y] < 16`: one `exec(0x03)` exchanges `A` and the cell, a
second one restores both; after the two, every register except `S` (which is true),
every RAM cell, the ROM, every R latch and the callback trace are as before. -/
theorem xma_twice_identity (t : TMS1100) (hidx : (t.cpu_.reg_x_ <<< 4) ||| t.cpu_.reg_y_ < 128)
    (ha : t.cpu_.reg_a_ < 16) (hm : t.ram_ ((t.cpu_.reg_x_ <<< 4) ||| t.cpu_.reg_y_) < 16) :
    ∃ t1 t2, t.exec 0x03 = .ok t1 ∧ t1.exec 0x03 = .ok t2 ∧
      t1.cpu_ = { t.cpu_ with
        reg_s_ := true
        reg_a_ := t.ram_ ((t.cpu_.reg_x_ <<< 4) ||| t.cpu_.reg_y_) } ∧
      (∀ j, t1.ram_ j =
        if j = (t.cpu_.reg_x_ <<< 4) ||| t.cpu_.reg_y_ then t.cpu_.reg_a_ else t.ram_ j) ∧
      t2.cpu_ = { t.cpu_ with reg_s_ := true } ∧
      (∀ j, t2.ram_ j = t.ram_ j) ∧ t2.rom_ = t.rom_ := by
  have h1 := exec_xma t hidx
  have h2 := exec_xma
    ⟨{ t.cpu_ with reg_s_ := true, reg_a_ := SET4 (t.ram_ t.CURR_RAM_index) }, t.rom_,
      fun j => if j = t.CURR_RAM_index then t.cpu_.reg_a_ else t.ram_ j⟩ hidx
  refine ⟨_, _, h1, h2, ?_, fun j => rfl, ?_, ?_, rfl⟩
  · show ({ t.cpu_ with reg_s_ := true, reg_a_ := SET4 (t.ram_ ((t.cpu_.reg_x_ <<< 4) |||
      t.cpu_.reg_y_)) } : CPUState) = _
    rw [SET4_of_lt _ hm]
  · show ({ t.cpu_ with reg_s_ := true, reg_a_ := SET4 (if (t.cpu_.reg_x_ <<< 4) |||
      t.cpu_.reg_y_ = (t.cpu_.reg_x_ <<< 4) ||| t.cpu_.reg_y_ then t.cpu_.reg_a_
      else t.ram_ ((t.cpu_.reg_x_ <<< 4) ||| t.cpu_.reg_y_)) } : CPUState) = _
    rw [if_pos rfl, SET4_of_lt _ ha]
  · intro j
    show (if j = (t.cpu_.reg_x_ <<< 4) ||| t.cpu_.reg_y_ then
      SET4 (t.ram_ ((t.cpu_.reg_x_ <<< 4) ||| t.cpu_.reg_y_))
      else if j = (t.cpu_.reg_x_ <<< 4) ||| t.cpu_.reg_y_ then t.cpu_.reg_a_ else t.ram_ j) = _
    by_cases hj : j = (t.cpu_.reg_x_ <<< 4) ||| t.cpu_.reg_y_
    · rw [if_pos hj, SET4_of_lt _ hm, hj]
    · rw [if_neg hj, if_neg hj]

/-- Instance of `xma_twice_identity`: the machine with `X = 2`, `Y = 10`, `A = 5` and
the cell `RAM[42] = 0xA`. -/
theorem xma_twice_identity_witness :
    (sample_machine 2 10 5 false).ram_ ((2 <<< 4) ||| 10) = 0xA ∧
    ∃ t1 t2, (sample_machine 2 10 5 false).exec 0x03 = .ok t1 ∧ t1.exec 0x03 = .ok t2 ∧
      t1.cpu_.reg_a_ = 0xA ∧ t1.ram_ 42 = 5 ∧ t2.cpu_.reg_a_ = 5 ∧ t2.ram_ 42 = 0xA := by
  refine ⟨by decide, ?_⟩
  obtain ⟨t1, t2, h1, h2, h3, h4, h5, h6, _⟩ :=
    xma_twice_identity (sample_machine 2 10 5 false) (by decide) (by decide) (by decide)
  refine ⟨t1, t2, h1, h2, ?_, ?_, ?_, ?_⟩
  · rw [h3]; decide
  · rw [h4]; decide
  · rw [h5]; decide
  · rw [h6]; decide

/-- C15: for every state whose addressed cell is one of the 128 cells and holds a value
in `0..15`, and every `i` in `0..3` with `b = [0,2,1,3][i]`: `exec(0x30+i)` followed by
`exec(0x38+i)` leaves `S` true, `exec(0x34+i)` followed by `exec(0x38+i)` leaves `S` false;
`SBIT` (resp. `RBIT`) changes no register but `S` (set true), no other RAM cell, and in
the addressed cell sets (resp. clears) bit `b` and keeps every other bit. -/
theorem bit_set_reset_test (t : TMS1100) (i : Nat) (hi : i < 4)
    (hidx : (t.cpu_.reg_x_ <<< 4) ||| t.cpu_.reg_y_ < 128)
    (hv : t.ram_ ((t.cpu_.reg_x_ <<< 4) ||| t.cpu_.reg_y_) < 16) :
    (∃ t1 t2, t.exec (0x30 + i) = .ok t1 ∧ t1.exec (0x38 + i) = .ok t2 ∧
      t2.cpu_.reg_s_ = true ∧ t1.cpu_ = { t.cpu_ with reg_s_ := true } ∧
      (∀ j, j ≠ (t.cpu_.reg_x_ <<< 4) ||| t.cpu_.reg_y_ → t1.ram_ j = t.ram_ j) ∧
      (∀ n, (t1.ram_ ((t.cpu_.reg_x_ <<< 4) ||| t.cpu_.reg_y_)).testBit n =
        (decide (n = [0, 2, 1, 3].getD i 0) ||
          (t.ram_ ((t.cpu_.reg_x_ <<< 4) ||| t.cpu_.reg_y_)).testBit n))) ∧
    (∃ t1 t2, t.exec (0x34 + i) = .ok t1 ∧ t1.exec (0x38 + i) = .ok t2 ∧
      t2.cpu_.reg_s_ = false ∧ t1.cpu_ = { t.cpu_ with reg_s_ := true } ∧
      (∀ j, j ≠ (t.cpu_.reg_x_ <<< 4) ||| t.cpu_.reg_y_ → t1.ram_ j = t.ram_ j) ∧
      (∀ n, (t1.ram_ ((t.cpu_.reg_x_ <<< 4) ||| t.cpu_.reg_y_)).testBit n =
        (!decide (n = [0, 2, 1, 3].getD i 0) &&
          (t.ram_ ((t.cpu_.reg_x_ <<< 4) ||| t.cpu_.reg_y_)).testBit n))) := by
  obtain ⟨-, h2, h3, -, -⟩ := bit_values _ hv i hi
  constructor
  · have e1 := exec_sbit t i hi hidx
    have e2 := exec_tbit1 ⟨{ t.cpu_ with reg_s_ := true }, t.rom_,
      fun j => if j = t.CURR_RAM_index
        then (t.ram_ t.CURR_RAM_index ||| (1 <<< ([0, 2, 1, 3].getD i 0)) % 256) % 256
        else t.ram_ j⟩ i hi hidx
    refine ⟨_, _, e1, e2, ?_, rfl, fun j hj => if_neg hj, fun n => ?_⟩
    · show decide ((if (t.cpu_.reg_x_ <<< 4) ||| t.cpu_.reg_y_ = (t.cpu_.reg_x_ <<< 4) |||
        t.cpu_.reg_y_ then (t.ram_ ((t.cpu_.reg_x_ <<< 4) ||| t.cpu_.reg_y_) |||
          (1 <<< ([0, 2, 1, 3].getD i 0)) % 256) % 256
        else t.ram_ ((t.cpu_.reg_x_ <<< 4) ||| t.cpu_.reg_y_)) &&&
          (1 <<< ([0, 2, 1, 3].getD i 0)) ≠ 0) = true
      rw [if_pos rfl]
      exact decide_eq_true h2
    · show (if (t.cpu_.reg_x_ <<< 4) ||| t.cpu_.reg_y_ = (t.cpu_.reg_x_ <<< 4) |||
        t.cpu_.reg_y_ then (t.ram_ ((t.cpu_.reg_x_ <<< 4) ||| t.cpu_.reg_y_) |||
          (1 <<< ([0, 2, 1, 3].getD i 0)) % 256) % 256
        else t.ram_ ((t.cpu_.reg_x_ <<< 4) ||| t.cpu_.reg_y_)).testBit n = _
      rw [if_pos rfl]
      exact (bit_values_all _ i hv hi n).1
  · have e1 := exec_rbit t i hi hidx
    have e2 := exec_tbit1 ⟨{ t.cpu_ with reg_s_ := true }, t.rom_,
      fun j => if j = t.CURR_RAM_index
        then t.ram_ t.CURR_RAM_index &&& SET4 ((1 <<< ([0, 2, 1, 3].getD i 0)) ^^^ 0xFFFFFFFF)
        else t.ram_ j⟩ i hi hidx
    refine ⟨_, _, e1, e2, ?_, rfl, fun j hj => if_neg hj, fun n => ?_⟩
    · show decide ((if (t.cpu_.reg_x_ <<< 4) ||| t.cpu_.reg_y_ = (t.cpu_.reg_x_ <<< 4) |||
        t.cpu_.reg_y_ then t.ram_ ((t.cpu_.reg_x_ <<< 4) ||| t.cpu_.reg_y_) &&&
          SET4 ((1 <<< ([0, 2, 1, 3].getD i 0)) ^^^ 0xFFFFFFFF)
        else t.ram_ ((t.cpu_.reg_x_ <<< 4) ||| t.cpu_.reg_y_)) &&&
          (1 <<< ([0, 2, 1, 3].getD i 0)) ≠ 0) = false
      rw [if_pos rfl]
      exact decide_eq_false (fun h => h h3)
    · show (if (t.cpu_.reg_x_ <<< 4) ||| t.cpu_.reg_y_ = (t.cpu_.reg_x_ <<< 4) |||
        t.cpu_.reg_y_ then t.ram_ ((t.cpu_.reg_x_ <<< 4) ||| t.cpu_.reg_y_) &&&
          SET4 ((1 <<< ([0, 2, 1, 3].getD i 0)) ^^^ 0xFFFFFFFF)
        else t.ram_ ((t.cpu_.reg_x_ <<< 4) ||| t.cpu_.reg_y_)).testBit n = _
      rw [if_pos rfl]
      exact (bit_values_all _ i hv hi n).2

/-- Instance of `bit_set_reset_test`: `i = 1` (bit 2) on the machine with `X = 2`,
`Y = 10`, whose cell `RAM[42]` holds `0xA`. -/
theorem bit_set_reset_test_witness :
    (∃ t1 t2, (sample_machine 2 10 5 false).exec 0x31 = .ok t1 ∧ t1.exec 0x39 = .ok t2 ∧
      t2.cpu_.reg_s_ = true) ∧
    (∃ t1 t2, (sample_machine 2 10 5 false).exec 0x35 = .ok t1 ∧ t1.exec 0x39 = .ok t2 ∧
      t2.cpu_.reg_s_ = false) := by
  obtain ⟨⟨t1, t2, h1, h2, h3, _⟩, ⟨u1, u2, g1, g2, g3, _⟩⟩ :=
    bit_set_reset_test (sample_machine 2 10 5 false) 1 (by decide) (by decide) (by decide)
  exact ⟨⟨t1, t2, h1, h2, h3⟩, ⟨u1, u2, g1, g2, g3⟩⟩

/-- C16: for every state with `Y < 16`, `exec(0x05)` returns the state in which `Y` is
`(Y+1) mod 16` and `S` is `(old Y = 15)`, and `exec(0x04)` the state in which `Y` is
`(Y+15) mod 16`, that is `(Y-1) mod 16`, and `S` is `(old Y ≥ 1)`; `A`, `X`, RAM and every
other register are unchanged. -/
theorem iyc_dyn_on_y (t : TMS1100) (hy : t.cpu_.reg_y_ < 16) :
    t.exec 0x05 = .ok { t with cpu_ := { t.cpu_ with
      reg_s_ := decide (t.cpu_.reg_y_ = 15)
      reg_y_ := (t.cpu_.reg_y_ + 1) % 16 } } ∧
    t.exec 0x04 = .ok { t with cpu_ := { t.cpu_ with
      reg_s_ := decide (t.cpu_.reg_y_ ≥ 1)
      reg_y_ := (t.cpu_.reg_y_ + 15) % 16 } } ∧
    (((t.cpu_.reg_y_ + 15) % 16 : Nat) : Int) = ((t.cpu_.reg_y_ : Int) - 1) % 16 := by
  obtain ⟨h1, h2, h3, h4, -⟩ := y_step_values _ hy
  refine ⟨?_, ?_, by omega⟩
  · rw [exec_iyc, h1, h2]
  · rw [exec_dyn, h3, h4]

/-- Instance of `iyc_dyn_on_y`: `IYC` from `0xF` gives `Y = 0`, `S = 1` and from `0xE`
gives `Y = 0xF`, `S = 0`; `DYN` from 0 gives `Y = 0xF`, `S = 0` and from 1 gives `Y = 0`,
`S = 1`. -/
theorem iyc_dyn_on_y_witness :
    (sample_machine 2 0xF 5 false).exec 0x05 = .ok (sample_machine 2 0 5 true) ∧
    (sample_machine 2 0xE 5 false).exec 0x05 = .ok (sample_machine 2 0xF 5 false) ∧
    (sample_machine 2 0 5 true).exec 0x04 = .ok (sample_machine 2 0xF 5 false) ∧
    (sample_machine 2 1 5 false).exec 0x04 = .ok (sample_machine 2 0 5 true) :=
  ⟨(iyc_dyn_on_y (sample_machine 2 0xF 5 false) (by decide)).1,
    (iyc_dyn_on_y (sample_machine 2 0xE 5 false) (by decide)).1,
    (iyc_dyn_on_y (sample_machine 2 0 5 true) (by decide)).2.1,
    (iyc_dyn_on_y (sample_machine 2 1 5 false) (by decide)).2.1⟩

/-- C17: for every state with `X < 8` and `Y < 16`, `exec(0x25)` (resp. `exec(0x24)`)
returns the state in which the cell `RAM[(X<<4)|old Y]`, one of the 128 cells, holds
`A`, `S` is `(old Y = 15)` (resp. `(old Y ≥ 1)`) and `Y` is `(old Y + 1) mod 16` (resp.
`(old Y + 15) mod 16`, that is `(old Y - 1) mod 16`); no other RAM cell and no other
register changes. -/
theorem store_then_step_y (t : TMS1100) (hx : t.cpu_.reg_x_ < 8) (hy : t.cpu_.reg_y_ < 16) :
    (t.cpu_.reg_x_ <<< 4) ||| t.cpu_.reg_y_ < 128 ∧
    t.exec 0x25 = .ok {
      cpu_ := { t.cpu_ with
        reg_s_ := decide (t.cpu_.reg_y_ = 15)
        reg_y_ := (t.cpu_.reg_y_ + 1) % 16 }
      rom_ := t.rom_
      ram_ := fun j =>
        if j = (t.cpu_.reg_x_ <<< 4) ||| t.cpu_.reg_y_ then t.cpu_.reg_a_ else t.ram_ j } ∧
    t.exec 0x24 = .ok {
      cpu_ := { t.cpu_ with
        reg_s_ := decide (t.cpu_.reg_y_ ≥ 1)
        reg_y_ := (t.cpu_.reg_y_ + 15) % 16 }
      rom_ := t.rom_
      ram_ := fun j =>
        if j = (t.cpu_.reg_x_ <<< 4) ||| t.cpu_.reg_y_ then t.cpu_.reg_a_ else t.ram_ j } ∧
    (((t.cpu_.reg_y_ + 15) % 16 : Nat) : Int) = ((t.cpu_.reg_y_ : Int) - 1) % 16 := by
  have hidx := CURR_RAM_index_lt t hx hy
  obtain ⟨-, h2, -, -, h5⟩ := y_step_values _ hy
  refine ⟨hidx, ?_, ?_, by omega⟩
  · rw [exec_tamiyc t hidx, h2]
    rfl
  · rw [exec_tamdyn t hidx, h5]
    rfl

/-- Instance of `store_then_step_y`: `TAMIYC` with `X = 2`, `Y = 0xF`, `A = 5` writes
`RAM[(2<<4)|0xF]`, sets `S` and leaves `Y = 0`. -/
theorem store_then_step_y_witness :
    ∃ t', (sample_machine 2 0xF 5 false).exec 0x25 = .ok t' ∧
      t'.ram_ ((2 <<< 4) ||| 0xF) = 5 ∧ t'.cpu_.reg_s_ = true ∧ t'.cpu_.reg_y_ = 0 ∧
      t'.ram_ 0 = 0xA :=
  ⟨_, (store_then_step_y (sample_machine 2 0xF 5 false) (by decide) (by decide)).2.1,
    by decide, by decide, by decide, by decide⟩

end TMS

namespace TMS

/-! ## Output latches, compare and add opcodes: statements C18 to C20 -/

/-- C18 (amended): for every state with `X ≤ 3` and `Y ≤ 10`, `exec(0x0D)` (resp.
`exec(0x0C)`) returns the state in which `R[Y]` is true (resp. false), every other R
latch is unchanged, `S` is true, and the callback trace has exactly one more event
`(Y, new value)` when an R callback is registered, whatever the latch held before, and
is unchanged when none is registered; with `X ≥ 4` or `Y ≥ 11` the state is returned with
only `S` set: the R latches and the callback trace are unchanged. -/
theorem setr_rstr_guard (t : TMS1100) :
    (t.cpu_.reg_x_ ≤ 3 → t.cpu_.reg_y_ ≤ 10 →
      t.exec 0x0D = .ok { t with cpu_ := { t.cpu_ with
        reg_s_ := true
        reg_r_ := fun j => if j = t.cpu_.reg_y_ then true else t.cpu_.reg_r_ j
        trace := if t.cpu_.output_r_cb_ then t.cpu_.trace ++ [Event.r t.cpu_.reg_y_ true]
          else t.cpu_.trace } } ∧
      t.exec 0x0C = .ok { t with cpu_ := { t.cpu_ with
        reg_s_ := true
        reg_r_ := fun j => if j = t.cpu_.reg_y_ then false else t.cpu_.reg_r_ j
        trace := if t.cpu_.output_r_cb_ then t.cpu_.trace ++ [Event.r t.cpu_.reg_y_ false]
          else t.cpu_.trace } }) ∧
    (4 ≤ t.cpu_.reg_x_ ∨ 11 ≤ t.cpu_.reg_y_ →
      t.exec 0x0D = .ok { t with cpu_ := { t.cpu_ with reg_s_ := true } } ∧
      t.exec 0x0C = .ok { t with cpu_ := { t.cpu_ with reg_s_ := true } }) := by
  constructor
  · intro hx hy
    constructor
    · rw [exec_setr, if_pos ⟨hx, hy⟩]
    · rw [exec_rstr, if_pos ⟨hx, hy⟩]
  · intro h
    have hn : ¬ (t.cpu_.reg_x_ ≤ 3 ∧ t.cpu_.reg_y_ ≤ 10) := by omega
    constructor
    · rw [exec_setr, if_neg hn]
    · rw [exec_rstr, if_neg hn]

/-- Instance of `setr_rstr_guard`: with an R callback registered, `X = 2`, `Y = 10`,
`SETR` sets `R[10]` and emits the one event `(10, true)`; with `X = 4` nothing but `S`
changes. -/
theorem setr_rstr_guard_witness :
    (∃ t', (sample_machine 2 10 5 false).set_output_r_cb.exec 0x0D = .ok t' ∧
      t'.cpu_.reg_r_ 10 = true ∧ t'.cpu_.reg_r_ 9 = false ∧
      t'.cpu_.trace = [Event.r 10 true]) ∧
    (∃ t', (sample_machine 4 10 5 false).set_output_r_cb.exec 0x0D = .ok t' ∧
      t'.cpu_.reg_r_ 10 = false ∧ t'.cpu_.trace = []) :=
  ⟨⟨_, ((setr_rstr_guard (sample_machine 2 10 5 false).set_output_r_cb).1
      (by decide) (by decide)).1, by decide, by decide, by decide⟩,
    ⟨_, ((setr_rstr_guard (sample_machine 4 10 5 false).set_output_r_cb).2
      (Or.inl (by decide))).1, by decide, by decide⟩⟩

/-- C18 fails as stated on the constructed machine, which has `X = 2 ≤ 3`, `Y = 10 ≤ 10`
and no R callback registered: `exec(0x0D)` sets `R[10]` but emits no R-callback event. -/
theorem setr_rstr_guard_counterexample :
    (TMS1100.ctor ROM.ctor).cpu_.reg_x_ = 2 ∧ (TMS1100.ctor ROM.ctor).cpu_.reg_y_ = 10 ∧
    (TMS1100.ctor ROM.ctor).cpu_.output_r_cb_ = false ∧
    (TMS1100.ctor ROM.ctor).cpu_.trace = [] ∧
    ∃ t', (TMS1100.ctor ROM.ctor).exec 0x0D = .ok t' ∧ t'.cpu_.reg_r_ 10 = true ∧
      t'.cpu_.trace = [] :=
  ⟨by decide, by decide, by decide, by decide, _, exec_setr (TMS1100.ctor ROM.ctor), by decide,
    by decide⟩

/-- C19: for every state whose addressed cell is one of the 128 cells, with `A < 16` and
`m = RAM[(X<<4)|Y] < 16`: `exec(0x01)` returns the state in which `S` is `(A ≤ m)` and
nothing else is changed; `exec(0x3C)` returns the state in which `A` is
`(m + 16 - A) mod 16`, that is `(m - A) mod 16`, `S` is `(A ≤ m)`, and nothing else (RAM
included) is changed. -/
theorem alem_saman_compare (t : TMS1100)
    (hidx : (t.cpu_.reg_x_ <<< 4) ||| t.cpu_.reg_y_ < 128) (ha : t.cpu_.reg_a_ < 16)
    (hm : t.ram_ ((t.cpu_.reg_x_ <<< 4) ||| t.cpu_.reg_y_) < 16) :
    t.exec 0x01 = .ok { t with cpu_ := { t.cpu_ with
      reg_s_ := decide (t.cpu_.reg_a_ ≤ t.ram_ ((t.cpu_.reg_x_ <<< 4) ||| t.cpu_.reg_y_)) } } ∧
    t.exec 0x3C = .ok { t with cpu_ := { t.cpu_ with
      reg_s_ := decide (t.cpu_.reg_a_ ≤ t.ram_ ((t.cpu_.reg_x_ <<< 4) ||| t.cpu_.reg_y_))
      reg_a_ := (t.ram_ ((t.cpu_.reg_x_ <<< 4) ||| t.cpu_.reg_y_) + 16 - t.cpu_.reg_a_) % 16 } } ∧
    (((t.ram_ ((t.cpu_.reg_x_ <<< 4) ||| t.cpu_.reg_y_) + 16 - t.cpu_.reg_a_) % 16 : Nat) : Int) =
      ((t.ram_ ((t.cpu_.reg_x_ <<< 4) ||| t.cpu_.reg_y_) : Int) - (t.cpu_.reg_a_ : Int)) % 16 := by
  obtain ⟨h1, h2⟩ := compare_values _ ha _ hm
  refine ⟨?_, ?_, by omega⟩
  · rw [exec_alem t hidx]
    show Except.ok ({ t with cpu_ := { t.cpu_ with reg_s_ := decide ((NOT4 t.cpu_.reg_a_ +
      t.ram_ ((t.cpu_.reg_x_ <<< 4) ||| t.cpu_.reg_y_) + 1) % 256 > 0x0F) } } : TMS1100) = _
    rw [h1]
  · rw [exec_saman t hidx]
    show Except.ok ({ t with cpu_ := { t.cpu_ with
      reg_s_ := decide ((NOT4 t.cpu_.reg_a_ +
        t.ram_ ((t.cpu_.reg_x_ <<< 4) ||| t.cpu_.reg_y_) + 1) % 256 > 0x0F)
      reg_a_ := SET4 ((NOT4 t.cpu_.reg_a_ +
        t.ram_ ((t.cpu_.reg_x_ <<< 4) ||| t.cpu_.reg_y_) + 1) % 256) } } : TMS1100) = _
    rw [h1, h2]

/-- Instance of `alem_saman_compare`: with `A = 5` and the cell `0xA`, `ALEM` sets `S`
and `SAMAN` gives `A = 5`, `S = 1`; with `A = 0xC`, `ALEM` clears `S` and `SAMAN` gives
`A = 0xE`, `S = 0`. -/
theorem alem_saman_compare_witness :
    (∃ t', (sample_machine 2 10 5 false).exec 0x01 = .ok t' ∧ t'.cpu_.reg_s_ = true ∧
      t'.cpu_.reg_a_ = 5) ∧
    (∃ t', (sample_machine 2 10 5 false).exec 0x3C = .ok t' ∧ t'.cpu_.reg_s_ = true ∧
      t'.cpu_.reg_a_ = 5) ∧
    (∃ t', (sample_machine 2 10 0xC true).exec 0x01 = .ok t' ∧ t'.cpu_.reg_s_ = false) ∧
    (∃ t', (sample_machine 2 10 0xC true).exec 0x3C = .ok t' ∧ t'.cpu_.reg_s_ = false ∧
      t'.cpu_.reg_a_ = 0xE) :=
  ⟨⟨_, (alem_saman_compare (sample_machine 2 10 5 false) (by decide) (by decide)
      (by decide)).1, by decide, by decide⟩,
    ⟨_, (alem_saman_compare (sample_machine 2 10 5 false) (by decide) (by decide)
      (by decide)).2.1, by decide, by decide⟩,
    ⟨_, (alem_saman_compare (sample_machine 2 10 0xC true) (by decide) (by decide)
      (by decide)).1, by decide⟩,
    ⟨_, (alem_saman_compare (sample_machine 2 10 0xC true) (by decide) (by decide)
      (by decide)).2.1, by decide, by decide⟩⟩

/-- C20: for every state with `A < 16` and every `i` in `0..14`, with
`k = [1,9,5,13,3,11,7,15,2,10,6,14,4,12,8][i]`, `exec(0x70+i)` returns the state in
which `A` is `(A + k) mod 16` and `S` is `(A + k > 15)`, nothing else being changed;
`exec(0x7F)` returns the state in which `A` is 0 and `S` is true; and `exec(0x7F)` then
`exec(0x71)` yields `A = 9` and `S` false. -/
theorem add_constant_opcodes (t : TMS1100) (ha : t.cpu_.reg_a_ < 16) :
    (∀ i, i < 15 →
      t.exec (0x70 + i) = .ok { t with cpu_ := { t.cpu_ with
        reg_s_ := decide (t.cpu_.reg_a_ +
          [1, 9, 5, 13, 3, 11, 7, 15, 2, 10, 6, 14, 4, 12, 8].getD i 0 > 15)
        reg_a_ := (t.cpu_.reg_a_ +
          [1, 9, 5, 13, 3, 11, 7, 15, 2, 10, 6, 14, 4, 12, 8].getD i 0) % 16 } }) ∧
    t.exec 0x7F = .ok { t with cpu_ := { t.cpu_ with reg_s_ := true, reg_a_ := 0 } } ∧
    (∃ t1 t2, t.exec 0x7F = .ok t1 ∧ t1.exec 0x71 = .ok t2 ∧
      t2.cpu_.reg_a_ = 9 ∧ t2.cpu_.reg_s_ = false) := by
  refine ⟨fun i hi => ?_, exec_cla t, _, _, exec_cla t,
    exec_a_aac ⟨{ t.cpu_ with reg_s_ := true, reg_a_ := 0 }, t.rom_, t.ram_⟩ 1 (by decide),
    ?_, ?_⟩
  · obtain ⟨h1, h2⟩ := add_values _ ha i hi
    rw [exec_a_aac t i hi, h1, h2]
  · show SET4 ((0 + 9) % 256) = 9
    decide
  · show decide ((0 + 9) % 256 > 0x0F) = false
    decide

/-- Instance of `add_constant_opcodes`: from `A = 0xA`, opcode `0x71` (`k = 9`) gives
`A = 3` and `S = 1`; `CLA` gives `A = 0`, `S = 1`. -/
theorem add_constant_opcodes_witness :
    (sample_machine 2 10 0xA false).exec 0x71 = .ok (sample_machine 2 10 3 true) ∧
    (sample_machine 2 10 0xA false).exec 0x7F = .ok (sample_machine 2 10 0 true) ∧
    (∃ t1 t2, (sample_machine 2 10 0xA false).exec 0x7F = .ok t1 ∧ t1.exec 0x71 = .ok t2 ∧
      t2.cpu_.reg_a_ = 9 ∧ t2.cpu_.reg_s_ = false) :=
  ⟨(add_constant_opcodes (sample_machine 2 10 0xA false) (by decide)).1 1 (by decide),
    (add_constant_opcodes (sample_machine 2 10 0xA false) (by decide)).2.1,
    (add_constant_opcodes (sample_machine 2 10 0xA false) (by decide)).2.2⟩

end TMS

namespace TMS

/-! ## Taken branch: statement C21 -/

/-- C21: for every state with `S` true (the registers `CB` and `PB` being within their
widths) and every opcode in `0x80..0xBF`, `exec` returns the state in which `CA` is the
old `CB` and `PC = opcode & 0x3F`; when `CL` was false `PA` is the old `PB`, and when
`CL` was true `PA` is unchanged. Every other field (`PB`, `CB`, `CS`, `SR`, `CL`, `A`,
`X`, `Y`, `S`, `SL`, `K`, `O`, RAM, R, the callbacks and their trace) is unchanged. -/
theorem exec_br_taken_frame (t : TMS1100) (opcode : Nat) (h1 : 0x80 ≤ opcode)
    (h2 : opcode ≤ 0xBF) (hs : t.cpu_.reg_s_ = true) (hcb : t.cpu_.reg_cb_ < 2)
    (hpb : t.cpu_.reg_pb_ < 16) :
    (t.cpu_.reg_cl_ = false →
      t.exec opcode = .ok { t with cpu_ := { t.cpu_ with
        reg_ca_ := t.cpu_.reg_cb_
        reg_pc_ := opcode &&& 0x3F
        reg_pa_ := t.cpu_.reg_pb_ } }) ∧
    (t.cpu_.reg_cl_ = true →
      t.exec opcode = .ok { t with cpu_ := { t.cpu_ with
        reg_ca_ := t.cpu_.reg_cb_
        reg_pc_ := opcode &&& 0x3F } }) := by
  have h := exec_br_taken t opcode h1 h2 hs
  rw [SET1_of_lt _ hcb, SET4_of_lt _ hpb] at h
  constructor
  · intro hcl
    rw [h, hcl]
    rfl
  · intro hcl
    rw [h, hcl]
    rfl

/-- Instance of `exec_br_taken_frame`: `BR 5` with `S` set, `CB = 1`, `PB = 3`, `PA = 9`
moves `PB` into `PA` outside a subroutine and leaves `PA` alone inside one. -/
theorem exec_br_taken_frame_witness :
    (⟨{ CPUState.ctor with reg_s_ := true, reg_cb_ := 1, reg_pb_ := 3, reg_pa_ := 9 },
        ROM.ctor, (TMS1100.ctor ROM.ctor).ram_⟩ : TMS1100).exec 0x85 =
      .ok ⟨{ CPUState.ctor with
        reg_s_ := true, reg_cb_ := 1, reg_pb_ := 3, reg_ca_ := 1, reg_pc_ := 5, reg_pa_ := 3 },
        ROM.ctor, (TMS1100.ctor ROM.ctor).ram_⟩ ∧
    (⟨{ CPUState.ctor with
        reg_s_ := true, reg_cl_ := true, reg_cb_ := 1, reg_pb_ := 3, reg_pa_ := 9 },
        ROM.ctor, (TMS1100.ctor ROM.ctor).ram_⟩ : TMS1100).exec 0x85 =
      .ok ⟨{ CPUState.ctor with
        reg_s_ := true, reg_cl_ := true, reg_cb_ := 1, reg_pb_ := 3, reg_ca_ := 1,
        reg_pc_ := 5, reg_pa_ := 9 },
        ROM.ctor, (TMS1100.ctor ROM.ctor).ram_⟩ :=
  ⟨(exec_br_taken_frame
      ⟨{ CPUState.ctor with reg_s_ := true, reg_cb_ := 1, reg_pb_ := 3, reg_pa_ := 9 },
        ROM.ctor, (TMS1100.ctor ROM.ctor).ram_⟩ 0x85
      (by decide) (by decide) rfl (by decide) (by decide)).1 rfl,
    (exec_br_taken_frame
      ⟨{ CPUState.ctor with
        reg_s_ := true, reg_cl_ := true, reg_cb_ := 1, reg_pb_ := 3, reg_pa_ := 9 },
        ROM.ctor, (TMS1100.ctor ROM.ctor).ram_⟩ 0x85
      (by decide) (by decide) rfl (by decide) (by decide)).2 rfl⟩

/-! ## No access out of range: statement C22 -/


theorem fetch_address_lt (ca pa pc : Nat) (h1 : ca < 2) (h2 : pa < 16) (h3 : pc < 64) :
    (ca <<< 10) ||| (pa <<< 6) ||| pc < 2048 := by
  have e1 : ca <<< 10 < 2 ^ 11 := by rw [Nat.shiftLeft_eq]; omega
  have e2 : pa <<< 6 < 2 ^ 11 := by rw [Nat.shiftLeft_eq]; omega
  have e3 : pc < 2 ^ 11 := by omega
  exact Nat.or_lt_two_pow (Nat.or_lt_two_pow e1 e2) e3

theorem large_rom_holds : large_rom.Holds 4096 :=
  ⟨rfl, List.length_replicate _ _, fun x hx => by rw [List.eq_of_mem_replicate hx]; decide⟩

/-- The fetch of `step` succeeds at every address below the size of the ROM. -/
theorem get_data_in_range (rom : ROM) (size index : Nat) (hrom : rom.Holds size)
    (h : index < size) : ∃ opcode, rom.get_data index = .ok opcode ∧ opcode < 256 := by
  obtain ⟨h1, h2, h3⟩ := hrom
  have hin : index < rom.data_.length := by omega
  refine ⟨rom.data_[index], ?_, h3 _ (List.getElem_mem _)⟩
  unfold ROM.get_data
  rw [if_neg (by omega), List.getElem?_eq_getElem hin]

/-- C22: from the constructed power-up state, for every ROM object holding `size` bytes
with `size` at least 2048, every choice of registered callbacks (the K callback being
any function from `int` to `int`) and every number `n` of calls of `step`, the `n` calls
return, and in the state they reach the fetch address `(CA << 10) | (PA << 6) | PC` is
below 2048 and the RAM index `(X << 4) | Y` is below 128; `ROM::get_data` returns a byte
at that address, and the next call of `step` returns as well (no out-of-range fault of
`get_data`, no RAM access outside the 128 cells, no read of an unwritten constant). -/
theorem step_never_out_of_range (rom : ROM) (size : Nat) (hsize : 2048 ≤ size)
    (hrom : rom.Holds size) (r_cb o_cb : Bool) (k_cb : Option (Int → Int)) (n : Nat) :
    ∃ t, TMS1100.steps n ((TMS1100.ctor rom).attach r_cb o_cb k_cb) = .ok t ∧
      t.rom_ = rom ∧
      (t.cpu_.get_ca <<< 10) ||| (t.cpu_.get_pa <<< 6) ||| t.cpu_.get_pc < 2048 ∧
      t.CURR_RAM_index < RAM_SIZE ∧
      (t.cpu_.get_x <<< 4) ||| t.cpu_.get_y < 128 ∧
      (∃ opcode, t.rom_.get_data
        (((t.cpu_.get_ca <<< 10) ||| (t.cpu_.get_pa <<< 6) ||| t.cpu_.get_pc) % 65536) =
          .ok opcode) ∧
      (∃ t', t.step = .ok t') ∧
      ∀ e, TMS1100.steps (n + 1) ((TMS1100.ctor rom).attach r_cb o_cb k_cb) ≠ .error e := by
  obtain ⟨h1, h2, h3⟩ := attach_fields rom r_cb o_cb k_cb
  have hrom0 : ((TMS1100.ctor rom).attach r_cb o_cb k_cb).rom_.Holds size := by
    rw [h3]; exact hrom
  obtain ⟨t, e1, e2, e3, e4⟩ := steps_preserves size hsize n _ hrom0 h1 h2
  have hrom1 : t.rom_.Holds size := by rw [e4]; exact hrom0
  obtain ⟨t', f1, _⟩ := step_preserves t size hsize hrom1 e2 e3
  obtain ⟨t2, g1, _⟩ := steps_preserves size hsize (n + 1) _ hrom0 h1 h2
  have haddr := fetch_address_lt _ _ _ e2.2.2.2.2.2.2.2.2.2.1 e2.2.1 e2.1
  have hram := CURR_RAM_index_lt t e2.2.2.2.1 e2.2.2.2.2.2.1
  obtain ⟨opcode, hget, _⟩ := get_data_in_range t.rom_ size
    (((t.cpu_.get_ca <<< 10) ||| (t.cpu_.get_pa <<< 6) ||| t.cpu_.get_pc) % 65536) hrom1
    (by
      have : (t.cpu_.get_ca <<< 10) ||| (t.cpu_.get_pa <<< 6) ||| t.cpu_.get_pc < 2048 := haddr
      omega)
  refine ⟨t, e1, by rw [e4, h3], haddr, hram, hram, ⟨opcode, hget⟩, ⟨t', f1⟩, ?_⟩
  intro e he
  rw [g1] at he
  cases he

/-- Instance of `step_never_out_of_range`: a ROM of 4096 `KNEZ` bytes, a K callback that
always returns `-1`, seven steps. -/
theorem step_never_out_of_range_witness :
    2048 ≤ 4096 ∧ large_rom.Holds 4096 ∧
    ∃ t, TMS1100.steps 7 ((TMS1100.ctor large_rom).attach true true (some fun _ => -1)) =
        .ok t ∧
      t.rom_ = large_rom ∧
      (t.cpu_.get_ca <<< 10) ||| (t.cpu_.get_pa <<< 6) ||| t.cpu_.get_pc < 2048 ∧
      t.CURR_RAM_index < RAM_SIZE ∧
      (t.cpu_.get_x <<< 4) ||| t.cpu_.get_y < 128 ∧
      (∃ opcode, t.rom_.get_data
        (((t.cpu_.get_ca <<< 10) ||| (t.cpu_.get_pa <<< 6) ||| t.cpu_.get_pc) % 65536) =
          .ok opcode) ∧
      (∃ t', t.step = .ok t') ∧
      ∀ e, TMS1100.steps (7 + 1)
        ((TMS1100.ctor large_rom).attach true true (some fun _ => -1)) ≠ .error e :=
  ⟨by decide, large_rom_holds,
    step_never_out_of_range large_rom 4096 (by decide) large_rom_holds true true
      (some fun _ => -1) 7⟩

/-! ## The dispatch tables: statement C23 -/

theorem op_code_func_total : ∀ op, op < 256 → (op_code_func_ op).isSome = true := by decide

theorem op_code_func_ranges : ∀ op, op < 256 →
    (op_code_func_ op = some OpFunc.op_a_aac ↔ 0x70 ≤ op ∧ op ≤ 0x7E) ∧
    (op_code_func_ op = some OpFunc.op_ldp ↔ 0x10 ≤ op ∧ op ≤ 0x1F) ∧
    (op_code_func_ op = some OpFunc.op_tcy ↔ 0x40 ≤ op ∧ op ≤ 0x4F) ∧
    (op_code_func_ op = some OpFunc.op_ynec ↔ 0x50 ≤ op ∧ op ≤ 0x5F) ∧
    (op_code_func_ op = some OpFunc.op_tcmiy ↔ 0x60 ≤ op ∧ op ≤ 0x6F) ∧
    (op_code_func_ op = some OpFunc.op_sbit ↔ 0x30 ≤ op ∧ op ≤ 0x33) ∧
    (op_code_func_ op = some OpFunc.op_rbit ↔ 0x34 ≤ op ∧ op ≤ 0x37) ∧
    (op_code_func_ op = some OpFunc.op_tbit1 ↔ 0x38 ≤ op ∧ op ≤ 0x3B) ∧
    (op_code_func_ op = some OpFunc.op_ldx ↔ 0x28 ≤ op ∧ op ≤ 0x2F) := by
  decide

theorem extends_set_func (a b : OpTables) (i : Nat) (f : Option OpFunc)
    (h : a.Extends b) : (a.set_func i f).Extends (b.set_func i f) := by
  refine ⟨fun j g hg => ?_, h.2⟩
  simp only [OpTables.set_func] at hg ⊢
  by_cases hj : j = i
  · rw [if_pos hj] at hg ⊢; exact hg
  · rw [if_neg hj] at hg ⊢; exact h.1 j g hg

theorem extends_set_constant (a b : OpTables) (i k : Nat)
    (h : a.Extends b) : (a.set_constant i k).Extends (b.set_constant i k) := by
  refine ⟨h.1, fun j g hg => ?_⟩
  simp only [OpTables.set_constant] at hg ⊢
  by_cases hj : j = i
  · rw [if_pos hj] at hg ⊢; exact hg
  · rw [if_neg hj] at hg ⊢; exact h.2 j g hg

theorem extends_setup (a b : OpTables) (h : a.Extends b) :
    (setup_op_codes a).Extends (setup_op_codes b) := by
  simp only [setup_op_codes]
  repeat (first
    | exact h
    | apply extends_set_func
    | apply extends_set_constant)

theorem null_loop (l : List Nat) : ∀ tb : OpTables,
    (∀ j, tb.op_code_func_ j = none) → (∀ j, tb.op_code_constant_ j = none) →
    (∀ j, (l.foldl (fun (tb : OpTables) i => tb.set_func i none) tb).op_code_func_ j = none) ∧
    (∀ j, (l.foldl (fun (tb : OpTables) i => tb.set_func i none) tb).op_code_constant_ j
      = none) := by
  induction l with
  | nil => intro tb h1 h2; exact ⟨h1, h2⟩
  | cons x l ih =>
    intro tb h1 h2
    refine ih _ (fun j => ?_) h2
    simp only [OpTables.set_func]
    split
    · rfl
    · exact h1 j

/-- Whatever the two tables hold before, `setup_op_codes` leaves in them every handler
and every constant of `op_tables`. -/
theorem setup_extends_op_tables (tb : OpTables) : (setup_op_codes tb).Extends op_tables := by
  unfold op_tables
  apply extends_setup
  obtain ⟨h1, h2⟩ := null_loop (List.range 256)
    { op_code_func_ := fun _ => none, op_code_constant_ := fun _ => none }
    (fun _ => rfl) (fun _ => rfl)
  refine ⟨fun j f hf => ?_, fun j k hk => ?_⟩
  · rw [h1 j] at hf; cases hf
  · rw [h2 j] at hk; cases hk

/-- C23: whatever the two tables hold before, after `setup_op_codes` every opcode
`0..255` has a handler, the one of the tables that the constructor leaves (every handler
cell set to `NULL`, then `setup_op_codes`), so `exec` always calls a handler (with the
old `S` as `last_s`, after setting `S`); the handlers that read
`op_code_constant_[opcode]` are bound exactly to `0x70..0x7E` (`op_a_aac`), `0x10..0x1F`
(`op_ldp`), `0x40..0x4F` (`op_tcy`), `0x50..0x5F` (`op_ynec`), `0x60..0x6F`
(`op_tcmiy`), `0x30..0x33` (`op_sbit`), `0x34..0x37` (`op_rbit`), `0x38..0x3B`
(`op_tbit1`) and `0x28..0x2F` (`op_ldx`); and at every opcode bound to one of them the
constant cell was written by `setup_op_codes` (whatever it held before), with a value
`<= 15`, `<= 3` for the three bit handlers and `<= 7` for `op_ldx`. -/
theorem dispatch_table_total :
    (∀ (tb : OpTables) opcode, opcode < 256 →
      ∃ f, (setup_op_codes tb).op_code_func_ opcode = some f ∧ op_code_func_ opcode = some f) ∧
    (∀ (t : TMS1100) opcode, opcode < 256 → ∃ f, op_code_func_ opcode = some f ∧
      t.exec opcode =
        f.call opcode t.cpu_.reg_s_ { t with cpu_ := { t.cpu_ with reg_s_ := true } }) ∧
    (∀ opcode, opcode < 256 →
      (op_code_func_ opcode = some OpFunc.op_a_aac ↔ 0x70 ≤ opcode ∧ opcode ≤ 0x7E) ∧
      (op_code_func_ opcode = some OpFunc.op_ldp ↔ 0x10 ≤ opcode ∧ opcode ≤ 0x1F) ∧
      (op_code_func_ opcode = some OpFunc.op_tcy ↔ 0x40 ≤ opcode ∧ opcode ≤ 0x4F) ∧
      (op_code_func_ opcode = some OpFunc.op_ynec ↔ 0x50 ≤ opcode ∧ opcode ≤ 0x5F) ∧
      (op_code_func_ opcode = some OpFunc.op_tcmiy ↔ 0x60 ≤ opcode ∧ opcode ≤ 0x6F) ∧
      (op_code_func_ opcode = some OpFunc.op_sbit ↔ 0x30 ≤ opcode ∧ opcode ≤ 0x33) ∧
      (op_code_func_ opcode = some OpFunc.op_rbit ↔ 0x34 ≤ opcode ∧ opcode ≤ 0x37) ∧
      (op_code_func_ opcode = some OpFunc.op_tbit1 ↔ 0x38 ≤ opcode ∧ opcode ≤ 0x3B) ∧
      (op_code_func_ opcode = some OpFunc.op_ldx ↔ 0x28 ≤ opcode ∧ opcode ≤ 0x2F)) ∧
    (∀ (tb : OpTables) opcode, opcode < 256 →
      (op_code_func_ opcode ∈ [some OpFunc.op_a_aac, some .op_ldp, some .op_tcy,
          some .op_ynec, some .op_tcmiy] →
        ∃ k, (setup_op_codes tb).op_code_constant_ opcode = some k ∧
          op_code_constant_ opcode = .ok k ∧ k ≤ 15) ∧
      (op_code_func_ opcode ∈ [some OpFunc.op_sbit, some .op_rbit, some .op_tbit1] →
        ∃ k, (setup_op_codes tb).op_code_constant_ opcode = some k ∧
          op_code_constant_ opcode = .ok k ∧ k ≤ 3) ∧
      (op_code_func_ opcode = some OpFunc.op_ldx →
        ∃ k, (setup_op_codes tb).op_code_constant_ opcode = some k ∧
          op_code_constant_ opcode = .ok k ∧ k ≤ 7)) := by
  have htotal : ∀ opcode, opcode < 256 → ∃ f, op_code_func_ opcode = some f :=
    fun opcode h => Option.isSome_iff_exists.mp (op_code_func_total opcode h)
  have hconst : ∀ (tb : OpTables) opcode n,
      (op_tables.op_code_constant_ opcode).any (fun k => decide (k < n + 1)) = true →
      ∃ k, (setup_op_codes tb).op_code_constant_ opcode = some k ∧
        op_code_constant_ opcode = .ok k ∧ k ≤ n := by
    intro tb opcode n hany
    obtain ⟨k, e, hk⟩ := constant_of_any opcode (n + 1) hany
    refine ⟨k, (setup_extends_op_tables tb).2 opcode k ?_, e, by omega⟩
    unfold op_code_constant_ at e
    cases hc : op_tables.op_code_constant_ opcode with
    | none => rw [hc] at e; cases e
    | some k2 => rw [hc] at e; cases e; rfl
  refine ⟨fun tb opcode h => ?_, fun t opcode h => ?_, op_code_func_ranges,
    fun tb opcode h => ⟨?_, ?_, ?_⟩⟩
  · obtain ⟨f, hf⟩ := htotal opcode h
    exact ⟨f, (setup_extends_op_tables tb).1 opcode f hf, hf⟩
  · obtain ⟨f, hf⟩ := htotal opcode h
    exact ⟨f, hf, exec_of_func t opcode f hf⟩
  · intro hf
    exact hconst tb opcode 15 ((constant_table opcode h).1 hf)
  · intro hf
    exact hconst tb opcode 3 ((constant_table opcode h).2.1 hf)
  · intro hf
    exact hconst tb opcode 7 ((constant_table opcode h).2.2 hf)

end TMS

/-! ## RAM nibbles along a run, for every ROM object: statement C5 -/

namespace TMS

theorem set_func_high (tb : OpTables) (i : Nat) (f : Option OpFunc)
    (hi : decide (i < 256) = true)
    (h : ∀ j, 256 ≤ j → tb.op_code_func_ j = none) :
    ∀ j, 256 ≤ j → (tb.set_func i f).op_code_func_ j = none := by
  intro j hj
  have hi' : i < 256 := of_decide_eq_true hi
  simp only [OpTables.set_func]
  rw [if_neg (by omega)]
  exact h j hj

theorem set_constant_high (tb : OpTables) (i k : Nat)
    (h : ∀ j, 256 ≤ j → tb.op_code_func_ j = none) :
    ∀ j, 256 ≤ j → (tb.set_constant i k).op_code_func_ j = none := h

theorem setup_high (tb : OpTables) (h : ∀ j, 256 ≤ j → tb.op_code_func_ j = none) :
    ∀ j, 256 ≤ j → (setup_op_codes tb).op_code_func_ j = none := by
  simp only [setup_op_codes]
  repeat (first
    | exact h
    | refine set_func_high _ _ _ rfl ?_
    | refine set_constant_high _ _ _ ?_)

/-- No cell of `op_code_func_` beyond the 256 opcodes is ever written. -/
theorem op_code_func_high (opcode : Nat) (h : 256 ≤ opcode) : op_code_func_ opcode = none := by
  unfold op_code_func_ op_tables
  refine setup_high _ (fun j _ => ?_) opcode h
  exact (null_loop (List.range 256)
    { op_code_func_ := fun _ => none, op_code_constant_ := fun _ => none }
    (fun _ => rfl) (fun _ => rfl)).1 j

/-- The handler of an opcode keeps the register widths and the RAM nibbles, for every
value of `opcode`, a byte or not. -/
theorem exec_preserves_any (t : TMS1100) (opcode : Nat) (hc : t.cpu_.WidthInv)
    (hr : t.RamInv) :
    ∃ t', t.exec opcode = .ok t' ∧ t'.cpu_.WidthInv ∧ t'.RamInv ∧ t'.rom_ = t.rom_ := by
  by_cases hlt : opcode < 256
  · exact exec_preserves t opcode hlt hc hr
  · unfold TMS1100.exec
    rw [op_code_func_high opcode (by omega)]
    exact ⟨_, rfl, hc, hr, rfl⟩

/-- A call of `step` that returns keeps the register widths and the RAM nibbles, whatever
the ROM object holds. -/
theorem step_preserves_of_ok (t t' : TMS1100) (h : t.step = .ok t') (hc : t.cpu_.WidthInv)
    (hr : t.RamInv) : t'.cpu_.WidthInv ∧ t'.RamInv ∧ t'.rom_ = t.rom_ := by
  obtain ⟨hpc, hpa, hpb, hx, ha, hy, hk, ho, hsr, hca, hcb, hcs⟩ := hc
  have hc' : ({ t with cpu_ := t.cpu_.increment_pc } : TMS1100).cpu_.WidthInv :=
    ⟨SET6_lt _, hpa, hpb, hx, ha, hy, hk, ho, hsr, hca, hcb, hcs⟩
  simp only [TMS1100.step, bind, Except.bind] at h
  split at h
  · cases h
  · rename_i opcode _
    obtain ⟨t2, e1, e2, e3, e4⟩ := exec_preserves_any _ opcode hc' hr
    rw [e1] at h
    cases h
    exact ⟨e2, e3, e4⟩

theorem steps_preserves_of_ok : ∀ (n : Nat) (t t' : TMS1100), TMS1100.steps n t = .ok t' →
    t.cpu_.WidthInv → t.RamInv → t'.cpu_.WidthInv ∧ t'.RamInv ∧ t'.rom_ = t.rom_ := by
  intro n
  induction n with
  | zero =>
    intro t t' h hc hr
    cases h
    exact ⟨hc, hr, rfl⟩
  | succ n ih =>
    intro t t' h hc hr
    simp only [TMS1100.steps, bind, Except.bind] at h
    split at h
    · cases h
    · rename_i t1 h1
      obtain ⟨e2, e3, e4⟩ := step_preserves_of_ok t t1 h1 hc hr
      obtain ⟨f2, f3, f4⟩ := ih t1 t' h e2 e3
      exact ⟨f2, f3, by rw [f4, e4]⟩

/-- The first step of a constructed machine on a ROM of 1024 `TCMIY 0` bytes. -/
theorem small_rom_first_step :
    TMS1100.steps 1 ((TMS1100.ctor small_rom).attach false false none) = .ok
      ⟨{ CPUState.ctor with reg_s_ := true, reg_pc_ := 1, reg_y_ := 0xB }, small_rom,
        fun j => if j = 42 then 0 else (TMS1100.ctor ROM.ctor).ram_ j⟩ := by
  have e := step_of_cpu CPUState.ctor small_rom (TMS1100.ctor ROM.ctor).ram_ 0x3C0 0x60
    (by decide) (get_data_replicate 1024 0x60 0x3C0 (by decide))
  have e2 := exec_of_func ⟨CPUState.ctor.increment_pc, small_rom, (TMS1100.ctor ROM.ctor).ram_⟩
    0x60 .op_tcmiy (by decide)
  show (do let t ← (⟨CPUState.ctor, small_rom, (TMS1100.ctor ROM.ctor).ram_⟩ : TMS1100).step
           TMS1100.steps 0 t) = _
  rw [e, e2]
  rfl

/-- C5: the constructed machine has all 128 RAM cells equal to `0xA`; for every ROM
object (of any size and content), every choice of registered callbacks (the K callback
being any function from `int` to `int`) and every number `n` of calls of `step`, if the
`n` calls return then every one of the 128 RAM cells is in `[0, 15]`; and when the ROM
object holds `size` bytes with `size` at least 2048, the `n` calls do return. -/
theorem step_ram_nibbles (rom : ROM) (r_cb o_cb : Bool) (k_cb : Option (Int → Int))
    (n : Nat) :
    (∀ i, i < 128 → ((TMS1100.ctor rom).attach r_cb o_cb k_cb).ram_ i = 0xA) ∧
    (∀ t, TMS1100.steps n ((TMS1100.ctor rom).attach r_cb o_cb k_cb) = .ok t →
      ∀ i, i < 128 → t.ram_ i < 16) ∧
    (∀ size, 2048 ≤ size → rom.Holds size →
      ∃ t, TMS1100.steps n ((TMS1100.ctor rom).attach r_cb o_cb k_cb) = .ok t ∧
        ∀ i, i < 128 → t.ram_ i < 16) := by
  obtain ⟨h1, h2, h3⟩ := attach_fields rom r_cb o_cb k_cb
  refine ⟨?_, ?_, ?_⟩
  · intro i hi
    have := ctor_ram_cells i hi
    cases r_cb <;> cases o_cb <;> cases k_cb <;> exact this
  · intro t ht
    exact (steps_preserves_of_ok n _ t ht h1 h2).2.1
  · intro size hsize hrom
    obtain ⟨t, e1, _, e3, _⟩ := steps_preserves size hsize n _ (by rw [h3]; exact hrom) h1 h2
    exact ⟨t, e1, e3⟩

/-- Instance of `step_ram_nibbles`: on a ROM of 1024 `TCMIY 0` bytes the first step
returns and has written 0 to the cell `(2 << 4) | 0xA`; on a ROM of 4096 `KNEZ` bytes 40
steps return; on a ROM of 2048 `TAMIYC` bytes 40 steps return. -/
theorem step_ram_nibbles_witness :
    (∃ t, TMS1100.steps 1 ((TMS1100.ctor small_rom).attach false false none) = .ok t ∧
      t.ram_ 42 = 0 ∧ ∀ i, i < 128 → t.ram_ i < 16) ∧
    (∃ t, TMS1100.steps 40 ((TMS1100.ctor large_rom).attach true true none) = .ok t ∧
      ∀ i, i < 128 → t.ram_ i < 16) ∧
    (∀ i, i < 128 → ((TMS1100.ctor store_rom).attach false false none).ram_ i = 0xA) ∧
    ∃ t, TMS1100.steps 40 ((TMS1100.ctor store_rom).attach false false none) = .ok t ∧
      ∀ i, i < 128 → t.ram_ i < 16 :=
  ⟨⟨_, small_rom_first_step, rfl,
      (step_ram_nibbles small_rom false false none 1).2.1 _ small_rom_first_step⟩,
    (step_ram_nibbles large_rom true true none 40).2.2 4096 (by decide) large_rom_holds,
    (step_ram_nibbles store_rom false false none 40).1,
    (step_ram_nibbles store_rom false false none 40).2.2 2048 (by decide)
      (rom_holds_replicate 0x25 (by decide))⟩

end TMS
